import Mathlib

set_option maxRecDepth 100000

/-!
Verification development for the outfit recommendation engine
(`industry4.py` of the `outfit_recommendor` repository).

The Python source is shallowly embedded: dict-shaped records become
structures, the regex-based prompt interpreter becomes explicit scanners
over `List Char`, the global `random` generator becomes an explicitly
threaded `Nat` seed with a linear-congruential step, and runtime
exceptions (the `ValueError` for unauthenticated users, and the
`IndexError` / `ZeroDivisionError` raised by `random.choice` on an empty
list or by indexing `pairs[idx % len(pairs)]` with `len(pairs) = 0`)
become an `Except Err` result.

The only component that is not embedded concretely is the perceptual
color metric `_color_distance` (a fixed RGB table converted to Lab and
compared with the floating point `delta_e_cie2000` of the colormath
library).  Every definition that consults it is parameterized over an
arbitrary metric `Dist := String → String → ℚ`; concrete evaluations
instantiate it with `distRefl`, which agrees with the real metric on the
one property those evaluations use (the distance from a color name to
itself is 0, hence below the fixed threshold 15).
-/

namespace OutfitRec

/-- Wardrobe record (one entry of `wardrobe.json` after `setdefault`). -/
structure Item where
  name : String
  category : String
  tags : List String
  age_group : String
  gender : String
  image : String
deriving Repr, DecidableEq

/-- The two profile attributes the engine consumes (`preferences` dict). -/
structure Profile where
  age_group : String
  gender : String
deriving Repr, DecidableEq

/-- Result of `get_context`. -/
structure Ctx where
  time : String
  season : String
deriving Repr, DecidableEq

/-- One recommended outfit: a `type` string and an item list. -/
structure Outfit where
  otype : String
  items : List Item
deriving Repr, DecidableEq

/-- The dict returned by `recommend_outfits`. -/
structure RecResult where
  user : String
  occasion : String
  context : Ctx
  outfits : List Outfit
deriving Repr, DecidableEq

/-- Runtime failures of `recommend_outfits`: the explicit `ValueError`
for an unauthenticated user, and the exceptions Python raises when
choosing from or indexing into an empty sequence. -/
inductive Err where
  | notAuthenticated
  | emptySeq
deriving Repr, DecidableEq

/-- One `USER_DB` entry value. -/
structure UserRec where
  password_hash : String
  preferences : Profile
deriving Repr, DecidableEq

/-- `USER_DB`, modeled as an association list keyed by username. -/
abbrev UserDB := List (String × UserRec)

/-- `username in USER_DB`. -/
def dbHasUser (db : UserDB) (u : String) : Bool :=
  db.any (fun e => e.1 == u)

/-- `set_user_preferences`: update the preferences of an existing user,
silently do nothing for an unknown username. -/
def setUserPreferences (db : UserDB) (u : String) (p : Profile) : UserDB :=
  if db.any (fun e => e.1 == u) then
    db.map (fun e => if e.1 == u then (e.1, { e.2 with preferences := p }) else e)
  else db

/-! ### Text machinery: the prompt regexes as `List Char` scanners -/

/-- Python `\w` over the ASCII prompts this program handles. -/
def isWordChar (c : Char) : Bool := c.isAlphanum || c == '_'

/-- Match a literal pattern at the head of a string, returning the rest. -/
def matchLit : List Char → List Char → Option (List Char)
  | [], s => some s
  | _ :: _, [] => none
  | p :: ps, c :: cs => if p == c then matchLit ps cs else none

/-- `pat` occurs at the start of `s`. -/
def isSubAt (pat s : List Char) : Bool := (matchLit pat s).isSome

/-- Python substring containment `pat in s`. -/
def containsSub (s pat : List Char) : Bool :=
  match s with
  | [] => isSubAt pat []
  | c :: cs => isSubAt pat (c :: cs) || containsSub cs pat

/-- Worker for `replaceAll`; the fuel is the length of the scanned
string, enough because every step consumes at least one character for
the nonempty patterns this program uses. -/
def replaceAllGo (pat rep : List Char) : Nat → List Char → List Char
  | _, [] => []
  | 0, s => s
  | fuel + 1, c :: cs =>
    match matchLit pat (c :: cs) with
    | some rest => rep ++ replaceAllGo pat rep fuel rest
    | none => c :: replaceAllGo pat rep fuel cs

/-- Python `str.replace`: replace all occurrences, left to right. -/
def replaceAll (s pat rep : List Char) : List Char :=
  replaceAllGo pat rep s.length s

/-- Word boundary after a match: end of string or a non-word character. -/
def boundaryAfter : List Char → Bool
  | [] => true
  | c :: _ => !isWordChar c

/-- Try the regex alternation keys in order at the current position,
requiring the trailing word boundary (the alternatives all start with a
word character, so the leading boundary is checked by the caller). -/
def tryKeys : List String → List Char → Option (String × List Char)
  | [], _ => none
  | k :: ks, s =>
    match matchLit k.toList s with
    | some rest => if boundaryAfter rest then some (k, rest) else tryKeys ks s
    | none => tryKeys ks s

/-- Worker for `scanKeys`: `re.findall` of the whole-word alternation of
the occasion keys, scanning left to right, continuing after each match.
The boolean tracks whether the previous character was a word character
(the `\b` state).  Fuel is the string length; every step consumes at
least one character for nonempty keys. -/
def scanKeysGo (keys : List String) : Nat → List Char → Bool → List String
  | 0, _, _ => []
  | _ + 1, [], _ => []
  | fuel + 1, c :: cs, prevWord =>
    if prevWord then scanKeysGo keys fuel cs (isWordChar c)
    else
      match tryKeys keys (c :: cs) with
      | some (k, rest) =>
        k :: scanKeysGo keys fuel rest ((k.toList.getLast?.map isWordChar).getD prevWord)
      | none => scanKeysGo keys fuel cs (isWordChar c)

/-- `re.findall(r'\b(k1|k2|...)\b', s)` for the occasion keys. -/
def scanKeys (keys : List String) (s : List Char) : List String :=
  scanKeysGo keys s.length s false

/-- Try the keyword alternation at the current position and, on a hit,
consume `\s+` then capture the maximal `\w+` run (the captured group of
the color / avoid regexes).  Backtracks to later alternatives when the
whitespace or word run is empty, as the regex engine does. -/
def tryCapture : List String → List Char → Option (String × List Char)
  | [], _ => none
  | kw :: kws, s =>
    match matchLit kw.toList s with
    | some rest =>
      let sp := rest.takeWhile (fun c => c.isWhitespace)
      let rest2 := rest.dropWhile (fun c => c.isWhitespace)
      let w := rest2.takeWhile isWordChar
      let rest3 := rest2.dropWhile isWordChar
      if !sp.isEmpty && !w.isEmpty then some (String.mk w, rest3) else tryCapture kws s
    | none => tryCapture kws s

/-- Worker for `scanCaptures`, with the same `\b` state and fuel
conventions as `scanKeysGo`. -/
def scanCapturesGo (kws : List String) : Nat → List Char → Bool → List String
  | 0, _, _ => []
  | _ + 1, [], _ => []
  | fuel + 1, c :: cs, prevWord =>
    if prevWord then scanCapturesGo kws fuel cs (isWordChar c)
    else
      match tryCapture kws (c :: cs) with
      | some (w, rest) => w :: scanCapturesGo kws fuel rest true
      | none => scanCapturesGo kws fuel cs (isWordChar c)

/-- `re.findall(r'\b(?:kw1|kw2|...)\s+(\w+)', s)`. -/
def scanCaptures (kws : List String) (s : List Char) : List String :=
  scanCapturesGo kws s.length s false

/-! ### Static tables -/

/-- `OCCASION_STYLES`, in source order (the order fixes which
alternative the occasion regex prefers at a given position). -/
def OCCASION_STYLES : List (String × List String) := [
  ("interview", ["formal"]),
  ("business meeting", ["formal"]),
  ("office", ["formal", "semi-formal"]),
  ("office party", ["semi-formal", "party"]),
  ("office ethnic day", ["ethnic"]),
  ("college ethnic day", ["ethnic"]),
  ("ethnic day", ["ethnic"]),
  ("wedding", ["party"]),
  ("ritual", ["ethnic", "traditional"]),
  ("home ritual", ["ethnic", "traditional"]),
  ("ceremony", ["ethnic", "formal"]),
  ("temple visit", ["ethnic", "traditional"]),
  ("birthday party", ["party"]),
  ("party", ["party"]),
  ("casual outing", ["casual", "shopping", "picnic"]),
  ("picnic", ["casual", "comfortable", "picnic", "shopping"]),
  ("shopping", ["casual", "shopping", "picnic"]),
  ("date", ["party", "smart-casual"]),
  ("beach party", ["party", "summerwear"]),
  ("kids party", ["colorful", "casual"]),
  ("kids outing", ["casual", "comfortable"]),
  ("family outing", ["casual", "semi-formal"]),
  ("family gathering", ["casual", "ethnic", "semi-formal"]),
  ("school", ["uniform", "casual"]),
  ("school function", ["ethnic", "formal"]),
  ("tuition", ["casual"]),
  ("cooking", ["comfortable"]),
  ("swimming", ["swim", "swimwear", "swiming"]),
  ("sports", ["gym", "yoga", "camping", "trekking", "running", "hiking"]),
  ("gym", ["yoga", "hiking", "camping", "trekking", "running"]),
  ("exercise", ["gym", "yoga", "hiking", "camping", "trekking", "running"]),
  ("yoga", ["gym", "hiking", "camping", "trekking", "running"]),
  ("meditation", ["yoga"]),
  ("hiking", ["gym", "yoga", "camping", "trekking", "running"]),
  ("camping", ["gym", "yoga", "hiking", "trekking", "running"]),
  ("trekking", ["gym", "yoga", "camping", "hiking", "running"]),
  ("mountain climbing", ["gym", "yoga", "camping", "trekking", "running", "hiking"]),
  ("gardening", ["casual", "camping"])]

/-- The occasion keys, in table order. -/
def occasionKeys : List String := OCCASION_STYLES.map (fun e => e.1)

/-- `OCCASION_SYNONYMS`. -/
def OCCASION_SYNONYMS : List (String × List String) := [
  ("party", ["birthday party", "beach party", "wedding", "date", "office party", "officeparty"]),
  ("gym", ["yoga", "hiking", "camping", "trekking", "running", "exercise"]),
  ("shopping", ["mall", "buying clothes", "store visit"]),
  ("picnic", ["outdoor fun", "park outing"])]

/-- The apostrophe character, written by code point. -/
def aposChar : Char := Char.ofNat 39

/-- The avoid-regex alternative containing an apostrophe. -/
def dontWant : String :=
  String.mk (['d', 'o', 'n', aposChar, 't', ' ', 'w', 'a', 'n', 't'])

/-- Alternatives of the forbidden-color regex, in source order. -/
def avoidKeywords : List String := ["avoid", "not", "no", dontWant, "skip"]

/-- Alternatives of the requested-color regex, in source order. -/
def colorKeywords : List String := ["in", "with", "wearing", "colour", "color", "shade of"]

/-- The office ethnic / traditional / cultural phrasings. -/
def officeEthnicPatterns : List String :=
  ["office ethnic", "office traditional", "office cultural",
   "office ethnic day", "office traditional day", "office cultural day"]

/-- The outing-like fallback words. -/
def outingWords : List String := ["outing", "walk", "park", "shopping", "picnic"]

/-! ### Prompt interpretation -/

/-- The tuple returned by `extract_prompt_requirements`. -/
structure Reqs where
  colors : List String
  occasions : List String
  avoid : List String
  needs_layer : Bool
deriving Repr, DecidableEq

/-- `set.add` on the insertion-ordered list model of a Python set. -/
def addUnique (l : List String) (x : String) : List String :=
  if l.contains x then l else l ++ [x]

/-- Dedup a list the way `list(set(...))` does, keeping one copy each
(insertion order stands in for the unspecified set iteration order). -/
def dedupList (l : List String) : List String := l.foldl addUnique []

/-- Chain of near-white replacements applied to each forbidden color. -/
def normAvoid (a : String) : String :=
  String.mk (replaceAll (replaceAll (replaceAll (replaceAll (replaceAll
    a.toList "offwhite".toList "white".toList)
    "off-white".toList "white".toList)
    "cream".toList "white".toList)
    "ivory".toList "white".toList)
    "beige".toList "white".toList)

/-- The lowercased prompt after the swim-misspelling replacements. -/
def promptNorm (prompt : String) : List Char :=
  let p := prompt.toList.map Char.toLower
  replaceAll (replaceAll (replaceAll p
    "swiming".toList "swimming".toList)
    "swim ".toList "swimming ".toList)
    " swim".toList " swimming".toList

/-- The occasion list after the whole-word regex pass and the
substring-containment pass over the occasion keys. -/
def extractOccPre (p2 : List Char) : List String :=
  let occasions0 := scanKeys occasionKeys p2
  occasionKeys.foldl
    (fun occ k => if !(occ.contains k) && containsSub p2 k.toList then occ ++ [k] else occ)
    occasions0

/-- The expanded occasion set: synonym expansion in both directions,
the forced ethnic additions, and the outing-word `casual` fallback. -/
def extractExpanded (p2 : List Char) : List String :=
  let occasions := extractOccPre p2
  let expanded := occasions.foldl addUnique []
  let expanded := OCCASION_SYNONYMS.foldl
    (fun e kv => if kv.2.any (fun syn => containsSub p2 syn.toList) then addUnique e kv.1 else e)
    expanded
  let expanded := occasions.foldl
    (fun e occ => OCCASION_SYNONYMS.foldl
      (fun e2 kv => if kv.2.contains occ then addUnique e2 kv.1 else e2) e)
    expanded
  let force_ethnic := officeEthnicPatterns.any (fun pat => containsSub p2 pat.toList)
  let force_ethnic_general :=
    (["ethnic", "traditional", "cultural"] : List String).any
      (fun w => containsSub p2 w.toList)
  let expanded :=
    if force_ethnic || force_ethnic_general then
      addUnique (addUnique (addUnique expanded "ethnic day") "ethnic") "traditional"
    else expanded
  if expanded.isEmpty && outingWords.any (fun w => containsSub p2 w.toList) then
    expanded ++ ["casual"]
  else expanded

/-- The final occasion list: `list(expanded or ["general"])`. -/
def extractOccasions (prompt : String) : List String :=
  let expanded := extractExpanded (promptNorm prompt)
  if expanded.isEmpty then ["general"] else expanded

/-- `extract_prompt_requirements`. -/
def extractReqs (prompt : String) : Reqs :=
  let p := prompt.toList.map Char.toLower
  let colors := scanCaptures colorKeywords p
  let avoid := (scanCaptures avoidKeywords p).map normAvoid
  let p2 := promptNorm prompt
  let needs_layer := containsSub p2 "layer".toList || containsSub p2 "cold".toList
  ⟨dedupList colors, extractOccasions prompt, dedupList avoid, needs_layer⟩

/-- `get_context`, with the wall-clock hour and month passed in. -/
def getContext (hour month : Nat) : Ctx :=
  ⟨(if hour < 12 then "morning" else if hour < 17 then "afternoon" else "evening"),
   (if month == 12 || month == 1 || month == 2 then "winter"
    else if month == 3 || month == 4 || month == 5 then "summer" else "monsoon")⟩

/-! ### Catalog filtering and color matching -/

/-- `_filter_by_profile`: the eligibility predicate on one item. -/
def profileOk (profile : Profile) (i : Item) : Bool :=
  (i.age_group == "all" || i.age_group == profile.age_group) &&
  (i.gender == "unisex" || i.gender == profile.gender)

/-- `_filter_by_profile`. -/
def filterByProfile (its : List Item) (profile : Profile) : List Item :=
  its.filter (profileOk profile)

/-- The inner `filter_category(cat, gender=None)` of `recommend_outfits`. -/
def filterCategory (its : List Item) (cat : String) (gender : Option String) : List Item :=
  let cat_items := its.filter (fun i => i.category == cat)
  match gender with
  | some g => cat_items.filter (fun i => i.gender == g || i.gender == "unisex")
  | none => cat_items

/-- The color vocabulary restricted to by `_color_match`. -/
def color_terms : List String :=
  ["red", "blue", "green", "black", "white", "pink", "gray", "yellow",
   "purple", "orange", "brown", "navy", "gold", "cream", "ivory", "offwhite", "beige"]

/-- Stand-in type of `_color_distance` (see the header note). -/
abbrev Dist := String → String → ℚ

/-- `_color_match(item_tags, requested_colors, forbidden_colors)`. -/
def colorMatch (dist : Dist) (item_tags requested forbidden : List String) : Bool :=
  let color_tags := item_tags.filter (fun t => color_terms.contains t)
  if color_tags.any (fun tag => forbidden.any (fun fc => decide (dist tag fc < 15))) then false
  else if !requested.isEmpty then
    color_tags.any (fun tag => requested.any (fun rc => decide (dist tag rc < 15)))
  else true

/-- The inner `color_matched(items)` helper of `recommend_outfits`. -/
def colorMatchedList (dist : Dist) (colors avoid : List String) (l : List Item) : List Item :=
  if !colors.isEmpty then
    let color_items := l.filter (fun i => colorMatch dist i.tags colors avoid)
    if !color_items.isEmpty then color_items else []
  else []

/-- One item tag intersects the given tag list. -/
def hasTagIn (i : Item) (tags : List String) : Bool :=
  i.tags.any (fun t => tags.contains t)

/-! ### The random source

The Python code draws from the process-global `random` generator
(`random.choice`, `random.shuffle`).  The embedding threads an explicit
`Nat` seed through every draw; `rngStep` is a standard linear
congruential update.  `randChoice` mirrors `random.choice`, including
the `IndexError` it raises on an empty sequence. -/

/-- Advance the seed. -/
def rngStep (s : Nat) : Nat := (s * 1103515245 + 12345) % 2147483648

/-- `random.choice`: raises on an empty sequence. -/
def randChoice {α : Type} (l : List α) (s : Nat) : Except Err (α × Nat) :=
  match l with
  | [] => .error .emptySeq
  | a :: as => .ok ((a :: as).getD (s % (a :: as).length) a, rngStep s)

/-- Worker for `shuffleList`; removes a seeded position each round. -/
def shuffleGo {α : Type} : Nat → List α → Nat → List α × Nat
  | 0, l, s => (l, s)
  | fuel + 1, l, s =>
    match l with
    | [] => ([], s)
    | a :: as =>
      let i := s % (a :: as).length
      let x := (a :: as).getD i a
      let rest := (a :: as).eraseIdx i
      let step := shuffleGo fuel rest (rngStep s)
      (x :: step.1, step.2)

/-- `random.shuffle`, as a seeded permutation. -/
def shuffleList {α : Type} (l : List α) (s : Nat) : List α × Nat :=
  shuffleGo l.length l s

/-! ### Composition helpers -/

/-- A placeholder item used only as the default of guarded list
indexing; every use site is guarded by a nonemptiness test. -/
def dummyItem : Item := ⟨"", "", [], "", "", ""⟩

/-- The `{"type": "none", "items": []}` placeholder outfit. -/
def noneOutfit : Outfit := ⟨"none", []⟩

/-- `while len(outfits) < 3: outfits.append(none)`. -/
def padNone (outfits : List Outfit) : List Outfit :=
  outfits ++ List.replicate (3 - outfits.length) noneOutfit

/-- All (top, bottom) pairs, in nested-loop order. -/
def pairsOf {α β : Type} : List α → List β → List (α × β)
  | [], _ => []
  | x :: xs, ys => ys.map (fun y => (x, y)) ++ pairsOf xs ys

/-- The fill loop of the swimming branch: add swimwear whose name is not
yet used, checking the 3-outfit stop after every iteration. -/
def swimFill : List Item → List Outfit → List String → List Outfit
  | [], outfits, _ => outfits
  | sw :: rest, outfits, used =>
    let step :=
      if used.contains sw.name then (outfits, used)
      else (outfits ++ [(⟨"swimwear", [sw]⟩ : Outfit)], used ++ [sw.name])
    if step.1.length == 3 then step.1 else swimFill rest step.1 step.2

/-- The swimming-occasion early return of `recommend_outfits`. -/
def swimBranch (dist : Dist) (username : String) (occasions : List String) (context : Ctx)
    (colors avoid : List String) (swimwear_items : List Item) : RecResult :=
  let color_matched_swimwear :=
    if !colors.isEmpty then swimwear_items.filter (fun i => colorMatch dist i.tags colors avoid)
    else []
  let outfits := color_matched_swimwear.map (fun sw => (⟨"swimwear", [sw]⟩ : Outfit))
  let outfits :=
    if outfits.length < 3 then
      swimFill swimwear_items outfits (color_matched_swimwear.map (fun sw => sw.name))
    else outfits
  let outfits := padNone outfits
  ⟨username, String.intercalate ", " occasions, context, outfits⟩

/-- The active occasion set. -/
def activeOccasions : List String :=
  ["gym", "hiking", "trekking", "yoga", "exercise", "camping"]

/-- The gym / activewear early return: cycle through the candidate
pairs; indexing `pairs_to_use[idx % len(pairs_to_use)]` raises when the
pair list is empty. -/
def activeBranch (dist : Dist) (colors avoid style_tags : List String)
    (tops bottoms : List Item) : Except Err (List Outfit) :=
  let relevant_tops := tops.filter
    (fun t => t.tags.any (fun tag => style_tags.contains tag || activeOccasions.contains tag))
  let relevant_bottoms := bottoms.filter
    (fun b => b.tags.any (fun tag => style_tags.contains tag || activeOccasions.contains tag))
  let all_pairs := pairsOf relevant_tops relevant_bottoms
  let pairs_to_use :=
    if !colors.isEmpty then
      let color_pairs := all_pairs.filter
        (fun tb => colorMatch dist tb.1.tags colors avoid || colorMatch dist tb.2.tags colors avoid)
      if !color_pairs.isEmpty then color_pairs else all_pairs
    else all_pairs
  match pairs_to_use with
  | [] => .error .emptySeq
  | p :: ps =>
    .ok ((List.range 3).map (fun idx =>
      let tb := (p :: ps).getD (idx % (p :: ps).length) p
      (⟨"multi_piece", [tb.1, tb.2]⟩ : Outfit)))

/-- The party priority tag set. -/
def partyPriorityTags : List String := ["party", "semi-formal", "summerwear", "beach party"]

/-- The party fallback tag set. -/
def partyFallbackTags : List String := ["formal", "office party"]

/-- The ethnic / traditional tag set. -/
def ethnicTags : List String := ["ethnic", "traditional"]

/-- Build `[top, b]` and append a random layer when needed (the party
branch layer pattern: `random.choice(layers)` guarded by `layers`). -/
def comboWithLayer (layer_needed : Bool) (layers : List Item) (top b : Item) (s : Nat) :
    Except Err (List Item × Nat) :=
  if layer_needed && !layers.isEmpty then
    match randChoice layers s with
    | .error e => .error e
    | .ok (lyr, s2) => .ok ([top, b, lyr], s2)
  else .ok ([top, b], s)

/-- The party branch `for b in party_bottoms` loop: one fixed top against
distinct bottoms, stopping at 3 outfits. -/
def partyForLoop (layer_needed : Bool) (layers : List Item) (top : Item) :
    List Item → List Outfit → List String → Nat → Except Err (List Outfit × Nat)
  | [], outfits, _, s => .ok (outfits, s)
  | b :: rest, outfits, used, s =>
    if used.contains b.name then partyForLoop layer_needed layers top rest outfits used s
    else
      match comboWithLayer layer_needed layers top b s with
      | .error e => .error e
      | .ok (combo, s2) =>
        let outfits2 := outfits ++ [(⟨"multi_piece", combo⟩ : Outfit)]
        let used2 := used ++ [b.name]
        if outfits2.length == 3 then .ok (outfits2, s2)
        else partyForLoop layer_needed layers top rest outfits2 used2 s2

/-- The party branch `while len(outfits) < 3` loop: random bottoms with
the same top; the counter is the number of missing outfits. -/
def partyWhile (layer_needed : Bool) (layers : List Item) (top : Item)
    (party_bottoms : List Item) :
    Nat → List Outfit → Nat → Except Err (List Outfit × Nat)
  | 0, outfits, s => .ok (outfits, s)
  | k + 1, outfits, s =>
    match randChoice party_bottoms s with
    | .error e => .error e
    | .ok (b, s2) =>
      match comboWithLayer layer_needed layers top b s2 with
      | .error e => .error e
      | .ok (combo, s3) =>
        partyWhile layer_needed layers top party_bottoms k
          (outfits ++ [(⟨"multi_piece", combo⟩ : Outfit)]) s3

/-- The non-female remainder of the party-with-colors path (also reached
by female profiles without a color-matched party one-piece). -/
def partyGeneral (username : String) (occasions style_tags : List String) (context : Ctx)
    (layer_needed : Bool) (tops_all bottoms_all layers : List Item)
    (party_tops party_bottoms : List Item) (s : Nat) : Except Err RecResult :=
  let step1 : Except Err (List Outfit × Nat) :=
    if !party_tops.isEmpty && !party_bottoms.isEmpty then
      let top := party_tops.headD dummyItem
      match partyForLoop layer_needed layers top party_bottoms [] [] s with
      | .error e => .error e
      | .ok (outfits, s2) =>
        partyWhile layer_needed layers top party_bottoms (3 - outfits.length) outfits s2
    else .ok ([], s)
  match step1 with
  | .error e => .error e
  | .ok (outfits, _) =>
    let outfits :=
      if outfits.isEmpty && (style_tags.contains "ethnic" || style_tags.contains "traditional") then
        let fallback_tops := tops_all.filter (fun t => hasTagIn t ethnicTags)
        let fallback_bottoms := bottoms_all.filter (fun b => hasTagIn b ethnicTags)
        ((fallback_tops.zip fallback_bottoms).take 3).map
          (fun tb => (⟨"multi_piece", [tb.1, tb.2]⟩ : Outfit))
      else outfits
    if outfits.isEmpty then
      .ok ⟨username, String.intercalate ", " occasions, context,
           [noneOutfit, noneOutfit, noneOutfit]⟩
    else .ok ⟨username, String.intercalate ", " occasions, context, outfits⟩

/-- The body of the `if colors:` party branch after the color
re-narrowing of the party pools: the female one-piece priority path,
then `partyGeneral`. -/
def partyColorsCore (dist : Dist) (username : String)
    (occasions style_tags colors avoid : List String)
    (context : Ctx) (gender : String) (layer_needed : Bool)
    (one_pieces tops_all bottoms_all layers : List Item)
    (party_tops party_bottoms : List Item) (s : Nat) : Except Err RecResult :=
  if gender == "female" then
    let one_pieces_party := one_pieces.filter (fun op => hasTagIn op partyPriorityTags)
    let one_pieces_color := one_pieces_party.filter (fun op => colorMatch dist op.tags colors avoid)
    if !one_pieces_color.isEmpty then
      let outfits := (one_pieces_color.take 3).map (fun op => (⟨"one_piece", [op]⟩ : Outfit))
      let needed := 3 - outfits.length
      let outfits :=
        if !party_tops.isEmpty && !party_bottoms.isEmpty && needed > 0 then
          let top := party_tops.headD dummyItem
          outfits ++ (List.range needed).map (fun i =>
            let bottom := party_bottoms.getD (i % party_bottoms.length) dummyItem
            (⟨"multi_piece", [top, bottom]⟩ : Outfit))
        else outfits
      .ok ⟨username, String.intercalate ", " occasions, context, outfits⟩
    else
      partyGeneral username occasions style_tags context layer_needed
        tops_all bottoms_all layers party_tops party_bottoms s
  else
    partyGeneral username occasions style_tags context layer_needed
      tops_all bottoms_all layers party_tops party_bottoms s

/-- The `if colors:` part of the party branch (always returns): color
re-narrowing of the party pools, then `partyColorsCore`. -/
def partyColors (dist : Dist) (username : String)
    (occasions style_tags colors avoid : List String)
    (context : Ctx) (gender : String) (layer_needed : Bool)
    (one_pieces tops_all bottoms_all layers : List Item)
    (party_tops party_bottoms : List Item) (s : Nat) : Except Err RecResult :=
  let party_tops_color := party_tops.filter (fun t => colorMatch dist t.tags colors avoid)
  let party_bottoms_color := party_bottoms.filter (fun b => colorMatch dist b.tags colors avoid)
  let party_tops := if !party_tops_color.isEmpty then party_tops_color else party_tops
  let party_bottoms := if !party_bottoms_color.isEmpty then party_bottoms_color else party_bottoms
  partyColorsCore dist username occasions style_tags colors avoid context gender layer_needed
    one_pieces tops_all bottoms_all layers party_tops party_bottoms s

/-! ### `make_top_bottom_outfits` -/

/-- The captured context of the inner `make_top_bottom_outfits`
function: the color request and the color-matched candidate lists
computed just before it in `recommend_outfits`. -/
structure TBCtx where
  dist : Dist
  colors : List String
  layer_needed : Bool
  style_tags : List String
  tops_color : List Item
  bottoms_color : List Item
  layers_color : List Item

/-- The mutable state of one `make_top_bottom_outfits` call. -/
structure TB where
  combos : List Outfit
  used_tops : List String
  used_bottoms : List String
  used_pairs : List (String × String)
  seed : Nat

/-- `maybe_add_layer(combo)`. -/
def maybeAddLayer (ctx : TBCtx) (layer_list : List Item) (combo : List Item) (s : Nat) :
    Except Err (List Item × Nat) :=
  if ctx.layer_needed then
    let lyr_choices := if !ctx.layers_color.isEmpty then ctx.layers_color else layer_list
    let avail := lyr_choices.filter (fun l => !(combo.any (fun i => i.name == l.name)))
    if !avail.isEmpty then
      let flt := avail.filter (fun l => l.tags.any (fun tag => ctx.style_tags.contains tag))
      let selected := if !flt.isEmpty then flt else avail
      match randChoice selected s with
      | .error e => .error e
      | .ok (lyr, s2) => .ok (combo ++ [lyr], s2)
    else .ok (combo, s)
  else .ok (combo, s)

/-- Inner loop of the color-preferred first pass: one color top against
the whole bottom list. -/
def tbLoopAInner (ctx : TBCtx) (layer_list : List Item) (n : Nat) (t : Item) :
    List Item → TB → Except Err (TB × Bool)
  | [], st => .ok (st, false)
  | b :: rest, st =>
    if st.used_bottoms.contains b.name || st.used_pairs.contains (t.name, b.name) then
      tbLoopAInner ctx layer_list n t rest st
    else if !(colorMatch ctx.dist t.tags ctx.colors [] || colorMatch ctx.dist b.tags ctx.colors []) then
      tbLoopAInner ctx layer_list n t rest st
    else
      match maybeAddLayer ctx layer_list [t, b] st.seed with
      | .error e => .error e
      | .ok (combo, s2) =>
        let st2 : TB := ⟨st.combos ++ [(⟨"multi_piece", combo⟩ : Outfit)], st.used_tops,
          st.used_bottoms ++ [b.name], st.used_pairs ++ [(t.name, b.name)], s2⟩
        if st2.combos.length ≥ n then .ok (st2, true)
        else tbLoopAInner ctx layer_list n t rest st2

/-- Outer loop of the color-preferred first pass over `tops_color`. -/
def tbLoopA (ctx : TBCtx) (layer_list : List Item) (n : Nat) :
    List Item → List Item → TB → Except Err (TB × Bool)
  | [], _, st => .ok (st, false)
  | t :: ts, bottom_list, st =>
    match tbLoopAInner ctx layer_list n t bottom_list st with
    | .error e => .error e
    | .ok (st2, true) => .ok (st2, true)
    | .ok (st2, false) => tbLoopA ctx layer_list n ts bottom_list st2

/-- Inner loop of the color-preferred second pass: one color bottom
against the whole top list. -/
def tbLoopBInner (ctx : TBCtx) (layer_list : List Item) (n : Nat) (b : Item) :
    List Item → TB → Except Err (TB × Bool)
  | [], st => .ok (st, false)
  | t :: rest, st =>
    if st.used_pairs.contains (t.name, b.name) then
      tbLoopBInner ctx layer_list n b rest st
    else if !(colorMatch ctx.dist t.tags ctx.colors [] || colorMatch ctx.dist b.tags ctx.colors []) then
      tbLoopBInner ctx layer_list n b rest st
    else
      match maybeAddLayer ctx layer_list [t, b] st.seed with
      | .error e => .error e
      | .ok (combo, s2) =>
        let st2 : TB := ⟨st.combos ++ [(⟨"multi_piece", combo⟩ : Outfit)], st.used_tops,
          st.used_bottoms ++ [b.name], st.used_pairs ++ [(t.name, b.name)], s2⟩
        if st2.combos.length ≥ n then .ok (st2, true)
        else tbLoopBInner ctx layer_list n b rest st2

/-- Outer loop of the color-preferred second pass over `bottoms_color`,
skipping bottoms already used. -/
def tbLoopB (ctx : TBCtx) (layer_list : List Item) (n : Nat) :
    List Item → List Item → TB → Except Err (TB × Bool)
  | _, [], st => .ok (st, false)
  | top_list, b :: bs, st =>
    if st.used_bottoms.contains b.name then tbLoopB ctx layer_list n top_list bs st
    else
      match tbLoopBInner ctx layer_list n b top_list st with
      | .error e => .error e
      | .ok (st2, true) => .ok (st2, true)
      | .ok (st2, false) => tbLoopB ctx layer_list n top_list bs st2

/-- First loop of the single-color-top path: the unique color top
against `bottoms_color + bottom_list`, breaking at `n - 1` combos. -/
def tbSingleLoop1 (ctx : TBCtx) (layer_list : List Item) (top : Item) (n : Nat) :
    List Item → List String → TB → Except Err TB
  | [], _, st => .ok st
  | b :: rest, bottom_used, st =>
    if bottom_used.contains b.name then tbSingleLoop1 ctx layer_list top n rest bottom_used st
    else if st.used_pairs.contains (top.name, b.name) then
      tbSingleLoop1 ctx layer_list top n rest bottom_used st
    else
      match maybeAddLayer ctx layer_list [top, b] st.seed with
      | .error e => .error e
      | .ok (combo, s2) =>
        let st2 : TB := ⟨st.combos ++ [(⟨"multi_piece", combo⟩ : Outfit)], st.used_tops,
          st.used_bottoms, st.used_pairs ++ [(top.name, b.name)], s2⟩
        if st2.combos.length ≥ n - 1 then .ok st2
        else tbSingleLoop1 ctx layer_list top n rest (bottom_used ++ [b.name]) st2

/-- Inner loop of the single-color-top second pass: returns on the
first appended non-color pair. -/
def tbSingleLoop2Inner (ctx : TBCtx) (layer_list : List Item) (top t : Item) :
    List Item → TB → Except Err (Option TB)
  | [], _ => .ok none
  | b :: rest, st =>
    if st.used_pairs.contains (t.name, b.name) || t.name == top.name then
      tbSingleLoop2Inner ctx layer_list top t rest st
    else if colorMatch ctx.dist t.tags ctx.colors [] then
      tbSingleLoop2Inner ctx layer_list top t rest st
    else
      match maybeAddLayer ctx layer_list [t, b] st.seed with
      | .error e => .error e
      | .ok (combo, s2) =>
        .ok (some ⟨st.combos ++ [(⟨"multi_piece", combo⟩ : Outfit)], st.used_tops,
          st.used_bottoms, st.used_pairs, s2⟩)

/-- Outer loop of the single-color-top second pass. -/
def tbSingleLoop2 (ctx : TBCtx) (layer_list : List Item) (top : Item) :
    List Item → List Item → TB → Except Err TB
  | [], _, st => .ok st
  | t :: ts, bottom_list, st =>
    match tbSingleLoop2Inner ctx layer_list top t bottom_list st with
    | .error e => .error e
    | .ok (some st2) => .ok st2
    | .ok none => tbSingleLoop2 ctx layer_list top ts bottom_list st

/-- The `colors and len(tops_color) == 1` path of
`make_top_bottom_outfits`; both exits slice to `n`. -/
def tbSingleTop (ctx : TBCtx) (layer_list : List Item)
    (top_list bottom_list : List Item) (n : Nat) (st : TB) :
    Except Err (List Outfit × Nat) :=
  let top := ctx.tops_color.headD dummyItem
  match tbSingleLoop1 ctx layer_list top n (ctx.bottoms_color ++ bottom_list) [] st with
  | .error e => .error e
  | .ok st2 =>
    match tbSingleLoop2 ctx layer_list top top_list bottom_list st2 with
    | .error e => .error e
    | .ok st3 => .ok (st3.combos.take n, st3.seed)

/-- Inner loop of the no-colors fresh pass. -/
def tbLoopCInner (ctx : TBCtx) (layer_list : List Item) (n : Nat) (t : Item) :
    List Item → TB → Except Err (TB × Bool)
  | [], st => .ok (st, false)
  | b :: rest, st =>
    if st.used_tops.contains t.name || st.used_bottoms.contains b.name ||
       st.used_pairs.contains (t.name, b.name) then
      tbLoopCInner ctx layer_list n t rest st
    else
      match maybeAddLayer ctx layer_list [t, b] st.seed with
      | .error e => .error e
      | .ok (combo, s2) =>
        let st2 : TB := ⟨st.combos ++ [(⟨"multi_piece", combo⟩ : Outfit)],
          st.used_tops ++ [t.name], st.used_bottoms ++ [b.name],
          st.used_pairs ++ [(t.name, b.name)], s2⟩
        if st2.combos.length ≥ n then .ok (st2, true)
        else tbLoopCInner ctx layer_list n t rest st2

/-- Outer loop of the no-colors fresh pass. -/
def tbLoopC (ctx : TBCtx) (layer_list : List Item) (n : Nat) :
    List Item → List Item → TB → Except Err (TB × Bool)
  | [], _, st => .ok (st, false)
  | t :: ts, bottom_list, st =>
    match tbLoopCInner ctx layer_list n t bottom_list st with
    | .error e => .error e
    | .ok (st2, true) => .ok (st2, true)
    | .ok (st2, false) => tbLoopC ctx layer_list n ts bottom_list st2

/-- Inner loop of the no-colors reuse pass (pair dedup only, and the
pass does not record the pairs it adds). -/
def tbLoopDInner (ctx : TBCtx) (layer_list : List Item) (n : Nat) (t : Item) :
    List Item → TB → Except Err (TB × Bool)
  | [], st => .ok (st, false)
  | b :: rest, st =>
    if st.used_pairs.contains (t.name, b.name) then tbLoopDInner ctx layer_list n t rest st
    else
      match maybeAddLayer ctx layer_list [t, b] st.seed with
      | .error e => .error e
      | .ok (combo, s2) =>
        let st2 : TB := ⟨st.combos ++ [(⟨"multi_piece", combo⟩ : Outfit)], st.used_tops,
          st.used_bottoms, st.used_pairs, s2⟩
        if st2.combos.length ≥ n then .ok (st2, true)
        else tbLoopDInner ctx layer_list n t rest st2

/-- Outer loop of the no-colors reuse pass. -/
def tbLoopD (ctx : TBCtx) (layer_list : List Item) (n : Nat) :
    List Item → List Item → TB → Except Err (TB × Bool)
  | [], _, st => .ok (st, false)
  | t :: ts, bottom_list, st =>
    match tbLoopDInner ctx layer_list n t bottom_list st with
    | .error e => .error e
    | .ok (st2, true) => .ok (st2, true)
    | .ok (st2, false) => tbLoopD ctx layer_list n ts bottom_list st2

/-- The `if not colors:` section: fresh pairs, then pair-level reuse,
with the local `used_tops` / `used_bottoms` sets reset on entry. -/
def tbLoopCD (ctx : TBCtx) (layer_list : List Item)
    (top_list bottom_list : List Item) (n : Nat) (st1 : TB) :
    Except Err (List Outfit × Nat) :=
  let st : TB := { st1 with used_tops := [], used_bottoms := [] }
  match tbLoopC ctx layer_list n top_list bottom_list st with
  | .error e => .error e
  | .ok (st2, true) => .ok (st2.combos, st2.seed)
  | .ok (st2, false) =>
    match tbLoopD ctx layer_list n top_list bottom_list st2 with
    | .error e => .error e
    | .ok (st3, _) => .ok (st3.combos, st3.seed)

/-- Inner loop of the color-avoidance final pass. -/
def tbLoopEInner (ctx : TBCtx) (layer_list : List Item) (n : Nat) (t : Item) :
    List Item → TB → Except Err (TB × Bool)
  | [], st => .ok (st, false)
  | b :: rest, st =>
    if st.used_bottoms.contains b.name || st.used_pairs.contains (t.name, b.name) then
      tbLoopEInner ctx layer_list n t rest st
    else if !ctx.colors.isEmpty &&
        (colorMatch ctx.dist t.tags ctx.colors [] || colorMatch ctx.dist b.tags ctx.colors []) then
      tbLoopEInner ctx layer_list n t rest st
    else
      match maybeAddLayer ctx layer_list [t, b] st.seed with
      | .error e => .error e
      | .ok (combo, s2) =>
        let st2 : TB := ⟨st.combos ++ [(⟨"multi_piece", combo⟩ : Outfit)], st.used_tops,
          st.used_bottoms ++ [b.name], st.used_pairs ++ [(t.name, b.name)], s2⟩
        if st2.combos.length ≥ n then .ok (st2, true)
        else tbLoopEInner ctx layer_list n t rest st2

/-- Outer loop of the color-avoidance final pass. -/
def tbLoopE (ctx : TBCtx) (layer_list : List Item) (n : Nat) :
    List Item → List Item → TB → Except Err (TB × Bool)
  | [], _, st => .ok (st, false)
  | t :: ts, bottom_list, st =>
    match tbLoopEInner ctx layer_list n t bottom_list st with
    | .error e => .error e
    | .ok (st2, true) => .ok (st2, true)
    | .ok (st2, false) => tbLoopE ctx layer_list n ts bottom_list st2

/-- `make_top_bottom_outfits(top_list, bottom_list, layer_list, n,
prefer_color)`. -/
def makeTopBottomOutfits (ctx : TBCtx) (top_list bottom_list layer_list : List Item)
    (n : Nat) (prefer_color : Bool) (s : Nat) : Except Err (List Outfit × Nat) :=
  let st0 : TB := ⟨[], [], [], [], s⟩
  let stageAB : Except Err (TB × Bool) :=
    if prefer_color && (!ctx.tops_color.isEmpty || !ctx.bottoms_color.isEmpty) then
      match tbLoopA ctx layer_list n ctx.tops_color bottom_list st0 with
      | .error e => .error e
      | .ok (st1, true) => .ok (st1, true)
      | .ok (st1, false) => tbLoopB ctx layer_list n top_list ctx.bottoms_color st1
    else .ok (st0, false)
  match stageAB with
  | .error e => .error e
  | .ok (st1, true) => .ok (st1.combos, st1.seed)
  | .ok (st1, false) =>
    if !ctx.colors.isEmpty && ctx.tops_color.length == 1 then
      tbSingleTop ctx layer_list top_list bottom_list n st1
    else if ctx.colors.isEmpty then
      tbLoopCD ctx layer_list top_list bottom_list n st1
    else
      match tbLoopE ctx layer_list n top_list bottom_list st1 with
      | .error e => .error e
      | .ok (st2, _) => .ok (st2.combos, st2.seed)

/-! ### The default composition path -/

/-- `set(i["name"] for i in xs) == set(i["name"] for i in ys)`. -/
def nameSetEq (xs ys : List Item) : Bool :=
  xs.all (fun x => ys.any (fun y => y.name == x.name)) &&
  ys.all (fun y => xs.any (fun x => x.name == y.name))

/-- The one-piece exclusion tag sets of the default path. -/
def excludeOnePieceTags : List String := ["ritual", "ceremony", "ethnic", "traditional"]

/-- The casual one-piece exclusion tag set. -/
def excludeOnePieceCasual : List String := ["casual", "comfortable", "picnic", "shopping"]

/-- The shuffled top+bottom+layer loop of the default path (adds up to
2 outfits whose name sets are new). -/
def layerCombosLoop (layers_color layers : List Item) :
    List (Item × Item) → List Outfit → Nat → Nat → Except Err (List Outfit × Nat)
  | [], outfits, _, s => .ok (outfits, s)
  | tb :: rest, outfits, added, s =>
    let combo0 := [tb.1, tb.2]
    let lyr_choices := if !layers_color.isEmpty then layers_color else layers
    let avail := lyr_choices.filter (fun l => !(combo0.any (fun i => i.name == l.name)))
    let step : Except Err (List Item × Nat) :=
      if !avail.isEmpty then
        match randChoice avail s with
        | .error e => .error e
        | .ok (lyr, s2) => .ok (combo0 ++ [lyr], s2)
      else .ok (combo0, s)
    match step with
    | .error e => .error e
    | .ok (combo, s2) =>
      let keep := !(outfits.any (fun o => nameSetEq combo o.items))
      let outfits2 := if keep then outfits ++ [(⟨"multi_piece", combo⟩ : Outfit)] else outfits
      let added2 := if keep then added + 1 else added
      if added2 ≥ 2 then .ok (outfits2, s2)
      else layerCombosLoop layers_color layers rest outfits2 added2 s2

/-- The swimwear inclusion loop of the default path (break inside the
fresh-name branch once 3 outfits exist). -/
def defaultSwimLoop : List Item → List Outfit → List String → List Outfit × List String
  | [], outfits, used => (outfits, used)
  | sw :: rest, outfits, used =>
    if !(used.contains sw.name) then
      let outfits2 := outfits ++ [(⟨"swimwear", [sw]⟩ : Outfit)]
      let used2 := used ++ [sw.name]
      if outfits2.length ≥ 3 then (outfits2, used2)
      else defaultSwimLoop rest outfits2 used2
    else defaultSwimLoop rest outfits used

/-- Inner loop of the pair-reuse fallback tier (new (top, bottom) name
pairs; the initial `used_pairs` set the source builds is a set of
generator objects, which a name tuple never equals, so it blocks
nothing and the embedding starts the set empty). -/
def extraLoopInner (layer_needed : Bool) (layers : List Item) (preLen : Nat) (t : Item) :
    List Item → List Outfit → List (String × String) → Nat →
    Except Err (List Outfit × List (String × String) × Nat)
  | [], extra, up, s => .ok (extra, up, s)
  | b :: rest, extra, up, s =>
    if !(up.contains (t.name, b.name)) then
      let step : Except Err (List Item × Nat) :=
        if layer_needed && !layers.isEmpty then
          match randChoice layers s with
          | .error e => .error e
          | .ok (lyr, s2) => .ok ([t, b, lyr], s2)
        else .ok ([t, b], s)
      match step with
      | .error e => .error e
      | .ok (combo, s2) =>
        let extra2 := extra ++ [(⟨"multi_piece", combo⟩ : Outfit)]
        let up2 := up ++ [(t.name, b.name)]
        if preLen + extra2.length ≥ 3 then .ok (extra2, up2, s2)
        else extraLoopInner layer_needed layers preLen t rest extra2 up2 s2
    else extraLoopInner layer_needed layers preLen t rest extra up s

/-- Outer loop of the pair-reuse fallback tier. -/
def extraLoopOuter (layer_needed : Bool) (layers : List Item) (preLen : Nat) :
    List Item → List Item → List Outfit → List (String × String) → Nat →
    Except Err (List Outfit × Nat)
  | [], _, extra, _, s => .ok (extra, s)
  | t :: ts, bottom_list, extra, up, s =>
    match extraLoopInner layer_needed layers preLen t bottom_list extra up s with
    | .error e => .error e
    | .ok (extra2, up2, s2) =>
      if preLen + extra2.length ≥ 3 then .ok (extra2, s2)
      else extraLoopOuter layer_needed layers preLen ts bottom_list extra2 up2 s2

/-- The final `while len(outfits) < 3` random fallback; `random.choice`
on an empty top or bottom list raises. -/
def finalWhile (layer_needed : Bool) (tops bottoms layers : List Item) :
    Nat → List Outfit → Nat → Except Err (List Outfit × Nat)
  | 0, outfits, s => .ok (outfits, s)
  | k + 1, outfits, s =>
    match randChoice tops s with
    | .error e => .error e
    | .ok (t, s2) =>
      match randChoice bottoms s2 with
      | .error e => .error e
      | .ok (b, s3) =>
        let step : Except Err (List Item × Nat) :=
          if layer_needed && !layers.isEmpty then
            match randChoice layers s3 with
            | .error e => .error e
            | .ok (lyr, s4) => .ok ([t, b, lyr], s4)
          else .ok ([t, b], s3)
        match step with
        | .error e => .error e
        | .ok (combo, s4) =>
          finalWhile layer_needed tops bottoms layers k
            (outfits ++ [(⟨"multi_piece", combo⟩ : Outfit)]) s4

/-- First loop of the trailing active-occasion section: one
color-preferring pair, then break as soon as any outfit exists. -/
def postActiveLoop1 (dist : Dist) (colors avoid : List String) :
    List Item → List Item → List Outfit → List String → List String →
    List Outfit × List String × List String
  | [], _, outfits, ut, ub => (outfits, ut, ub)
  | t :: ts, bottom_priority, outfits, ut, ub =>
    let found := bottom_priority.find? (fun b =>
      (colorMatch dist t.tags colors avoid || colorMatch dist b.tags colors avoid) &&
      !(ut.contains t.name) && !(ub.contains b.name))
    let step :=
      match found with
      | some b => (outfits ++ [(⟨"multi_piece", [t, b]⟩ : Outfit)], ut ++ [t.name], ub ++ [b.name])
      | none => (outfits, ut, ub)
    if step.1.length ≥ 1 then step
    else postActiveLoop1 dist colors avoid ts bottom_priority step.1 step.2.1 step.2.2

/-- Inner loop of the second trailing active pass. -/
def postActiveLoop2Inner (t : Item) :
    List Item → List Outfit → List String → List String →
    List Outfit × List String × List String
  | [], outfits, ut, ub => (outfits, ut, ub)
  | b :: rest, outfits, ut, ub =>
    if !(ut.contains t.name) && !(ub.contains b.name) then
      let outfits2 := outfits ++ [(⟨"multi_piece", [t, b]⟩ : Outfit)]
      let ut2 := ut ++ [t.name]
      let ub2 := ub ++ [b.name]
      if outfits2.length ≥ 3 then (outfits2, ut2, ub2)
      else postActiveLoop2Inner t rest outfits2 ut2 ub2
    else postActiveLoop2Inner t rest outfits ut ub

/-- Outer loop of the second trailing active pass. -/
def postActiveLoop2 :
    List Item → List Item → List Outfit → List String → List String →
    List Outfit × List String × List String
  | [], _, outfits, ut, ub => (outfits, ut, ub)
  | t :: ts, bottom_list, outfits, ut, ub =>
    let step := postActiveLoop2Inner t bottom_list outfits ut ub
    if step.1.length ≥ 3 then step
    else postActiveLoop2 ts bottom_list step.1 step.2.1 step.2.2

/-- The trailing `--- Special handling for active/sport occasions ---`
section (unreachable in practice because the early active branch has
already returned, but embedded faithfully). -/
def postActive (dist : Dist) (colors avoid style_tags : List String)
    (tops bottoms : List Item) (outfits : List Outfit) : List Outfit :=
  let relevant_tops := tops.filter
    (fun t => t.tags.any (fun tag => activeOccasions.contains tag || style_tags.contains tag))
  let relevant_bottoms := bottoms.filter
    (fun b => b.tags.any (fun tag => activeOccasions.contains tag || style_tags.contains tag))
  let tops_color := relevant_tops.filter (fun t => colorMatch dist t.tags colors avoid)
  let bottoms_color := relevant_bottoms.filter (fun b => colorMatch dist b.tags colors avoid)
  let top_priority := tops_color ++
    relevant_tops.filter (fun t => !(tops_color.any (fun i => i.name == t.name)))
  let bottom_priority := bottoms_color ++
    relevant_bottoms.filter (fun b => !(bottoms_color.any (fun i => i.name == b.name)))
  let step1 := postActiveLoop1 dist colors avoid top_priority bottom_priority outfits [] []
  let step2 := postActiveLoop2 relevant_tops relevant_bottoms step1.1 step1.2.1 step1.2.2
  padNone step2.1

/-- The female one-piece outfit of the default path (called only when
its guarding condition holds). -/
def femaleOnePieceStep (layer_needed : Bool)
    (one_pieces one_pieces_color layers layers_color : List Item) (s : Nat) :
    Except Err (List Outfit × List String × Nat) :=
  let used0 : List String := []
  let op_choices := if !one_pieces_color.isEmpty then one_pieces_color else one_pieces
  match randChoice (op_choices.filter (fun o => !(used0.contains o.name))) s with
  | .error e => .error e
  | .ok (op, s2) =>
    let outfit := [op]
    let used := used0 ++ [op.name]
    if layer_needed && !layers.isEmpty then
      let lyr_choices := if !layers_color.isEmpty then layers_color else layers
      let avail := lyr_choices.filter (fun l => !(used.contains l.name))
      if !avail.isEmpty then
        match randChoice avail s2 with
        | .error e => .error e
        | .ok (lyr, s3) =>
          .ok ([(⟨"one_piece", outfit ++ [lyr]⟩ : Outfit)], used ++ [lyr.name], s3)
      else .ok ([(⟨"one_piece", outfit⟩ : Outfit)], used, s2)
    else .ok ([(⟨"one_piece", outfit⟩ : Outfit)], used, s2)

/-- The second `make_top_bottom_outfits` call of the default path,
guarded by the remaining-slot count. -/
def dpStep3 (ctxTB : TBCtx) (tops bottoms layers : List Item)
    (outfits4 : List Outfit) (s3 : Nat) : Except Err (List Outfit × Nat) :=
  let needed2 := 3 - outfits4.length
  if needed2 > 0 then
    match makeTopBottomOutfits ctxTB tops bottoms layers needed2 false s3 with
    | .error e => .error e
    | .ok (combos2, s4) => .ok (outfits4 ++ combos2, s4)
  else .ok (outfits4, s3)

/-- The pair-reuse fallback tier of the default path, guarded by the
3-outfit check. -/
def dpStep4 (layer_needed : Bool) (tops bottoms layers : List Item)
    (outfits5 : List Outfit) (s5 : Nat) : Except Err (List Outfit × Nat) :=
  if outfits5.length < 3 then
    match extraLoopOuter layer_needed layers outfits5.length tops bottoms [] [] s5 with
    | .error e => .error e
    | .ok (extra, s6) => .ok (outfits5 ++ extra.take (3 - outfits5.length), s6)
  else .ok (outfits5, s5)

/-- Everything of `recommend_outfits` after the party block: the female
one-piece outfit, the layered pairs, opportunistic swimwear, the two
`make_top_bottom_outfits` calls, the pair-reuse tier, the final random
fallback, and the trailing active section. -/
def defaultPath (dist : Dist) (username : String)
    (occasions style_tags colors avoid : List String) (context : Ctx)
    (gender : String) (layer_needed : Bool)
    (its one_pieces tops bottoms layers filtered : List Item) (s : Nat) :
    Except Err RecResult :=
  let one_pieces_color := colorMatchedList dist colors avoid one_pieces
  let tops_color := colorMatchedList dist colors avoid tops
  let bottoms_color := colorMatchedList dist colors avoid bottoms
  let layers_color := colorMatchedList dist colors avoid layers
  let strictly_formal := occasions.all
    (fun occ => (["office", "business meeting", "interview"] : List String).contains occ)
  let step1 : Except Err (List Outfit × List String × Nat) :=
    if gender == "female" && !one_pieces.isEmpty && !strictly_formal &&
       !(excludeOnePieceTags.any (fun t => style_tags.contains t)) &&
       !(excludeOnePieceCasual.any (fun t => style_tags.contains t)) then
      femaleOnePieceStep layer_needed one_pieces one_pieces_color layers layers_color s
    else .ok ([], [], s)
  match step1 with
  | .error e => .error e
  | .ok (outfits1, used1, s1) =>
    let step2 : Except Err (List Outfit × Nat) :=
      if layer_needed && !tops.isEmpty && !bottoms.isEmpty && !layers.isEmpty then
        let shuffled := shuffleList (pairsOf tops bottoms) s1
        layerCombosLoop layers_color layers shuffled.1 outfits1 0 shuffled.2
      else .ok (outfits1, s1)
    match step2 with
    | .error e => .error e
    | .ok (outfits2, s2) =>
      let swimstep :=
        if occasions.contains "swimming" || style_tags.contains "swimming" then
          defaultSwimLoop (filterCategory its "swimwear" (some gender)) outfits2 used1
        else
          let swimwear_items := filtered.filter (fun i => i.category == "swimwear")
          if !swimwear_items.isEmpty then defaultSwimLoop swimwear_items outfits2 used1
          else (outfits2, used1)
      let outfits3 := swimstep.1
      let ctxTB : TBCtx := ⟨dist, colors, layer_needed, style_tags,
        tops_color, bottoms_color, layers_color⟩
      let needed := 3 - outfits3.length
      match makeTopBottomOutfits ctxTB tops bottoms layers needed true s2 with
      | .error e => .error e
      | .ok (combos1, s3) =>
        let outfits4 := outfits3 ++ combos1
        let step3 := dpStep3 ctxTB tops bottoms layers outfits4 s3
        match step3 with
        | .error e => .error e
        | .ok (outfits5, s5) =>
          let step4 := dpStep4 layer_needed tops bottoms layers outfits5 s5
          match step4 with
          | .error e => .error e
          | .ok (outfits6, s6) =>
            match finalWhile layer_needed tops bottoms layers (3 - outfits6.length) outfits6 s6 with
            | .error e => .error e
            | .ok (outfits7, _) =>
              if occasions.any (fun occ => activeOccasions.contains occ) then
                .ok ⟨username, String.intercalate ", " occasions, context,
                     (postActive dist colors avoid style_tags tops bottoms outfits7).take 3⟩
              else
                .ok ⟨username, String.intercalate ", " occasions, context, outfits7.take 3⟩

/-! ### The entry point -/

/-- The style-tag set: table styles of each occasion (an unknown
occasion contributes itself), then the occasions themselves. -/
def mkStyleTags (occasions : List String) : List String :=
  let st := occasions.foldl
    (fun st occ =>
      ((((OCCASION_STYLES.find? (fun e => e.1 == occ)).map (fun e => e.2)).getD [occ]).foldl
        addUnique st))
    []
  occasions.foldl addUnique st

/-- The style narrowing applied to the topwear and bottomwear pools
(the source writes the same filter in both arms of the
`strict_casual_filter` conditional; the conditional is kept). -/
def styleNarrow (style_tags : List String) (strict_casual : Bool) (l : List Item) : List Item :=
  if strict_casual then l.filter (fun t => t.tags.any (fun tag => style_tags.contains tag))
  else l.filter (fun t => t.tags.any (fun tag => style_tags.contains tag))

/-- The candidate narrowing cascade the source applies identically to
the top and bottom pools: style filter with fallback to the full pool,
forbidden-color filter, and the ethnic strict filter with fallback. -/
def narrowPool (dist : Dist) (style_tags avoid : List String) (all : List Item) : List Item :=
  let strict_casual :=
    (["casual", "comfortable", "picnic", "shopping"] : List String).any
      (fun t => style_tags.contains t)
  let l := styleNarrow style_tags strict_casual all
  let l := if l.isEmpty then all else l
  let l := if !avoid.isEmpty then l.filter (fun t => colorMatch dist t.tags [] avoid) else l
  if style_tags.contains "ethnic" || style_tags.contains "traditional" then
    let f := l.filter (fun t => t.tags.any (fun tag => ethnicTags.contains tag))
    if !f.isEmpty then f else l
  else l

/-- The strictly-formal narrowing of office / business meeting /
interview occasion sets. -/
def formalNarrow (occasions style_tags : List String) (tops bottoms : List Item) :
    List Item × List Item :=
  if occasions.all (fun occ =>
       (["office", "business meeting", "interview"] : List String).contains occ) &&
     !(style_tags.contains "ethnic" || style_tags.contains "traditional") then
    (tops.filter (fun t => t.tags.contains "formal"),
     bottoms.filter (fun b => b.tags.contains "formal"))
  else (tops, bottoms)

/-- The party pools: priority tags, formal fallback, and the ethnic
fallback drawn from the un-narrowed category pools. -/
def partyPools (style_tags : List String) (tops bottoms tops_all bottoms_all : List Item) :
    List Item × List Item :=
  let party_tops := tops.filter (fun t => hasTagIn t partyPriorityTags)
  let party_bottoms := bottoms.filter (fun b => hasTagIn b partyPriorityTags)
  let party_tops :=
    if party_tops.isEmpty then tops.filter (fun t => hasTagIn t partyFallbackTags)
    else party_tops
  let party_bottoms :=
    if party_bottoms.isEmpty then bottoms.filter (fun b => hasTagIn b partyFallbackTags)
    else party_bottoms
  if (party_tops.isEmpty || party_bottoms.isEmpty) &&
     (style_tags.contains "ethnic" || style_tags.contains "traditional") then
    (tops_all.filter (fun t => hasTagIn t ethnicTags),
     bottoms_all.filter (fun b => hasTagIn b ethnicTags))
  else (party_tops, party_bottoms)

/-- The body of `recommend_outfits` after the authentication check. -/
def recommendCore (dist : Dist) (wardrobe : List Item) (prompt username : String)
    (profile : Profile) (hour month seed : Nat) : Except Err RecResult :=
  let req := extractReqs prompt
  let colors := req.colors
  let occasions := req.occasions
  let avoid := req.avoid
  let context := getContext hour month
  let layer_needed := req.needs_layer ||
    (containsSub prompt.toList "layer".toList || containsSub prompt.toList "cold".toList ||
     context.season == "winter")
  let style_tags := mkStyleTags occasions
  let its := filterByProfile wardrobe profile
  let gender := profile.gender
  if occasions.contains "swimming" || style_tags.contains "swimming" then
    .ok (swimBranch dist username occasions context colors avoid
      (filterCategory its "swimwear" (some gender)))
  else
    let one_pieces :=
      if gender == "female" then
        filterCategory its "one-piece" (some "female") ++ filterCategory its "one_piece" (some "female")
      else []
    let tops_all := filterCategory its "topwear" (some gender)
    let bottoms_all := filterCategory its "bottomwear" (some gender)
    let tops := narrowPool dist style_tags avoid tops_all
    let bottoms := narrowPool dist style_tags avoid bottoms_all
    let layers := filterCategory its "layer" (some gender)
    let filtered := its.filter (fun i => i.tags.any (fun tag => style_tags.contains tag))
    if occasions.any (fun occ => activeOccasions.contains occ) then
      match activeBranch dist colors avoid style_tags tops bottoms with
      | .error e => .error e
      | .ok outs => .ok ⟨username, String.intercalate ", " occasions, context, outs⟩
    else
      let fp := formalNarrow occasions style_tags tops bottoms
      if occasions.contains "party" || occasions.contains "office party" ||
         occasions.contains "beach party" then
        let pp := partyPools style_tags fp.1 fp.2 tops_all bottoms_all
        if !colors.isEmpty then
          partyColors dist username occasions style_tags colors avoid context gender layer_needed
            one_pieces tops_all bottoms_all layers pp.1 pp.2 seed
        else
          defaultPath dist username occasions style_tags colors avoid context gender layer_needed
            its one_pieces pp.1 pp.2 layers filtered seed
      else
        defaultPath dist username occasions style_tags colors avoid context gender layer_needed
          its one_pieces fp.1 fp.2 layers filtered seed

/-- `recommend_outfits(prompt, username)`: the authentication check,
then the engine body. -/
def recommendOutfits (dist : Dist) (db : UserDB) (wardrobe : List Item)
    (prompt username : String) (hour month seed : Nat) : Except Err RecResult :=
  match db.find? (fun e => e.1 == username) with
  | none => .error .notAuthenticated
  | some entry => recommendCore dist wardrobe prompt username entry.2.preferences hour month seed

/-- A concrete stand-in metric used by the closed evaluations: distance
0 between equal color names (as the real CIE2000 metric gives), a large
distance otherwise. -/
def distRefl : Dist := fun a b => if a == b then 0 else 100

/-! ### Concrete inputs used by the closed evaluations -/

/-- A demo profile (adult male). -/
def demoProfile : Profile := ⟨"adult", "male"⟩

/-- A demo user store with one registered user `u`. -/
def demoDB : UserDB := [("u", ⟨"hash", demoProfile⟩)]

/-- A catalog with a single eligible swimwear item. -/
def demoCatOneSwim : List Item := [⟨"s1", "swimwear", ["blue"], "all", "male", ""⟩]

/-- A catalog with four eligible red swimwear items. -/
def demoCatRedSwim : List Item :=
  [⟨"s1", "swimwear", ["red"], "all", "male", ""⟩,
   ⟨"s2", "swimwear", ["red"], "all", "male", ""⟩,
   ⟨"s3", "swimwear", ["red"], "all", "male", ""⟩,
   ⟨"s4", "swimwear", ["red"], "all", "male", ""⟩]

/-- A catalog whose only swimwear is black. -/
def demoCatBlackSwim : List Item := [⟨"blackswim", "swimwear", ["black"], "all", "male", ""⟩]

/-- A catalog with three distinct eligible swimwear items. -/
def demoCatThreeSwim : List Item :=
  [⟨"s1", "swimwear", ["blue"], "all", "male", ""⟩,
   ⟨"s2", "swimwear", ["green"], "all", "male", ""⟩,
   ⟨"s3", "swimwear", ["red"], "all", "male", ""⟩]

/-- A small formal catalog (one top, two bottoms). -/
def demoCatFormal : List Item :=
  [⟨"bluetop", "topwear", ["blue", "formal"], "all", "male", ""⟩,
   ⟨"bluebot", "bottomwear", ["blue", "formal"], "all", "male", ""⟩,
   ⟨"blackbot", "bottomwear", ["black", "formal"], "all", "male", ""⟩]

/-- A fixed run of the engine on the formal catalog, used by the
witnesses of the invariant theorems. -/
def demoRun : Except Err RecResult :=
  recommendOutfits distRefl demoDB demoCatFormal "interview" "u" 10 6 0

/-- The successful result of `demoRun`. -/
def demoRunResult : RecResult :=
  demoRun.toOption.getD ⟨"", "", ⟨"", ""⟩, []⟩

/-- A fixed swimming run on the three-swimwear catalog. -/
def demoRunSwim : Except Err RecResult :=
  recommendOutfits distRefl demoDB demoCatThreeSwim "swimming" "u" 10 6 0

/-- The successful result of `demoRunSwim`. -/
def demoRunSwimResult : RecResult :=
  demoRunSwim.toOption.getD ⟨"", "", ⟨"", ""⟩, []⟩

/-! ### Statement-level predicates -/

/-- Every item of every returned outfit satisfies the profile
eligibility invariant. -/
def EligibleOutfits (profile : Profile) (r : RecResult) : Prop :=
  ∀ o ∈ r.outfits, ∀ i ∈ o.items,
    (i.age_group = "all" ∨ i.age_group = profile.age_group) ∧
    (i.gender = "unisex" ∨ i.gender = profile.gender)

/-- One outfit is structurally sane: a `none` placeholder is empty, any
other outfit has 1 to 3 items, and no two items share a name. -/
def OutfitSane (o : Outfit) : Prop :=
  (o.otype = "none" → o.items = []) ∧
  (o.otype ≠ "none" → 1 ≤ o.items.length ∧ o.items.length ≤ 3) ∧
  o.items.Pairwise (fun a b => a.name ≠ b.name)

/-- Every returned outfit is structurally sane. -/
def SaneOutfits (r : RecResult) : Prop := ∀ o ∈ r.outfits, OutfitSane o

/-- Every returned outfit is a one-item swimwear outfit. -/
def AllSwimSingle (r : RecResult) : Prop :=
  ∀ o ∈ r.outfits, o.otype = "swimwear" ∧ o.items.length = 1

/-- The shape invariant every composition site establishes: an outfit
is the empty `none` placeholder, a single pool item, a top+bottom pair,
a top+bottom+layer triple, or a non-layer item plus a layer, with all
items drawn from the given pool (the profile-eligible catalog). -/
def GoodOutfit (pool : List Item) (o : Outfit) : Prop :=
  (o.otype = "none" ∧ o.items = []) ∨
  (o.otype ≠ "none" ∧ ∃ x, x ∈ pool ∧ o.items = [x]) ∨
  (o.otype ≠ "none" ∧ ∃ t b, t ∈ pool ∧ b ∈ pool ∧ t.category = "topwear" ∧
     b.category = "bottomwear" ∧ o.items = [t, b]) ∨
  (o.otype ≠ "none" ∧ ∃ t b l, t ∈ pool ∧ b ∈ pool ∧ l ∈ pool ∧ t.category = "topwear" ∧
     b.category = "bottomwear" ∧ l.category = "layer" ∧ o.items = [t, b, l]) ∨
  (o.otype ≠ "none" ∧ ∃ p l, p ∈ pool ∧ l ∈ pool ∧ p.category ≠ "layer" ∧ l.category = "layer" ∧
     o.items = [p, l])

/-- The shape of every combo `make_top_bottom_outfits` emits: a
top+bottom pair, optionally with a layer. -/
def TBShape (T B L : List Item) (o : Outfit) : Prop :=
  ∃ t, t ∈ T ∧ ∃ b, b ∈ B ∧
    (o = ⟨"multi_piece", [t, b]⟩ ∨ ∃ l, l ∈ L ∧ o = ⟨"multi_piece", [t, b, l]⟩)

end OutfitRec

namespace OutfitRec

/-! ## Theorems -/

/-- C1 (code bug): the spec guarantees exactly 3 outfits on every call,
but the swimming early return never truncates its color-matched list:
with four eligible red swimwear items and the prompt
`"swimming in red"` the engine returns four outfits.  (The real metric
puts `red` at distance 0 from itself, as `distRefl` does.) -/
theorem swim_branch_four_outfits :
    (recommendOutfits distRefl demoDB demoCatRedSwim "swimming in red" "u" 10 6 0).map
      (fun r => r.outfits.length) = Except.ok 4 := by
  rfl

/-- C2 (code bug): the spec says the engine never raises on empty
candidate sets, but the active branch indexes
`pairs_to_use[idx % len(pairs_to_use)]` without an emptiness guard: on
an empty catalog the prompt `"gym"` raises (a `ZeroDivisionError` in
Python, the `emptySeq` error of the embedding).  The computation never
consults the color metric, so the result holds for every metric. -/
theorem active_branch_crashes_on_empty_catalog :
    ∀ dist : Dist,
      recommendOutfits dist demoDB [] "gym" "u" 10 6 0 = Except.error Err.emptySeq := by
  intro dist
  rfl

/-- C3 (code bug): the spec says no returned item may color-match a
forbidden color, but the swimming fill loop adds leftover swimwear
without consulting the forbidden set: `"swimming avoid black"` returns
the black swimwear item even though the forbidden filter itself
(`colorMatch` with the identity-respecting metric) rejects it.  The
run never consults the metric, so it holds for every metric. -/
theorem forbidden_color_swimwear_returned :
    ∀ dist : Dist,
      (extractReqs "swimming avoid black").avoid = ["black"] ∧
      colorMatch distRefl ["black"] [] ["black"] = false ∧
      (recommendOutfits dist demoDB demoCatBlackSwim "swimming avoid black" "u" 10 6 0).map
        (fun r => r.outfits.map (fun o => o.items.map (fun i => i.name)))
        = Except.ok [["blackswim"], [], []] := by
  intro dist
  exact ⟨rfl, rfl, rfl⟩

/-- C4 (counterexample): with a single eligible swimwear item the
swimming branch pads with two `none` placeholders, so it is not true
that every outfit is a one-item swimwear outfit whenever any swimwear
exists for the profile. -/
theorem swim_padding_with_single_swimwear :
    "swimming" ∈ (extractReqs "swimming").occasions ∧
    filterCategory (filterByProfile demoCatOneSwim demoProfile) "swimwear"
      (some demoProfile.gender) ≠ [] ∧
    (recommendOutfits distRefl demoDB demoCatOneSwim "swimming" "u" 10 6 0).map
      (fun r => r.outfits.map (fun o => (o.otype, o.items.length)))
      = Except.ok [("swimwear", 1), ("none", 0), ("none", 0)] := by
  refine ⟨by decide, by decide, by rfl⟩

/-- C9: the embedded engine is a pure function of its inputs, so two
calls with the same prompt, profile store, catalog, clock reading and
seed return the same result. -/
theorem same_seed_same_result (dist : Dist) (db : UserDB) (wardrobe : List Item)
    (prompt username : String) (hour month s1 s2 : Nat) (h : s1 = s2) :
    recommendOutfits dist db wardrobe prompt username hour month s1 =
    recommendOutfits dist db wardrobe prompt username hour month s2 := by
  rw [h]

/-- Witness for C9 at a concrete input. -/
theorem same_seed_same_result_witness :
    (0 : Nat) = 0 ∧
    recommendOutfits distRefl demoDB demoCatOneSwim "swimming" "u" 10 6 0 =
      recommendOutfits distRefl demoDB demoCatOneSwim "swimming" "u" 10 6 0 :=
  ⟨rfl, same_seed_same_result distRefl demoDB demoCatOneSwim "swimming" "u" 10 6 0 0 rfl⟩

/-- C10: `set_user_preferences` with an unknown username raises nothing
(it is a total function here) and leaves the store unchanged. -/
theorem set_prefs_unknown_user_noop (db : UserDB) (u : String) (p : Profile)
    (h : dbHasUser db u = false) : setUserPreferences db u p = db := by
  unfold setUserPreferences
  unfold dbHasUser at h
  simp [h]

/-- Witness for C10 at a concrete input. -/
theorem set_prefs_unknown_user_noop_witness :
    dbHasUser demoDB "ghost" = false ∧
    setUserPreferences demoDB "ghost" ⟨"teen", "female"⟩ = demoDB :=
  ⟨by decide, set_prefs_unknown_user_noop demoDB "ghost" ⟨"teen", "female"⟩ (by decide)⟩

/-! ### Substring scanner lemmas (for C7) -/

theorem matchLit_some (p : List Char) :
    ∀ s r : List Char, matchLit p s = some r → s = p ++ r := by
  induction p with
  | nil => intro s r h; simp [matchLit] at h; simp [h]
  | cons a ps ih =>
    intro s r h
    cases s with
    | nil => simp [matchLit] at h
    | cons c cs =>
      rw [matchLit] at h
      split at h
      · next hac =>
        have hcc : a = c := by exact eq_of_beq hac
        have := ih cs r h
        simp [hcc, this]
      · exact absurd h (by simp)

theorem matchLit_self (p r : List Char) : matchLit p (p ++ r) = some r := by
  induction p with
  | nil => simp [matchLit]
  | cons a ps ih => simp [matchLit, ih]

theorem isSubAt_iff (p s : List Char) : isSubAt p s = true ↔ ∃ r, s = p ++ r := by
  constructor
  · intro h
    unfold isSubAt at h
    cases hm : matchLit p s with
    | none => rw [hm] at h; simp at h
    | some r => exact ⟨r, matchLit_some p s r hm⟩
  · rintro ⟨r, rfl⟩
    unfold isSubAt
    rw [matchLit_self]
    rfl

theorem containsSub_iff (s p : List Char) :
    containsSub s p = true ↔ ∃ pre r, s = pre ++ (p ++ r) := by
  induction s with
  | nil =>
    rw [containsSub, isSubAt_iff]
    constructor
    · rintro ⟨r, hr⟩; exact ⟨[], r, by simp [← hr]⟩
    · rintro ⟨pre, r, hr⟩
      have h0 : pre = [] ∧ p ++ r = [] := by
        have := hr.symm
        simpa [List.append_eq_nil] using this
      exact ⟨r, by rw [h0.2]⟩
  | cons c cs ih =>
    rw [containsSub, Bool.or_eq_true, isSubAt_iff, ih]
    constructor
    · rintro (⟨r, hr⟩ | ⟨pre, r, hr⟩)
      · exact ⟨[], r, by simp [hr]⟩
      · exact ⟨c :: pre, r, by simp [hr]⟩
    · rintro ⟨pre, r, hr⟩
      cases pre with
      | nil => exact Or.inl ⟨r, by simpa using hr⟩
      | cons x xs =>
        right
        refine ⟨xs, r, ?_⟩
        have : c = x ∧ cs = xs ++ (p ++ r) := by simpa using hr
        exact this.2

theorem containsSub_trans (s p q : List Char)
    (hsp : containsSub s p = true) (hpq : containsSub p q = true) :
    containsSub s q = true := by
  rw [containsSub_iff] at hsp hpq ⊢
  obtain ⟨a, b, rfl⟩ := hsp
  obtain ⟨c, d, rfl⟩ := hpq
  exact ⟨a ++ c, d ++ b, by simp⟩

theorem containsSub_cons (c : Char) (cs p : List Char)
    (h : containsSub cs p = true) : containsSub (c :: cs) p = true := by
  rw [containsSub, Bool.or_eq_true]
  exact Or.inr h

theorem containsSub_append_left (x r p : List Char)
    (h : containsSub r p = true) : containsSub (x ++ r) p = true := by
  induction x with
  | nil => simpa using h
  | cons c cs ih => exact containsSub_cons c _ p ih

theorem tryKeys_eq (keys : List String) :
    ∀ s k rest, tryKeys keys s = some (k, rest) →
      k ∈ keys ∧ matchLit k.toList s = some rest := by
  induction keys with
  | nil => intro s k rest h; simp [tryKeys] at h
  | cons k0 ks ih =>
    intro s k rest h
    rw [tryKeys] at h
    split at h
    · rename_i r heq
      split at h
      · have hp : (k0, r) = (k, rest) := Option.some.inj h
        have h1 : k0 = k := congrArg Prod.fst hp
        have h2 : r = rest := congrArg Prod.snd hp
        subst h1
        subst h2
        exact ⟨List.mem_cons_self _ _, heq⟩
      · obtain ⟨hmem, hml⟩ := ih s k rest h
        exact ⟨List.mem_cons_of_mem _ hmem, hml⟩
    · obtain ⟨hmem, hml⟩ := ih s k rest h
      exact ⟨List.mem_cons_of_mem _ hmem, hml⟩

theorem scanKeysGo_mem (keys : List String) :
    ∀ fuel s pw k, k ∈ scanKeysGo keys fuel s pw →
      k ∈ keys ∧ containsSub s k.toList = true := by
  intro fuel
  induction fuel with
  | zero => intro s pw k h; simp [scanKeysGo] at h
  | succ f ih =>
    intro s pw k h
    cases s with
    | nil => simp [scanKeysGo] at h
    | cons c cs =>
      rw [scanKeysGo] at h
      split at h
      · obtain ⟨hmem, hc⟩ := ih cs (isWordChar c) k h
        exact ⟨hmem, containsSub_cons c cs _ hc⟩
      · split at h
        · rename_i k2 rest2 heq
          obtain ⟨hk, hrest⟩ := tryKeys_eq keys (c :: cs) k2 rest2 heq
          rcases List.mem_cons.mp h with rfl | h2
          · refine ⟨hk, ?_⟩
            rw [containsSub_iff]
            exact ⟨[], rest2, by simpa using matchLit_some _ _ _ hrest⟩
          · obtain ⟨hmem, hc⟩ := ih rest2 _ k h2
            refine ⟨hmem, ?_⟩
            have hs : (c :: cs) = k2.toList ++ rest2 := matchLit_some _ _ _ hrest
            rw [hs]
            exact containsSub_append_left _ _ _ hc
        · obtain ⟨hmem, hc⟩ := ih cs (isWordChar c) k h
          exact ⟨hmem, containsSub_cons c cs _ hc⟩

theorem scanKeys_nil (keys : List String) (s : List Char)
    (h : ∀ k ∈ keys, containsSub s k.toList = false) : scanKeys keys s = [] := by
  cases hres : scanKeys keys s with
  | nil => rfl
  | cons k t =>
    exfalso
    have hk : k ∈ scanKeys keys s := by rw [hres]; exact List.mem_cons_self _ _
    obtain ⟨hmem, hc⟩ := scanKeysGo_mem keys s.length s false k hk
    rw [h k hmem] at hc
    exact absurd hc (by decide)

theorem any_false {α : Type} (l : List α) (p : α → Bool)
    (h : ∀ x ∈ l, p x = false) : l.any p = false := by
  induction l with
  | nil => rfl
  | cons a as ih =>
    simp only [List.any_cons, Bool.or_eq_false_iff]
    exact ⟨h a (List.mem_cons_self _ _), ih (fun x hx => h x (List.mem_cons_of_mem _ hx))⟩

theorem substrFold_nil (p2 : List Char) (ks : List String) (occ0 : List String)
    (h : ∀ k ∈ ks, containsSub p2 k.toList = false) :
    ks.foldl (fun occ k =>
      if !(occ.contains k) && containsSub p2 k.toList then occ ++ [k] else occ) occ0 = occ0 := by
  induction ks generalizing occ0 with
  | nil => rfl
  | cons k ks ih =>
    rw [List.foldl_cons]
    have hk := h k (List.mem_cons_self _ _)
    rw [hk]
    simp only [Bool.and_false, if_neg (by simp : ¬ (false = true))]
    exact ih occ0 (fun x hx => h x (List.mem_cons_of_mem _ hx))

theorem synFold_nil (p2 : List Char) (syns : List (String × List String)) (e0 : List String)
    (h : ∀ kv ∈ syns, ∀ syn ∈ kv.2, containsSub p2 syn.toList = false) :
    syns.foldl (fun e kv =>
      if kv.2.any (fun syn => containsSub p2 syn.toList) then addUnique e kv.1 else e) e0 = e0 := by
  induction syns generalizing e0 with
  | nil => rfl
  | cons kv kvs ih =>
    rw [List.foldl_cons]
    have hkv : kv.2.any (fun syn => containsSub p2 syn.toList) = false :=
      any_false _ _ (h kv (List.mem_cons_self _ _))
    rw [hkv]
    simp only [if_neg (by simp : ¬ (false = true))]
    exact ih e0 (fun x hx => h x (List.mem_cons_of_mem _ hx))

theorem extractOccPre_nil (p2 : List Char)
    (h1 : ∀ k ∈ occasionKeys, containsSub p2 k.toList = false) :
    extractOccPre p2 = [] := by
  unfold extractOccPre
  rw [scanKeys_nil _ _ h1]
  exact substrFold_nil _ _ _ h1

theorem extractExpanded_nil (p2 : List Char)
    (h1 : ∀ k ∈ occasionKeys, containsSub p2 k.toList = false)
    (h2 : ∀ kv ∈ OCCASION_SYNONYMS, ∀ syn ∈ kv.2, containsSub p2 syn.toList = false)
    (h3 : ∀ w ∈ (["ethnic", "traditional", "cultural"] : List String),
       containsSub p2 w.toList = false) :
    extractExpanded p2 =
      (if outingWords.any (fun w => containsSub p2 w.toList) then ["casual"] else []) := by
  simp only [extractExpanded]
  rw [extractOccPre_nil p2 h1]
  simp only [List.foldl_nil]
  rw [synFold_nil p2 OCCASION_SYNONYMS [] h2]
  have eEth : containsSub p2 "ethnic".toList = false := h3 "ethnic" (by simp)
  have eTra : containsSub p2 "traditional".toList = false := h3 "traditional" (by simp)
  have eCul : containsSub p2 "cultural".toList = false := h3 "cultural" (by simp)
  have eF : officeEthnicPatterns.any (fun pat => containsSub p2 pat.toList) = false := by
    apply any_false
    intro pat hpat
    cases hc : containsSub p2 pat.toList with
    | false => rfl
    | true =>
      exfalso
      have hsub : containsSub pat.toList "ethnic".toList = true ∨
          containsSub pat.toList "traditional".toList = true ∨
          containsSub pat.toList "cultural".toList = true := by
        fin_cases hpat
        · exact Or.inl (by decide)
        · exact Or.inr (Or.inl (by decide))
        · exact Or.inr (Or.inr (by decide))
        · exact Or.inl (by decide)
        · exact Or.inr (Or.inl (by decide))
        · exact Or.inr (Or.inr (by decide))
      rcases hsub with hs | hs | hs
      · rw [containsSub_trans _ _ _ hc hs] at eEth; exact absurd eEth (by decide)
      · rw [containsSub_trans _ _ _ hc hs] at eTra; exact absurd eTra (by decide)
      · rw [containsSub_trans _ _ _ hc hs] at eCul; exact absurd eCul (by decide)
  have eG : (["ethnic", "traditional", "cultural"] : List String).any
      (fun w => containsSub p2 w.toList) = false := any_false _ _ h3
  rw [eF, eG]
  simp only [Bool.or_self, Bool.false_eq_true, if_false, List.isEmpty_nil, Bool.true_and,
    List.nil_append]

/-- C7: the occasion list of `extract_prompt_requirements` is never
empty; and when no occasion key, synonym, or ethnic / traditional /
cultural term occurs in the normalized prompt, it is exactly
`["casual"]` when an outing-like word occurs, else `["general"]`. -/
theorem occasions_nonempty_fallback (prompt : String) :
    (extractReqs prompt).occasions ≠ [] ∧
    ((∀ k ∈ occasionKeys, containsSub (promptNorm prompt) k.toList = false) →
     (∀ kv ∈ OCCASION_SYNONYMS, ∀ syn ∈ kv.2, containsSub (promptNorm prompt) syn.toList = false) →
     (∀ w ∈ (["ethnic", "traditional", "cultural"] : List String),
        containsSub (promptNorm prompt) w.toList = false) →
     (extractReqs prompt).occasions =
       (if outingWords.any (fun w => containsSub (promptNorm prompt) w.toList) then ["casual"]
        else ["general"])) := by
  have hocc : (extractReqs prompt).occasions = extractOccasions prompt := rfl
  constructor
  · rw [hocc]
    simp only [extractOccasions]
    split
    · simp
    · next hne =>
      intro hcon
      rw [hcon] at hne
      simp at hne
  · intro h1 h2 h3
    rw [hocc]
    simp only [extractOccasions]
    rw [extractExpanded_nil _ h1 h2 h3]
    by_cases houting : outingWords.any (fun w => containsSub (promptNorm prompt) w.toList) = true
    · rw [houting]
      simp
    · rw [Bool.not_eq_true] at houting
      rw [houting]
      simp

/-- Witness for C7: the prompt `"evening walk"` matches no occasion
key, no synonym, and no ethnic term, contains the outing word `walk`,
and falls back to `["casual"]`. -/
theorem occasions_nonempty_fallback_witness :
    (∀ k ∈ occasionKeys, containsSub (promptNorm "evening walk") k.toList = false) ∧
    (∀ kv ∈ OCCASION_SYNONYMS, ∀ syn ∈ kv.2,
       containsSub (promptNorm "evening walk") syn.toList = false) ∧
    (∀ w ∈ (["ethnic", "traditional", "cultural"] : List String),
       containsSub (promptNorm "evening walk") w.toList = false) ∧
    (extractReqs "evening walk").occasions ≠ [] ∧
    (extractReqs "evening walk").occasions = ["casual"] := by
  have h1 : ∀ k ∈ occasionKeys, containsSub (promptNorm "evening walk") k.toList = false := by
    decide
  have h2 : ∀ kv ∈ OCCASION_SYNONYMS, ∀ syn ∈ kv.2,
      containsSub (promptNorm "evening walk") syn.toList = false := by decide
  have h3 : ∀ w ∈ (["ethnic", "traditional", "cultural"] : List String),
      containsSub (promptNorm "evening walk") w.toList = false := by decide
  obtain ⟨hne, hfb⟩ := occasions_nonempty_fallback "evening walk"
  refine ⟨h1, h2, h3, hne, ?_⟩
  rw [hfb h1 h2 h3]
  decide

/-! ### Error classification (for C8)

The only `notAuthenticated` site is the membership check at the top of
`recommend_outfits`; every other failure is the `emptySeq` error of
`randChoice` or of the empty-pair indexing of the active branch. -/

theorem randChoice_err {α : Type} (l : List α) (s : Nat) (e : Err)
    (h : randChoice l s = .error e) : e = .emptySeq := by
  cases l with
  | nil =>
    have h2 : (Except.error Err.emptySeq : Except Err (α × Nat)) = .error e := h
    injection h2 with h3
    exact h3.symm
  | cons a as => exact Except.noConfusion h

theorem comboWithLayer_err (ln : Bool) (lys : List Item) (top b : Item) (s : Nat) (e : Err)
    (h : comboWithLayer ln lys top b s = .error e) : e = .emptySeq := by
  unfold comboWithLayer at h
  repeat'
    first
    | exact Except.noConfusion h
    | solve_by_elim [randChoice_err]
    | (injection h with hh; subst hh; rename_i h; solve_by_elim [randChoice_err])
    | (injection h with hh; subst hh; rename_i h)
    | dsimp only at h
    | split at h

theorem maybeAddLayer_err (ctx : TBCtx) (layer_list combo_items : List Item) (s : Nat) (e : Err)
    (h : maybeAddLayer ctx layer_list combo_items s = .error e) : e = .emptySeq := by
  unfold maybeAddLayer at h
  repeat'
    first
    | exact Except.noConfusion h
    | solve_by_elim [randChoice_err, comboWithLayer_err]
    | (injection h with hh; subst hh; rename_i h; solve_by_elim [randChoice_err, comboWithLayer_err])
    | (injection h with hh; subst hh; rename_i h)
    | dsimp only at h
    | split at h

theorem partyForLoop_err (ln : Bool) (lys : List Item) (top : Item) :
    ∀ bs outfits used s e,
      partyForLoop ln lys top bs outfits used s = .error e → e = .emptySeq := by
  intro bs
  induction bs with
  | nil => intro outfits used s e h; exact Except.noConfusion h
  | cons b rest ih =>
    intro outfits used s e h
    rw [partyForLoop] at h
    repeat'
      first
      | exact Except.noConfusion h
      | solve_by_elim [randChoice_err, comboWithLayer_err, ih]
      | (injection h with hh; subst hh; rename_i h; solve_by_elim [randChoice_err, comboWithLayer_err, ih])
      | (injection h with hh; subst hh; rename_i h)
      | dsimp only at h
      | split at h

theorem partyWhile_err (ln : Bool) (lys : List Item) (top : Item) (pb : List Item) :
    ∀ k outfits s e, partyWhile ln lys top pb k outfits s = .error e → e = .emptySeq := by
  intro k
  induction k with
  | zero => intro outfits s e h; exact Except.noConfusion h
  | succ k ih =>
    intro outfits s e h
    rw [partyWhile] at h
    repeat'
      first
      | exact Except.noConfusion h
      | solve_by_elim [randChoice_err, comboWithLayer_err, ih]
      | (injection h with hh; subst hh; rename_i h; solve_by_elim [randChoice_err, comboWithLayer_err, ih])
      | (injection h with hh; subst hh; rename_i h)
      | dsimp only at h
      | split at h

theorem partyGeneral_err (username : String) (occasions style_tags : List String) (context : Ctx)
    (ln : Bool) (tops_all bottoms_all lys pt pb : List Item) (s : Nat) (e : Err)
    (h : partyGeneral username occasions style_tags context ln tops_all bottoms_all lys pt pb s
         = .error e) : e = .emptySeq := by
  unfold partyGeneral at h
  repeat'
    first
    | exact Except.noConfusion h
    | solve_by_elim [randChoice_err, comboWithLayer_err, maybeAddLayer_err, partyForLoop_err, partyWhile_err]
    | (injection h with hh; subst hh; rename_i h; solve_by_elim [randChoice_err, comboWithLayer_err, maybeAddLayer_err, partyForLoop_err, partyWhile_err])
    | (injection h with hh; subst hh; rename_i h)
    | dsimp only at h
    | split at h

theorem partyColors_err (dist : Dist) (username : String)
    (occasions style_tags colors avoid : List String) (context : Ctx) (gender : String)
    (ln : Bool) (one_pieces tops_all bottoms_all lys pt pb : List Item) (s : Nat) (e : Err)
    (h : partyColors dist username occasions style_tags colors avoid context gender ln
         one_pieces tops_all bottoms_all lys pt pb s = .error e) : e = .emptySeq := by
  unfold partyColors partyColorsCore at h
  repeat'
    first
    | exact Except.noConfusion h
    | solve_by_elim [randChoice_err, comboWithLayer_err, maybeAddLayer_err, partyForLoop_err, partyWhile_err, partyGeneral_err]
    | (injection h with hh; subst hh; rename_i h; solve_by_elim [randChoice_err, comboWithLayer_err, maybeAddLayer_err, partyForLoop_err, partyWhile_err, partyGeneral_err])
    | (injection h with hh; subst hh; rename_i h)
    | dsimp only at h
    | split at h

theorem tbLoopAInner_err (ctx : TBCtx) (layer_list : List Item) (n : Nat) (t : Item) :
    ∀ xs st e, tbLoopAInner ctx layer_list n t xs st = .error e → e = .emptySeq := by
  intro xs
  induction xs with
  | nil => intro st e h; exact Except.noConfusion h
  | cons x rest ih =>
    intro st e h
    rw [tbLoopAInner] at h
    repeat'
      first
      | exact Except.noConfusion h
      | solve_by_elim [randChoice_err, comboWithLayer_err, maybeAddLayer_err, ih]
      | (injection h with hh; subst hh; rename_i h; solve_by_elim [randChoice_err, comboWithLayer_err, maybeAddLayer_err, ih])
      | (injection h with hh; subst hh; rename_i h)
      | dsimp only at h
      | split at h

theorem tbLoopA_err (ctx : TBCtx) (layer_list : List Item) (n : Nat) :
    ∀ xs ys st e, tbLoopA ctx layer_list n xs ys st = .error e → e = .emptySeq := by
  intro xs
  induction xs with
  | nil => intro ys st e h; exact Except.noConfusion h
  | cons x rest ih =>
    intro ys st e h
    rw [tbLoopA] at h
    repeat'
      first
      | exact Except.noConfusion h
      | solve_by_elim [randChoice_err, comboWithLayer_err, maybeAddLayer_err, tbLoopAInner_err, ih]
      | (injection h with hh; subst hh; rename_i h; solve_by_elim [randChoice_err, comboWithLayer_err, maybeAddLayer_err, tbLoopAInner_err, ih])
      | (injection h with hh; subst hh; rename_i h)
      | dsimp only at h
      | split at h

theorem tbLoopBInner_err (ctx : TBCtx) (layer_list : List Item) (n : Nat) (b : Item) :
    ∀ xs st e, tbLoopBInner ctx layer_list n b xs st = .error e → e = .emptySeq := by
  intro xs
  induction xs with
  | nil => intro st e h; exact Except.noConfusion h
  | cons x rest ih =>
    intro st e h
    rw [tbLoopBInner] at h
    repeat'
      first
      | exact Except.noConfusion h
      | solve_by_elim [randChoice_err, comboWithLayer_err, maybeAddLayer_err, ih]
      | (injection h with hh; subst hh; rename_i h; solve_by_elim [randChoice_err, comboWithLayer_err, maybeAddLayer_err, ih])
      | (injection h with hh; subst hh; rename_i h)
      | dsimp only at h
      | split at h

theorem tbLoopB_err (ctx : TBCtx) (layer_list : List Item) (n : Nat) :
    ∀ ys xs st e, tbLoopB ctx layer_list n xs ys st = .error e → e = .emptySeq := by
  intro ys
  induction ys with
  | nil => intro xs st e h; exact Except.noConfusion h
  | cons y rest ih =>
    intro xs st e h
    rw [tbLoopB] at h
    repeat'
      first
      | exact Except.noConfusion h
      | solve_by_elim [randChoice_err, comboWithLayer_err, maybeAddLayer_err, tbLoopBInner_err, ih]
      | (injection h with hh; subst hh; rename_i h; solve_by_elim [randChoice_err, comboWithLayer_err, maybeAddLayer_err, tbLoopBInner_err, ih])
      | (injection h with hh; subst hh; rename_i h)
      | dsimp only at h
      | split at h

theorem tbSingleLoop1_err (ctx : TBCtx) (layer_list : List Item) (top : Item) (n : Nat) :
    ∀ xs bottom_used st e,
      tbSingleLoop1 ctx layer_list top n xs bottom_used st = .error e → e = .emptySeq := by
  intro xs
  induction xs with
  | nil => intro bu st e h; exact Except.noConfusion h
  | cons x rest ih =>
    intro bu st e h
    rw [tbSingleLoop1] at h
    repeat'
      first
      | exact Except.noConfusion h
      | solve_by_elim [randChoice_err, comboWithLayer_err, maybeAddLayer_err, ih]
      | (injection h with hh; subst hh; rename_i h; solve_by_elim [randChoice_err, comboWithLayer_err, maybeAddLayer_err, ih])
      | (injection h with hh; subst hh; rename_i h)
      | dsimp only at h
      | split at h

theorem tbSingleLoop2Inner_err (ctx : TBCtx) (layer_list : List Item) (top t : Item) :
    ∀ xs st e, tbSingleLoop2Inner ctx layer_list top t xs st = .error e → e = .emptySeq := by
  intro xs
  induction xs with
  | nil => intro st e h; exact Except.noConfusion h
  | cons x rest ih =>
    intro st e h
    rw [tbSingleLoop2Inner] at h
    repeat'
      first
      | exact Except.noConfusion h
      | solve_by_elim [randChoice_err, comboWithLayer_err, maybeAddLayer_err, ih]
      | (injection h with hh; subst hh; rename_i h; solve_by_elim [randChoice_err, comboWithLayer_err, maybeAddLayer_err, ih])
      | (injection h with hh; subst hh; rename_i h)
      | dsimp only at h
      | split at h

theorem tbSingleLoop2_err (ctx : TBCtx) (layer_list : List Item) (top : Item) :
    ∀ xs ys st e, tbSingleLoop2 ctx layer_list top xs ys st = .error e → e = .emptySeq := by
  intro xs
  induction xs with
  | nil => intro ys st e h; exact Except.noConfusion h
  | cons x rest ih =>
    intro ys st e h
    rw [tbSingleLoop2] at h
    repeat'
      first
      | exact Except.noConfusion h
      | solve_by_elim [randChoice_err, comboWithLayer_err, maybeAddLayer_err, tbSingleLoop2Inner_err, ih]
      | (injection h with hh; subst hh; rename_i h; solve_by_elim [randChoice_err, comboWithLayer_err, maybeAddLayer_err, tbSingleLoop2Inner_err, ih])
      | (injection h with hh; subst hh; rename_i h)
      | dsimp only at h
      | split at h

theorem tbSingleTop_err (ctx : TBCtx) (layer_list top_list bottom_list : List Item)
    (n : Nat) (st : TB) (e : Err)
    (h : tbSingleTop ctx layer_list top_list bottom_list n st = .error e) : e = .emptySeq := by
  unfold tbSingleTop at h
  repeat'
    first
    | exact Except.noConfusion h
    | solve_by_elim [randChoice_err, comboWithLayer_err, maybeAddLayer_err, tbSingleLoop1_err, tbSingleLoop2_err]
    | (injection h with hh; subst hh; rename_i h; solve_by_elim [randChoice_err, comboWithLayer_err, maybeAddLayer_err, tbSingleLoop1_err, tbSingleLoop2_err])
    | (injection h with hh; subst hh; rename_i h)
    | dsimp only at h
    | split at h

theorem tbLoopCInner_err (ctx : TBCtx) (layer_list : List Item) (n : Nat) (t : Item) :
    ∀ xs st e, tbLoopCInner ctx layer_list n t xs st = .error e → e = .emptySeq := by
  intro xs
  induction xs with
  | nil => intro st e h; exact Except.noConfusion h
  | cons x rest ih =>
    intro st e h
    rw [tbLoopCInner] at h
    repeat'
      first
      | exact Except.noConfusion h
      | solve_by_elim [randChoice_err, comboWithLayer_err, maybeAddLayer_err, ih]
      | (injection h with hh; subst hh; rename_i h; solve_by_elim [randChoice_err, comboWithLayer_err, maybeAddLayer_err, ih])
      | (injection h with hh; subst hh; rename_i h)
      | dsimp only at h
      | split at h

theorem tbLoopC_err (ctx : TBCtx) (layer_list : List Item) (n : Nat) :
    ∀ xs ys st e, tbLoopC ctx layer_list n xs ys st = .error e → e = .emptySeq := by
  intro xs
  induction xs with
  | nil => intro ys st e h; exact Except.noConfusion h
  | cons x rest ih =>
    intro ys st e h
    rw [tbLoopC] at h
    repeat'
      first
      | exact Except.noConfusion h
      | solve_by_elim [randChoice_err, comboWithLayer_err, maybeAddLayer_err, tbLoopCInner_err, ih]
      | (injection h with hh; subst hh; rename_i h; solve_by_elim [randChoice_err, comboWithLayer_err, maybeAddLayer_err, tbLoopCInner_err, ih])
      | (injection h with hh; subst hh; rename_i h)
      | dsimp only at h
      | split at h

theorem tbLoopDInner_err (ctx : TBCtx) (layer_list : List Item) (n : Nat) (t : Item) :
    ∀ xs st e, tbLoopDInner ctx layer_list n t xs st = .error e → e = .emptySeq := by
  intro xs
  induction xs with
  | nil => intro st e h; exact Except.noConfusion h
  | cons x rest ih =>
    intro st e h
    rw [tbLoopDInner] at h
    repeat'
      first
      | exact Except.noConfusion h
      | solve_by_elim [randChoice_err, comboWithLayer_err, maybeAddLayer_err, ih]
      | (injection h with hh; subst hh; rename_i h; solve_by_elim [randChoice_err, comboWithLayer_err, maybeAddLayer_err, ih])
      | (injection h with hh; subst hh; rename_i h)
      | dsimp only at h
      | split at h

theorem tbLoopD_err (ctx : TBCtx) (layer_list : List Item) (n : Nat) :
    ∀ xs ys st e, tbLoopD ctx layer_list n xs ys st = .error e → e = .emptySeq := by
  intro xs
  induction xs with
  | nil => intro ys st e h; exact Except.noConfusion h
  | cons x rest ih =>
    intro ys st e h
    rw [tbLoopD] at h
    repeat'
      first
      | exact Except.noConfusion h
      | solve_by_elim [randChoice_err, comboWithLayer_err, maybeAddLayer_err, tbLoopDInner_err, ih]
      | (injection h with hh; subst hh; rename_i h; solve_by_elim [randChoice_err, comboWithLayer_err, maybeAddLayer_err, tbLoopDInner_err, ih])
      | (injection h with hh; subst hh; rename_i h)
      | dsimp only at h
      | split at h

theorem tbLoopCD_err (ctx : TBCtx) (layer_list top_list bottom_list : List Item)
    (n : Nat) (st1 : TB) (e : Err)
    (h : tbLoopCD ctx layer_list top_list bottom_list n st1 = .error e) : e = .emptySeq := by
  unfold tbLoopCD at h
  repeat'
    first
    | exact Except.noConfusion h
    | solve_by_elim [randChoice_err, comboWithLayer_err, maybeAddLayer_err, tbLoopC_err, tbLoopD_err]
    | (injection h with hh; subst hh; rename_i h; solve_by_elim [randChoice_err, comboWithLayer_err, maybeAddLayer_err, tbLoopC_err, tbLoopD_err])
    | (injection h with hh; subst hh; rename_i h)
    | dsimp only at h
    | split at h

theorem tbLoopEInner_err (ctx : TBCtx) (layer_list : List Item) (n : Nat) (t : Item) :
    ∀ xs st e, tbLoopEInner ctx layer_list n t xs st = .error e → e = .emptySeq := by
  intro xs
  induction xs with
  | nil => intro st e h; exact Except.noConfusion h
  | cons x rest ih =>
    intro st e h
    rw [tbLoopEInner] at h
    repeat'
      first
      | exact Except.noConfusion h
      | solve_by_elim [randChoice_err, comboWithLayer_err, maybeAddLayer_err, ih]
      | (injection h with hh; subst hh; rename_i h; solve_by_elim [randChoice_err, comboWithLayer_err, maybeAddLayer_err, ih])
      | (injection h with hh; subst hh; rename_i h)
      | dsimp only at h
      | split at h

theorem tbLoopE_err (ctx : TBCtx) (layer_list : List Item) (n : Nat) :
    ∀ xs ys st e, tbLoopE ctx layer_list n xs ys st = .error e → e = .emptySeq := by
  intro xs
  induction xs with
  | nil => intro ys st e h; exact Except.noConfusion h
  | cons x rest ih =>
    intro ys st e h
    rw [tbLoopE] at h
    repeat'
      first
      | exact Except.noConfusion h
      | solve_by_elim [randChoice_err, comboWithLayer_err, maybeAddLayer_err, tbLoopEInner_err, ih]
      | (injection h with hh; subst hh; rename_i h; solve_by_elim [randChoice_err, comboWithLayer_err, maybeAddLayer_err, tbLoopEInner_err, ih])
      | (injection h with hh; subst hh; rename_i h)
      | dsimp only at h
      | split at h

theorem makeTopBottomOutfits_err (ctx : TBCtx) (top_list bottom_list layer_list : List Item)
    (n : Nat) (pc : Bool) (s : Nat) (e : Err)
    (h : makeTopBottomOutfits ctx top_list bottom_list layer_list n pc s = .error e) :
    e = .emptySeq := by
  unfold makeTopBottomOutfits at h
  repeat'
    first
    | exact Except.noConfusion h
    | solve_by_elim [randChoice_err, comboWithLayer_err, maybeAddLayer_err, tbLoopA_err, tbLoopB_err, tbSingleTop_err, tbLoopCD_err, tbLoopE_err]
    | (injection h with hh; subst hh; rename_i h; solve_by_elim [randChoice_err, comboWithLayer_err, maybeAddLayer_err, tbLoopA_err, tbLoopB_err, tbSingleTop_err, tbLoopCD_err, tbLoopE_err])
    | (injection h with hh; subst hh; rename_i h)
    | dsimp only at h
    | split at h

theorem layerCombosLoop_err (layers_color lys : List Item) :
    ∀ pairs outfits added s e,
      layerCombosLoop layers_color lys pairs outfits added s = .error e → e = .emptySeq := by
  intro pairs
  induction pairs with
  | nil => intro outfits added s e h; exact Except.noConfusion h
  | cons tb rest ih =>
    intro outfits added s e h
    rw [layerCombosLoop] at h
    repeat'
      first
      | exact Except.noConfusion h
      | solve_by_elim [randChoice_err, ih]
      | (injection h with hh; subst hh; rename_i h; solve_by_elim [randChoice_err, ih])
      | (injection h with hh; subst hh; rename_i h)
      | dsimp only at h
      | split at h

theorem extraLoopInner_err (ln : Bool) (lys : List Item) (preLen : Nat) (t : Item) :
    ∀ bs extra up s e,
      extraLoopInner ln lys preLen t bs extra up s = .error e → e = .emptySeq := by
  intro bs
  induction bs with
  | nil => intro extra up s e h; exact Except.noConfusion h
  | cons b rest ih =>
    intro extra up s e h
    rw [extraLoopInner] at h
    repeat'
      first
      | exact Except.noConfusion h
      | solve_by_elim [randChoice_err, ih]
      | (injection h with hh; subst hh; rename_i h; solve_by_elim [randChoice_err, ih])
      | (injection h with hh; subst hh; rename_i h)
      | dsimp only at h
      | split at h

theorem extraLoopOuter_err (ln : Bool) (lys : List Item) (preLen : Nat) :
    ∀ ts bl extra up s e,
      extraLoopOuter ln lys preLen ts bl extra up s = .error e → e = .emptySeq := by
  intro ts
  induction ts with
  | nil => intro bl extra up s e h; exact Except.noConfusion h
  | cons t ts ih =>
    intro bl extra up s e h
    rw [extraLoopOuter] at h
    repeat'
      first
      | exact Except.noConfusion h
      | solve_by_elim [randChoice_err, extraLoopInner_err, ih]
      | (injection h with hh; subst hh; rename_i h; solve_by_elim [randChoice_err, extraLoopInner_err, ih])
      | (injection h with hh; subst hh; rename_i h)
      | dsimp only at h
      | split at h

theorem finalWhile_err (ln : Bool) (tops bottoms lys : List Item) :
    ∀ k outfits s e, finalWhile ln tops bottoms lys k outfits s = .error e → e = .emptySeq := by
  intro k
  induction k with
  | zero => intro outfits s e h; exact Except.noConfusion h
  | succ k ih =>
    intro outfits s e h
    rw [finalWhile] at h
    repeat'
      first
      | exact Except.noConfusion h
      | solve_by_elim [randChoice_err, ih]
      | (injection h with hh; subst hh; rename_i h; solve_by_elim [randChoice_err, ih])
      | (injection h with hh; subst hh; rename_i h)
      | dsimp only at h
      | split at h

theorem femaleOnePieceStep_err (ln : Bool)
    (one_pieces one_pieces_color lys layers_color : List Item) (s : Nat) (e : Err)
    (h : femaleOnePieceStep ln one_pieces one_pieces_color lys layers_color s = .error e) :
    e = .emptySeq := by
  unfold femaleOnePieceStep at h
  repeat'
    first
    | exact Except.noConfusion h
    | solve_by_elim [randChoice_err]
    | (injection h with hh; subst hh; rename_i h; solve_by_elim [randChoice_err])
    | (injection h with hh; subst hh; rename_i h)
    | dsimp only at h
    | split at h

theorem defaultPath_err (dist : Dist) (username : String)
    (occasions style_tags colors avoid : List String) (context : Ctx)
    (gender : String) (ln : Bool)
    (its one_pieces tops bottoms lys filtered : List Item) (s : Nat) (e : Err)
    (h : defaultPath dist username occasions style_tags colors avoid context gender ln
         its one_pieces tops bottoms lys filtered s = .error e) : e = .emptySeq := by
  unfold defaultPath dpStep3 dpStep4 at h
  repeat'
    first
    | exact Except.noConfusion h
    | solve_by_elim [randChoice_err, femaleOnePieceStep_err, layerCombosLoop_err, makeTopBottomOutfits_err, extraLoopOuter_err, finalWhile_err]
    | (injection h with hh; subst hh; rename_i h; solve_by_elim [randChoice_err, femaleOnePieceStep_err, layerCombosLoop_err, makeTopBottomOutfits_err, extraLoopOuter_err, finalWhile_err])
    | (injection h with hh; subst hh; rename_i h)
    | dsimp only at h
    | split at h

theorem activeBranch_err (dist : Dist) (colors avoid style_tags : List String)
    (tops bottoms : List Item) (e : Err)
    (h : activeBranch dist colors avoid style_tags tops bottoms = .error e) : e = .emptySeq := by
  unfold activeBranch at h
  repeat'
    first
    | exact Except.noConfusion h
    | solve_by_elim [randChoice_err]
    | (injection h with hh; subst hh; rename_i h; solve_by_elim [randChoice_err])
    | (injection h with hh; subst hh; rename_i h)
    | dsimp only at h
    | split at h

theorem recommendCore_err (dist : Dist) (wardrobe : List Item) (prompt username : String)
    (profile : Profile) (hour month seed : Nat) (e : Err)
    (h : recommendCore dist wardrobe prompt username profile hour month seed = .error e) :
    e = .emptySeq := by
  unfold recommendCore at h
  repeat'
    first
    | exact Except.noConfusion h
    | solve_by_elim [activeBranch_err, partyColors_err, defaultPath_err]
    | (injection h with hh; subst hh; rename_i h; solve_by_elim [activeBranch_err, partyColors_err, defaultPath_err])
    | (injection h with hh; subst hh; rename_i h)
    | dsimp only at h
    | split at h

/-- C8: the engine returns the authorization error exactly for
usernames missing from the credential store; for registered users the
membership check passes and no later code raises it (the body runs only
after the check, and its only failures are empty-sequence errors). -/
theorem auth_error_iff_unknown_user (dist : Dist) (db : UserDB) (wardrobe : List Item)
    (prompt username : String) (hour month seed : Nat) :
    recommendOutfits dist db wardrobe prompt username hour month seed
      = Except.error Err.notAuthenticated ↔ dbHasUser db username = false := by
  unfold recommendOutfits
  cases hf : db.find? (fun e => e.1 == username) with
  | none =>
    constructor
    · intro _
      unfold dbHasUser
      apply any_false
      intro x hx
      have hnp := List.find?_eq_none.mp hf x hx
      exact Bool.not_eq_true _ ▸ (by simpa using hnp)
    · intro _
      rfl
  | some entry =>
    constructor
    · intro h
      exact absurd (recommendCore_err dist wardrobe prompt username entry.2.preferences
        hour month seed Err.notAuthenticated h) (by simp)
    · intro hfalse
      exfalso
      unfold dbHasUser at hfalse
      have hp := List.find?_some hf
      have hmem := List.mem_of_find?_eq_some hf
      have hany : db.any (fun e => e.1 == username) = true := by
        rw [List.any_eq_true]
        exact ⟨entry, hmem, hp⟩
      rw [hfalse] at hany
      exact Bool.noConfusion hany

/-! ### Membership lemmas for the composition invariants -/

theorem getD_mem_of_lt {α : Type} :
    ∀ (l : List α) (i : Nat) (d : α), i < l.length → l.getD i d ∈ l
  | a :: _, 0, _, _ => List.mem_cons_self _ _
  | _ :: as, i + 1, d, h =>
    List.mem_cons_of_mem _ (getD_mem_of_lt as i d (by simpa using h))

theorem getD_cons_mem {α : Type} (a : α) (as : List α) (i : Nat) :
    (a :: as).getD i a ∈ a :: as := by
  rcases Nat.lt_or_ge i (a :: as).length with hlt | hge
  · exact getD_mem_of_lt _ _ _ hlt
  · have : (a :: as).getD i a = a := by
      rw [List.getD_eq_getElem?_getD]
      rw [List.getElem?_eq_none (by simpa using hge)]
      rfl
    rw [this]
    exact List.mem_cons_self _ _

theorem randChoice_ok {α : Type} (l : List α) (s : Nat) (x : α) (s2 : Nat)
    (h : randChoice l s = .ok (x, s2)) : x ∈ l := by
  cases l with
  | nil => exact Except.noConfusion h
  | cons a as =>
    have hp := Except.ok.inj h
    have h1 : (a :: as).getD (s % (a :: as).length) a = x := congrArg Prod.fst hp
    rw [← h1]
    exact getD_cons_mem a as _

theorem mem_pairsOf {α β : Type} :
    ∀ (xs : List α) (ys : List β) (p : α × β), p ∈ pairsOf xs ys → p.1 ∈ xs ∧ p.2 ∈ ys := by
  intro xs
  induction xs with
  | nil => intro ys p h; exact absurd h (by simp [pairsOf])
  | cons x xs ih =>
    intro ys p h
    rw [pairsOf] at h
    rcases List.mem_append.mp h with h1 | h2
    · obtain ⟨y, hy, hxy⟩ := List.mem_map.mp h1
      rw [← hxy]
      exact ⟨List.mem_cons_self _ _, hy⟩
    · obtain ⟨hx, hy⟩ := ih ys p h2
      exact ⟨List.mem_cons_of_mem _ hx, hy⟩

theorem shuffleGo_sub {α : Type} :
    ∀ (fuel : Nat) (l : List α) (s : Nat) (x : α), x ∈ (shuffleGo fuel l s).1 → x ∈ l := by
  intro fuel
  induction fuel with
  | zero => intro l s x h; simpa [shuffleGo] using h
  | succ f ih =>
    intro l s x h
    cases l with
    | nil => simp [shuffleGo] at h
    | cons a as =>
      rw [shuffleGo] at h
      dsimp only at h
      rcases List.mem_cons.mp h with h1 | h2
      · rw [h1]
        exact getD_cons_mem a as _
      · have hsub := ih ((a :: as).eraseIdx (s % (a :: as).length)) (rngStep s) x h2
        exact List.eraseIdx_subset _ _ hsub

theorem shuffleList_sub {α : Type} (l : List α) (s : Nat) (x : α)
    (h : x ∈ (shuffleList l s).1) : x ∈ l :=
  shuffleGo_sub l.length l s x h

theorem comboWithLayer_ok (ln : Bool) (lys : List Item) (top b : Item) (s : Nat)
    (combo : List Item) (s2 : Nat) (h : comboWithLayer ln lys top b s = .ok (combo, s2)) :
    combo = [top, b] ∨ ∃ l, l ∈ lys ∧ combo = [top, b, l] := by
  unfold comboWithLayer at h
  split at h
  · split at h
    · exact Except.noConfusion h
    · rename_i lyr s3 heq
      have hp := Except.ok.inj h
      have h1 : [top, b, lyr] = combo := congrArg Prod.fst hp
      exact Or.inr ⟨lyr, randChoice_ok _ _ _ _ heq, h1.symm⟩
  · have hp := Except.ok.inj h
    exact Or.inl (congrArg Prod.fst hp).symm

theorem maybeAddLayer_ok (ctx : TBCtx) (layer_list combo0 : List Item) (s : Nat)
    (combo : List Item) (s2 : Nat) (h : maybeAddLayer ctx layer_list combo0 s = .ok (combo, s2)) :
    combo = combo0 ∨ ∃ l, (l ∈ ctx.layers_color ∨ l ∈ layer_list) ∧ combo = combo0 ++ [l] := by
  unfold maybeAddLayer at h
  split at h
  · dsimp only at h
    split at h
    · split at h
      · split at h
        · exact Except.noConfusion h
        · rename_i lyr s3 heq
          have hp := Except.ok.inj h
          have h1 : combo0 ++ [lyr] = combo := congrArg Prod.fst hp
          refine Or.inr ⟨lyr, ?_, h1.symm⟩
          have hmem := randChoice_ok _ _ _ _ heq
          refine Or.inl ?_
          revert hmem
          split
          · intro hmem
            exact List.mem_of_mem_filter (List.mem_of_mem_filter hmem)
          · intro hmem
            exact List.mem_of_mem_filter hmem
      · have hp := Except.ok.inj h
        exact Or.inl (congrArg Prod.fst hp).symm
    · split at h
      · split at h
        · exact Except.noConfusion h
        · rename_i lyr s3 heq
          have hp := Except.ok.inj h
          have h1 : combo0 ++ [lyr] = combo := congrArg Prod.fst hp
          refine Or.inr ⟨lyr, ?_, h1.symm⟩
          have hmem := randChoice_ok _ _ _ _ heq
          refine Or.inr ?_
          revert hmem
          split
          · intro hmem
            exact List.mem_of_mem_filter (List.mem_of_mem_filter hmem)
          · intro hmem
            exact List.mem_of_mem_filter hmem
      · have hp := Except.ok.inj h
        exact Or.inl (congrArg Prod.fst hp).symm
  · have hp := Except.ok.inj h
    exact Or.inl (congrArg Prod.fst hp).symm

theorem swimFill_mem :
    ∀ (swim : List Item) (outfits : List Outfit) (used : List String) (o : Outfit),
      o ∈ swimFill swim outfits used →
      o ∈ outfits ∨ ∃ sw, sw ∈ swim ∧ o = ⟨"swimwear", [sw]⟩ := by
  intro swim
  induction swim with
  | nil => intro outfits used o h; exact Or.inl h
  | cons sw rest ih =>
    intro outfits used o h
    rw [swimFill] at h
    split at h
    · split at h
      · exact Or.inl h
      · rcases ih _ _ _ h with h1 | ⟨sw2, hsw2, ho⟩
        · exact Or.inl h1
        · exact Or.inr ⟨sw2, List.mem_cons_of_mem _ hsw2, ho⟩
    · split at h
      · rcases List.mem_append.mp h with h1 | h2
        · exact Or.inl h1
        · exact Or.inr ⟨sw, List.mem_cons_self _ _, by simpa using h2⟩
      · rcases ih _ _ _ h with h1 | ⟨sw2, hsw2, ho⟩
        · rcases List.mem_append.mp h1 with h3 | h4
          · exact Or.inl h3
          · exact Or.inr ⟨sw, List.mem_cons_self _ _, by simpa using h4⟩
        · exact Or.inr ⟨sw2, List.mem_cons_of_mem _ hsw2, ho⟩

theorem swimFill_all_swim :
    ∀ (swim : List Item) (outfits : List Outfit) (used : List String),
      (∀ o ∈ outfits, o.otype = "swimwear" ∧ o.items.length = 1) →
      ∀ o ∈ swimFill swim outfits used, o.otype = "swimwear" ∧ o.items.length = 1 := by
  intro swim outfits used hbase o ho
  rcases swimFill_mem swim outfits used o ho with h1 | ⟨sw, _, rfl⟩
  · exact hbase o h1
  · exact ⟨rfl, rfl⟩

theorem filter_length_add (l : List Item) (P : Item → Bool) :
    (l.filter P).length + (l.filter (fun x => !P x)).length = l.length := by
  induction l with
  | nil => rfl
  | cons a as ih =>
    cases hp : P a
    · have h1 : List.filter P (a :: as) = List.filter P as := by
        rw [List.filter_cons, hp, if_neg (by simp)]
      have h2 : List.filter (fun x => !P x) (a :: as) = a :: List.filter (fun x => !P x) as := by
        rw [List.filter_cons]
        rw [hp, if_pos (by decide)]
      rw [h1, h2]
      simp only [List.length_cons]
      omega
    · have h1 : List.filter P (a :: as) = a :: List.filter P as := by
        rw [List.filter_cons, hp, if_pos rfl]
      have h2 : List.filter (fun x => !P x) (a :: as) = List.filter (fun x => !P x) as := by
        rw [List.filter_cons]
        rw [hp, if_neg (by simp)]
      rw [h1, h2]
      simp only [List.length_cons]
      omega

theorem name_inj (l : List Item) (hpw : l.Pairwise (fun a b => a.name ≠ b.name)) :
    ∀ a ∈ l, ∀ b ∈ l, a.name = b.name → a = b := by
  induction l with
  | nil => intro a ha; exact absurd ha (by simp)
  | cons x xs ih =>
    rw [List.pairwise_cons] at hpw
    intro a ha b hb heq
    rcases List.mem_cons.mp ha with rfl | ha2
    · rcases List.mem_cons.mp hb with rfl | hb2
      · rfl
      · exact absurd heq (hpw.1 b hb2)
    · rcases List.mem_cons.mp hb with rfl | hb2
      · exact absurd heq.symm (hpw.1 a ha2)
      · exact ih hpw.2 a ha2 b hb2 heq

theorem contains_iff (l : List String) (x : String) : l.contains x = true ↔ x ∈ l := by
  simp

theorem swimFill_length :
    ∀ (swim : List Item) (outfits : List Outfit) (used : List String),
      swim.Pairwise (fun a b => a.name ≠ b.name) →
      outfits.length < 3 →
      3 ≤ outfits.length + (swim.filter (fun sw => !(used.contains sw.name))).length →
      (swimFill swim outfits used).length = 3 := by
  intro swim
  induction swim with
  | nil =>
    intro outfits used _ hlt hge
    simp only [List.filter_nil, List.length_nil, Nat.add_zero] at hge
    omega
  | cons sw rest ih =>
    intro outfits used hpw hlt hge
    rw [List.pairwise_cons] at hpw
    rw [swimFill]
    split
    · rename_i hc
      dsimp only
      rw [if_neg (by simp only [beq_iff_eq]; omega)]
      apply ih outfits used hpw.2 hlt
      rw [List.filter_cons] at hge
      simp only [hc, Bool.not_true, Bool.false_eq_true, if_false] at hge
      exact hge
    · rename_i hc
      have hcf : used.contains sw.name = false := by
        cases hcu : used.contains sw.name
        · rfl
        · exact absurd hcu hc
      dsimp only
      rw [List.filter_cons] at hge
      simp only [hcf, Bool.not_false, if_true] at hge
      by_cases h3 : (outfits ++ [(⟨"swimwear", [sw]⟩ : Outfit)]).length = 3
      · rw [if_pos (by simpa using h3)]
        exact h3
      · rw [if_neg (by simpa using h3)]
        apply ih _ _ hpw.2
        · simp only [List.length_append, List.length_cons, List.length_nil] at h3 ⊢
          omega
        · have hfilters : rest.filter (fun x => !((used ++ [sw.name]).contains x.name)) =
              rest.filter (fun x => !(used.contains x.name)) := by
            apply List.filter_congr
            intro x hx
            have hxne : x.name ≠ sw.name := fun hcon => hpw.1 x hx hcon.symm
            have hcon2 : (used ++ [sw.name]).contains x.name = used.contains x.name := by
              rw [Bool.eq_iff_iff, contains_iff, contains_iff]
              simp only [List.mem_append, List.mem_singleton]
              constructor
              · rintro (h2 | h2)
                · exact h2
                · exact absurd h2 hxne
              · exact fun h2 => Or.inl h2
            rw [hcon2]
          rw [hfilters]
          simp only [List.length_append, List.length_cons, List.length_nil] at hge ⊢
          omega

theorem padNone_mem (outfits : List Outfit) (o : Outfit) (h : o ∈ padNone outfits) :
    o ∈ outfits ∨ o = noneOutfit := by
  unfold padNone at h
  rcases List.mem_append.mp h with h1 | h2
  · exact Or.inl h1
  · exact Or.inr (List.eq_of_mem_replicate h2)

theorem padNone_eq_of_ge (outfits : List Outfit) (h : 3 ≤ outfits.length) :
    padNone outfits = outfits := by
  unfold padNone
  have : 3 - outfits.length = 0 := by omega
  rw [this]
  simp

theorem swimBranch_mem (dist : Dist) (username : String) (occasions : List String)
    (context : Ctx) (colors avoid : List String) (swimwear_items : List Item) :
    ∀ o ∈ (swimBranch dist username occasions context colors avoid swimwear_items).outfits,
      o = noneOutfit ∨ ∃ sw, sw ∈ swimwear_items ∧ o = ⟨"swimwear", [sw]⟩ := by
  intro o ho
  unfold swimBranch at ho
  dsimp only at ho
  rcases padNone_mem _ _ ho with hin | hnone
  · revert hin
    split
    · split
      · intro hin
        rcases swimFill_mem _ _ _ _ hin with h1 | ⟨sw, hsw, rfl⟩
        · obtain ⟨sw, hsw, rfl⟩ := List.mem_map.mp h1
          exact Or.inr ⟨sw, List.mem_of_mem_filter hsw, rfl⟩
        · exact Or.inr ⟨sw, hsw, rfl⟩
      · intro hin
        obtain ⟨sw, hsw, rfl⟩ := List.mem_map.mp hin
        exact Or.inr ⟨sw, List.mem_of_mem_filter hsw, rfl⟩
    · split
      · intro hin
        rcases swimFill_mem _ _ _ _ hin with h1 | ⟨sw, hsw, rfl⟩
        · exact absurd h1 (by simp)
        · exact Or.inr ⟨sw, hsw, rfl⟩
      · intro hin
        exact absurd hin (by simp)
  · exact Or.inl hnone

theorem contains_map_name_filter (swim : List Item) (P : Item → Bool)
    (hpw : swim.Pairwise (fun a b => a.name ≠ b.name)) (sw : Item) (hsw : sw ∈ swim) :
    ((swim.filter P).map (fun x => x.name)).contains sw.name = P sw := by
  cases hp : P sw
  · cases hc : ((swim.filter P).map (fun x => x.name)).contains sw.name
    · rfl
    · exfalso
      have hmem := (contains_iff _ _).mp hc
      obtain ⟨x, hx, hxn⟩ := List.mem_map.mp hmem
      have hx2 := List.mem_filter.mp hx
      have hxsw : x = sw := name_inj swim hpw x hx2.1 sw hsw hxn
      rw [hxsw] at hx2
      rw [hp] at hx2
      exact Bool.noConfusion hx2.2
  · apply (contains_iff _ _).mpr
    apply List.mem_map.mpr
    exact ⟨sw, List.mem_filter.mpr ⟨hsw, hp⟩, rfl⟩

theorem swimBranch_three (dist : Dist) (username : String) (occasions : List String)
    (context : Ctx) (colors avoid : List String) (swimwear_items : List Item)
    (hpw : swimwear_items.Pairwise (fun a b => a.name ≠ b.name))
    (h3 : 3 ≤ swimwear_items.length) :
    ∀ o ∈ (swimBranch dist username occasions context colors avoid swimwear_items).outfits,
      o.otype = "swimwear" ∧ o.items.length = 1 := by
  unfold swimBranch
  dsimp only
  have hbase : ∀ (l : List Item),
      ∀ o2 ∈ l.map (fun sw => (⟨"swimwear", [sw]⟩ : Outfit)),
        o2.otype = "swimwear" ∧ o2.items.length = 1 := by
    intro l o2 ho2
    obtain ⟨sw, _, rfl⟩ := List.mem_map.mp ho2
    exact ⟨rfl, rfl⟩
  by_cases hcol : (!colors.isEmpty) = true
  · simp only [if_pos hcol]
    intro o ho
    revert ho
    split
    · rename_i hlen
      intro ho
      have hcount : 3 ≤ ((swimwear_items.filter
            (fun i => colorMatch dist i.tags colors avoid)).map
            (fun sw => (⟨"swimwear", [sw]⟩ : Outfit))).length +
          (swimwear_items.filter (fun sw =>
            !(((swimwear_items.filter (fun i => colorMatch dist i.tags colors avoid)).map
              (fun sw => sw.name)).contains sw.name))).length := by
        rw [List.length_map]
        have hfresh : swimwear_items.filter (fun sw =>
            !(((swimwear_items.filter (fun i => colorMatch dist i.tags colors avoid)).map
              (fun sw => sw.name)).contains sw.name)) =
            swimwear_items.filter (fun sw => !(colorMatch dist sw.tags colors avoid)) := by
          apply List.filter_congr
          intro x hx
          rw [contains_map_name_filter swimwear_items _ hpw x hx]
        rw [hfresh]
        have hsplit := filter_length_add swimwear_items
          (fun i => colorMatch dist i.tags colors avoid)
        omega
      have hfill_len := swimFill_length swimwear_items _ _ hpw hlen hcount
      rw [padNone_eq_of_ge _ (le_of_eq hfill_len.symm)] at ho
      exact swimFill_all_swim _ _ _ (hbase _) o ho
    · rename_i hlen
      intro ho
      rw [padNone_eq_of_ge _ (by omega)] at ho
      exact hbase _ o ho
  · simp only [if_neg hcol]
    simp only [List.map_nil, List.length_nil]
    rw [if_pos (by omega : (0:Nat) < 3)]
    intro o ho
    have hcount : 3 ≤ (([] : List Outfit)).length +
        (swimwear_items.filter (fun sw => !(([] : List String).contains sw.name))).length := by
      have hall : swimwear_items.filter (fun sw => !(([] : List String).contains sw.name)) =
          swimwear_items := List.filter_eq_self.mpr (fun a _ => rfl)
      rw [hall]
      simpa using h3
    have hfill_len := swimFill_length swimwear_items [] [] hpw (by decide) hcount
    rw [padNone_eq_of_ge _ (le_of_eq hfill_len.symm)] at ho
    exact swimFill_all_swim _ _ _ (fun o2 ho2 => absurd ho2 (by simp)) o ho

theorem filterCategory_pairwise {R : Item → Item → Prop} (its : List Item) (cat : String)
    (g : Option String) (h : its.Pairwise R) : (filterCategory its cat g).Pairwise R := by
  unfold filterCategory
  cases g with
  | none => exact h.filter _
  | some gg => exact (h.filter _).filter _

/-- C4 (amended): when the prompt resolves to a swimming occasion, the
catalog has unique names, and at least three swimwear items are
eligible for the profile, every returned outfit is a swimwear outfit
with exactly one item (no `none` padding). -/
theorem swim_all_swimwear_of_three (dist : Dist) (db : UserDB) (wardrobe : List Item)
    (prompt username : String) (hour month seed : Nat) (entry : String × UserRec) (r : RecResult)
    (hfind : db.find? (fun e => e.1 == username) = some entry)
    (hswim : ((extractReqs prompt).occasions.contains "swimming" ||
              (mkStyleTags (extractReqs prompt).occasions).contains "swimming") = true)
    (hpw : wardrobe.Pairwise (fun a b => a.name ≠ b.name))
    (hcount : 3 ≤ (filterCategory (filterByProfile wardrobe entry.2.preferences) "swimwear"
          (some entry.2.preferences.gender)).length)
    (hok : recommendOutfits dist db wardrobe prompt username hour month seed = .ok r) :
    AllSwimSingle r := by
  unfold recommendOutfits at hok
  simp only [hfind] at hok
  unfold recommendCore at hok
  dsimp only at hok
  rw [if_pos hswim] at hok
  have hr := Except.ok.inj hok
  rw [← hr]
  exact swimBranch_three dist username (extractReqs prompt).occasions
    (getContext hour month) (extractReqs prompt).colors (extractReqs prompt).avoid
    _ (filterCategory_pairwise _ _ _ (hpw.filter _)) hcount

/-- Witness for the amended C4 on the three-swimwear catalog. -/
theorem swim_all_swimwear_of_three_witness :
    demoDB.find? (fun e => e.1 == "u") = some ("u", ⟨"hash", demoProfile⟩) ∧
    ((extractReqs "swimming").occasions.contains "swimming" ||
      (mkStyleTags (extractReqs "swimming").occasions).contains "swimming") = true ∧
    demoCatThreeSwim.Pairwise (fun a b => a.name ≠ b.name) ∧
    3 ≤ (filterCategory (filterByProfile demoCatThreeSwim demoProfile) "swimwear"
          (some demoProfile.gender)).length ∧
    demoRunSwim = Except.ok demoRunSwimResult ∧
    AllSwimSingle demoRunSwimResult := by
  refine ⟨rfl, by decide, by decide, by decide, rfl, ?_⟩
  exact swim_all_swimwear_of_three distRefl demoDB demoCatThreeSwim "swimming" "u" 10 6 0
    ("u", ⟨"hash", demoProfile⟩) demoRunSwimResult rfl (by decide) (by decide) (by decide) rfl

/-! ### Pool lemmas -/

theorem headD_mem {α : Type} (l : List α) (d : α) (h : l ≠ []) : l.headD d ∈ l := by
  cases l with
  | nil => exact absurd rfl h
  | cons a as => exact List.mem_cons_self _ _

theorem filterCategory_pure (its : List Item) (cat : String) (g : Option String) :
    ∀ i ∈ filterCategory its cat g, i ∈ its ∧ i.category = cat := by
  intro i hi
  unfold filterCategory at hi
  cases g with
  | none =>
    have h2 := List.mem_filter.mp hi
    exact ⟨h2.1, by simpa using h2.2⟩
  | some gg =>
    have h1 := List.mem_filter.mp hi
    have h2 := List.mem_filter.mp h1.1
    exact ⟨h2.1, by simpa using h2.2⟩

theorem narrowPool_sub (dist : Dist) (style_tags avoid : List String) (all : List Item) :
    ∀ t ∈ narrowPool dist style_tags avoid all, t ∈ all := by
  intro t ht
  unfold narrowPool styleNarrow at ht
  dsimp only at ht
  repeat'
    first
    | exact ht
    | exact List.mem_of_mem_filter ht
    | exact List.mem_of_mem_filter (List.mem_of_mem_filter ht)
    | exact List.mem_of_mem_filter (List.mem_of_mem_filter (List.mem_of_mem_filter ht))
    | split at ht

theorem formalNarrow_sub (occasions style_tags : List String) (tops bottoms : List Item) :
    (∀ t ∈ (formalNarrow occasions style_tags tops bottoms).1, t ∈ tops) ∧
    (∀ b ∈ (formalNarrow occasions style_tags tops bottoms).2, b ∈ bottoms) := by
  unfold formalNarrow
  split
  · exact ⟨fun t ht => List.mem_of_mem_filter ht, fun b hb => List.mem_of_mem_filter hb⟩
  · exact ⟨fun t ht => ht, fun b hb => hb⟩

theorem partyPools_sub (style_tags : List String) (tops bottoms tops_all bottoms_all : List Item) :
    (∀ t ∈ (partyPools style_tags tops bottoms tops_all bottoms_all).1,
       t ∈ tops ∨ t ∈ tops_all) ∧
    (∀ b ∈ (partyPools style_tags tops bottoms tops_all bottoms_all).2,
       b ∈ bottoms ∨ b ∈ bottoms_all) := by
  unfold partyPools
  dsimp only
  constructor
  · intro t ht
    repeat' split at ht
    all_goals
      first
        | exact Or.inl (List.mem_of_mem_filter ht)
        | exact Or.inr (List.mem_of_mem_filter ht)
  · intro b hb
    repeat' split at hb
    all_goals
      first
        | exact Or.inl (List.mem_of_mem_filter hb)
        | exact Or.inr (List.mem_of_mem_filter hb)

/-! ### Branch shape lemmas -/

theorem activeBranch_ok (dist : Dist) (colors avoid style_tags : List String)
    (tops bottoms : List Item) (outs : List Outfit)
    (h : activeBranch dist colors avoid style_tags tops bottoms = .ok outs) :
    ∀ o ∈ outs, ∃ t, t ∈ tops ∧ ∃ b, b ∈ bottoms ∧ o = ⟨"multi_piece", [t, b]⟩ := by
  unfold activeBranch at h
  dsimp only at h
  split at h
  · exact Except.noConfusion h
  · rename_i p ps heq
    have houts := Except.ok.inj h
    intro o ho
    rw [← houts] at ho
    obtain ⟨idx, _, hof⟩ := List.mem_map.mp ho
    have hmem : (p :: ps).getD (idx % (p :: ps).length) p ∈ p :: ps := getD_cons_mem _ _ _
    have hsub : ∀ x ∈ p :: ps, x ∈ pairsOf
        (tops.filter (fun t => t.tags.any
          (fun tag => style_tags.contains tag || activeOccasions.contains tag)))
        (bottoms.filter (fun b => b.tags.any
          (fun tag => style_tags.contains tag || activeOccasions.contains tag))) := by
      rw [← heq]
      intro x hx
      revert hx
      split
      · split
        · intro hx
          exact List.mem_of_mem_filter hx
        · intro hx
          exact hx
      · intro hx
        exact hx
    have hcomp := mem_pairsOf _ _ _ (hsub _ hmem)
    refine ⟨_, List.mem_of_mem_filter hcomp.1, _, List.mem_of_mem_filter hcomp.2, ?_⟩
    rw [← hof]

theorem partyForLoop_ok (ln : Bool) (lys : List Item) (top : Item) :
    ∀ bs outfits used s out s2,
      partyForLoop ln lys top bs outfits used s = .ok (out, s2) →
      ∀ o ∈ out, o ∈ outfits ∨ ∃ b, b ∈ bs ∧
        (o = ⟨"multi_piece", [top, b]⟩ ∨ ∃ l, l ∈ lys ∧ o = ⟨"multi_piece", [top, b, l]⟩) := by
  intro bs
  induction bs with
  | nil =>
    intro outfits used s out s2 h o ho
    have hp := Except.ok.inj h
    have h1 : outfits = out := congrArg Prod.fst hp
    rw [← h1] at ho
    exact Or.inl ho
  | cons b rest ih =>
    intro outfits used s out s2 h o ho
    rw [partyForLoop] at h
    split at h
    · rcases ih _ _ _ _ _ h o ho with h1 | ⟨b2, hb2, ho2⟩
      · exact Or.inl h1
      · exact Or.inr ⟨b2, List.mem_cons_of_mem _ hb2, ho2⟩
    · split at h
      · exact Except.noConfusion h
      · rename_i combo s3 heq
        dsimp only at h
        have hcombo := comboWithLayer_ok _ _ _ _ _ _ _ heq
        have hshape : (⟨"multi_piece", combo⟩ : Outfit) = ⟨"multi_piece", [top, b]⟩ ∨
            ∃ l, l ∈ lys ∧ (⟨"multi_piece", combo⟩ : Outfit) = ⟨"multi_piece", [top, b, l]⟩ := by
          rcases hcombo with rfl | ⟨l, hl, rfl⟩
          · exact Or.inl rfl
          · exact Or.inr ⟨l, hl, rfl⟩
        revert h
        split
        · intro h
          have hp := Except.ok.inj h
          have h1 : outfits ++ [(⟨"multi_piece", combo⟩ : Outfit)] = out := congrArg Prod.fst hp
          rw [← h1] at ho
          rcases List.mem_append.mp ho with h2 | h3
          · exact Or.inl h2
          · have ho2 : o = (⟨"multi_piece", combo⟩ : Outfit) := by simpa using h3
            rw [ho2]
            exact Or.inr ⟨b, List.mem_cons_self _ _, hshape⟩
        · intro h
          rcases ih _ _ _ _ _ h o ho with h1 | ⟨b2, hb2, ho2⟩
          · rcases List.mem_append.mp h1 with h2 | h3
            · exact Or.inl h2
            · have ho2 : o = (⟨"multi_piece", combo⟩ : Outfit) := by simpa using h3
              rw [ho2]
              exact Or.inr ⟨b, List.mem_cons_self _ _, hshape⟩
          · exact Or.inr ⟨b2, List.mem_cons_of_mem _ hb2, ho2⟩

theorem partyWhile_ok (ln : Bool) (lys : List Item) (top : Item) (pb : List Item) :
    ∀ k outfits s out s2,
      partyWhile ln lys top pb k outfits s = .ok (out, s2) →
      ∀ o ∈ out, o ∈ outfits ∨ ∃ b, b ∈ pb ∧
        (o = ⟨"multi_piece", [top, b]⟩ ∨ ∃ l, l ∈ lys ∧ o = ⟨"multi_piece", [top, b, l]⟩) := by
  intro k
  induction k with
  | zero =>
    intro outfits s out s2 h o ho
    have hp := Except.ok.inj h
    have h1 : outfits = out := congrArg Prod.fst hp
    rw [← h1] at ho
    exact Or.inl ho
  | succ k ih =>
    intro outfits s out s2 h o ho
    rw [partyWhile] at h
    split at h
    · exact Except.noConfusion h
    · rename_i b s3 heqb
      split at h
      · exact Except.noConfusion h
      · rename_i combo s4 heqc
        have hbmem := randChoice_ok _ _ _ _ heqb
        have hcombo := comboWithLayer_ok _ _ _ _ _ _ _ heqc
        rcases ih _ _ _ _ h o ho with h1 | ⟨b2, hb2, ho2⟩
        · rcases List.mem_append.mp h1 with h2 | h3
          · exact Or.inl h2
          · have ho2 : o = (⟨"multi_piece", combo⟩ : Outfit) := by simpa using h3
            rw [ho2]
            rcases hcombo with rfl | ⟨l, hl, rfl⟩
            · exact Or.inr ⟨b, hbmem, Or.inl rfl⟩
            · exact Or.inr ⟨b, hbmem, Or.inr ⟨l, hl, rfl⟩⟩
        · exact Or.inr ⟨b2, hb2, ho2⟩

theorem zip_take_mem {α β : Type} (l1 : List α) (l2 : List β) (n : Nat) (p : α × β)
    (h : p ∈ (l1.zip l2).take n) : p.1 ∈ l1 ∧ p.2 ∈ l2 := by
  have h2 : p ∈ l1.zip l2 := List.take_subset _ _ h
  exact ⟨List.mem_zip h2 |>.1, List.mem_zip h2 |>.2⟩

theorem partyGeneral_good (pool : List Item) (username : String)
    (occasions style_tags : List String) (context : Ctx) (ln : Bool)
    (tops_all bottoms_all lys pt pb : List Item) (s : Nat) (r : RecResult)
    (hpt : ∀ t ∈ pt, t ∈ pool ∧ t.category = "topwear")
    (hpb : ∀ b ∈ pb, b ∈ pool ∧ b.category = "bottomwear")
    (hlys : ∀ l ∈ lys, l ∈ pool ∧ l.category = "layer")
    (hta : ∀ t ∈ tops_all, t ∈ pool ∧ t.category = "topwear")
    (hba : ∀ b ∈ bottoms_all, b ∈ pool ∧ b.category = "bottomwear")
    (h : partyGeneral username occasions style_tags context ln tops_all bottoms_all lys pt pb s
         = .ok r) :
    ∀ o ∈ r.outfits, GoodOutfit pool o := by
  have hzipgood : ∀ o ∈ (((tops_all.filter (fun t => hasTagIn t ethnicTags)).zip
        (bottoms_all.filter (fun b => hasTagIn b ethnicTags))).take 3).map
        (fun tb => (⟨"multi_piece", [tb.1, tb.2]⟩ : Outfit)), GoodOutfit pool o := by
    intro o ho
    obtain ⟨tb, htb, rfl⟩ := List.mem_map.mp ho
    obtain ⟨h1, h2⟩ := zip_take_mem _ _ _ _ htb
    have ht := hta _ (List.mem_of_mem_filter h1)
    have hb := hba _ (List.mem_of_mem_filter h2)
    exact Or.inr (Or.inr (Or.inl ⟨by simp, tb.1, tb.2, ht.1, hb.1, ht.2, hb.2, rfl⟩))
  have hnone3 : ∀ o ∈ ([noneOutfit, noneOutfit, noneOutfit] : List Outfit),
      GoodOutfit pool o := by
    intro o ho
    rcases List.mem_cons.mp ho with rfl | ho2
    · exact Or.inl ⟨rfl, rfl⟩
    · rcases List.mem_cons.mp ho2 with rfl | ho3
      · exact Or.inl ⟨rfl, rfl⟩
      · rcases List.mem_cons.mp ho3 with rfl | ho4
        · exact Or.inl ⟨rfl, rfl⟩
        · exact absurd ho4 (by simp)
  unfold partyGeneral at h
  dsimp only at h
  split at h
  · exact Except.noConfusion h
  · rename_i outfits1 s3 heq
    have hstep : ∀ o ∈ outfits1, GoodOutfit pool o := by
      revert heq
      split
      · rename_i hcond
        split
        · intro heq
          exact Except.noConfusion heq
        · rename_i outfits0 s2 heqFor
          intro heqWhile
          have hne2 : pt ≠ [] := by
            intro hcon
            rw [hcon] at hcond
            simp at hcond
          have htop : pt.headD dummyItem ∈ pt := headD_mem _ _ hne2
          have hshape_good : ∀ (b : Item), b ∈ pb → ∀ (o : Outfit),
              (o = ⟨"multi_piece", [pt.headD dummyItem, b]⟩ ∨
               ∃ l, l ∈ lys ∧ o = ⟨"multi_piece", [pt.headD dummyItem, b, l]⟩) →
              GoodOutfit pool o := by
            intro b hb o hshape
            have ht2 := hpt _ htop
            have hb2 := hpb _ hb
            rcases hshape with rfl | ⟨l, hl, rfl⟩
            · exact Or.inr (Or.inr (Or.inl ⟨by simp, _, b, ht2.1, hb2.1, ht2.2, hb2.2, rfl⟩))
            · have hl2 := hlys _ hl
              exact Or.inr (Or.inr (Or.inr (Or.inl
                ⟨by simp, _, b, l, ht2.1, hb2.1, hl2.1, ht2.2, hb2.2, hl2.2, rfl⟩)))
          intro o ho
          rcases partyWhile_ok _ _ _ _ _ _ _ _ _ heqWhile o ho with h1 | ⟨b, hb, hshape⟩
          · rcases partyForLoop_ok _ _ _ _ _ _ _ _ _ heqFor o h1 with h2 | ⟨b, hb, hshape⟩
            · exact absurd h2 (by simp)
            · exact hshape_good b hb o hshape
          · exact hshape_good b hb o hshape
      · intro heq
        have hp := Except.ok.inj heq
        have h1 : ([] : List Outfit) = outfits1 := congrArg Prod.fst hp
        intro o ho
        rw [← h1] at ho
        exact absurd ho (by simp)
    split at h
    · split at h
      · have hr := Except.ok.inj h
        rw [← hr]
        intro o ho
        exact hnone3 o ho
      · have hr := Except.ok.inj h
        rw [← hr]
        intro o ho
        exact hzipgood o ho
    · split at h
      · have hr := Except.ok.inj h
        rw [← hr]
        intro o ho
        exact hnone3 o ho
      · have hr := Except.ok.inj h
        rw [← hr]
        intro o ho
        exact hstep o ho

theorem partyColorsCore_good (pool : List Item) (dist : Dist) (username : String)
    (occasions style_tags colors avoid : List String) (context : Ctx) (gender : String)
    (ln : Bool) (one_pieces tops_all bottoms_all lys ptx pbx : List Item) (s : Nat)
    (r : RecResult)
    (hop : ∀ p ∈ one_pieces, p ∈ pool ∧ p.category ≠ "layer")
    (hptx : ∀ t ∈ ptx, t ∈ pool ∧ t.category = "topwear")
    (hpbx : ∀ b ∈ pbx, b ∈ pool ∧ b.category = "bottomwear")
    (hlys : ∀ l ∈ lys, l ∈ pool ∧ l.category = "layer")
    (hta : ∀ t ∈ tops_all, t ∈ pool ∧ t.category = "topwear")
    (hba : ∀ b ∈ bottoms_all, b ∈ pool ∧ b.category = "bottomwear")
    (h : partyColorsCore dist username occasions style_tags colors avoid context gender ln
         one_pieces tops_all bottoms_all lys ptx pbx s = .ok r) :
    ∀ o ∈ r.outfits, GoodOutfit pool o := by
  unfold partyColorsCore at h
  dsimp only at h
  split at h
  · split at h
    · have hr := Except.ok.inj h
      rw [← hr]
      intro o ho
      dsimp only at ho
      revert ho
      split
      · rename_i hcond
        intro ho
        rcases List.mem_append.mp ho with h1 | h2
        · obtain ⟨op, hopmem, rfl⟩ := List.mem_map.mp h1
          have hop1 : op ∈ one_pieces :=
            List.mem_of_mem_filter (List.mem_of_mem_filter (List.take_subset _ _ hopmem))
          have hop2 := hop _ hop1
          exact Or.inr (Or.inl ⟨by simp, op, hop2.1, rfl⟩)
        · obtain ⟨i, _, rfl⟩ := List.mem_map.mp h2
          obtain ⟨hc1, hc3⟩ := Bool.and_eq_true .. |>.mp hcond
          obtain ⟨hc1a, hc1b⟩ := Bool.and_eq_true .. |>.mp hc1
          have hptne : ptx ≠ [] := by
            intro hcon
            rw [hcon] at hc1a
            simp at hc1a
          have hpbne : pbx ≠ [] := by
            intro hcon
            rw [hcon] at hc1b
            simp at hc1b
          have htop := hptx _ (headD_mem _ dummyItem hptne)
          have hlen : 0 < pbx.length := List.length_pos.mpr hpbne
          have hbot := hpbx _ (getD_mem_of_lt pbx (i % pbx.length) dummyItem
            (Nat.mod_lt i hlen))
          exact Or.inr (Or.inr (Or.inl
            ⟨by simp, _, _, htop.1, hbot.1, htop.2, hbot.2, rfl⟩))
      · intro ho
        obtain ⟨op, hopmem, rfl⟩ := List.mem_map.mp ho
        have hop1 : op ∈ one_pieces :=
          List.mem_of_mem_filter (List.mem_of_mem_filter (List.take_subset _ _ hopmem))
        have hop2 := hop _ hop1
        exact Or.inr (Or.inl ⟨by simp, op, hop2.1, rfl⟩)
    · exact partyGeneral_good pool username occasions style_tags context ln
        tops_all bottoms_all lys _ _ s r hptx hpbx hlys hta hba h
  · exact partyGeneral_good pool username occasions style_tags context ln
      tops_all bottoms_all lys _ _ s r hptx hpbx hlys hta hba h

theorem partyColors_good (pool : List Item) (dist : Dist) (username : String)
    (occasions style_tags colors avoid : List String) (context : Ctx) (gender : String)
    (ln : Bool) (one_pieces tops_all bottoms_all lys pt pb : List Item) (s : Nat) (r : RecResult)
    (hop : ∀ p ∈ one_pieces, p ∈ pool ∧ p.category ≠ "layer")
    (hpt : ∀ t ∈ pt, t ∈ pool ∧ t.category = "topwear")
    (hpb : ∀ b ∈ pb, b ∈ pool ∧ b.category = "bottomwear")
    (hlys : ∀ l ∈ lys, l ∈ pool ∧ l.category = "layer")
    (hta : ∀ t ∈ tops_all, t ∈ pool ∧ t.category = "topwear")
    (hba : ∀ b ∈ bottoms_all, b ∈ pool ∧ b.category = "bottomwear")
    (h : partyColors dist username occasions style_tags colors avoid context gender ln
         one_pieces tops_all bottoms_all lys pt pb s = .ok r) :
    ∀ o ∈ r.outfits, GoodOutfit pool o := by
  unfold partyColors at h
  dsimp only at h
  have hptF : ∀ t ∈ pt.filter (fun t => colorMatch dist t.tags colors avoid),
      t ∈ pool ∧ t.category = "topwear" :=
    fun t ht => hpt t (List.mem_of_mem_filter ht)
  have hpbF : ∀ b ∈ pb.filter (fun b => colorMatch dist b.tags colors avoid),
      b ∈ pool ∧ b.category = "bottomwear" :=
    fun b hb => hpb b (List.mem_of_mem_filter hb)
  split at h
  · split at h
    · exact partyColorsCore_good pool dist username occasions style_tags colors avoid context
        gender ln one_pieces tops_all bottoms_all lys _ _ s r hop hptF hpbF hlys hta hba h
    · exact partyColorsCore_good pool dist username occasions style_tags colors avoid context
        gender ln one_pieces tops_all bottoms_all lys _ _ s r hop hptF hpb hlys hta hba h
  · split at h
    · exact partyColorsCore_good pool dist username occasions style_tags colors avoid context
        gender ln one_pieces tops_all bottoms_all lys _ _ s r hop hpt hpbF hlys hta hba h
    · exact partyColorsCore_good pool dist username occasions style_tags colors avoid context
        gender ln one_pieces tops_all bottoms_all lys _ _ s r hop hpt hpb hlys hta hba h

theorem femaleOnePieceStep_ok (ln : Bool)
    (one_pieces one_pieces_color lys layers_color : List Item) (s : Nat)
    (out : List Outfit) (used : List String) (s2 : Nat)
    (h : femaleOnePieceStep ln one_pieces one_pieces_color lys layers_color s
         = .ok (out, used, s2)) :
    ∀ o ∈ out, ∃ op, (op ∈ one_pieces_color ∨ op ∈ one_pieces) ∧
      (o = ⟨"one_piece", [op]⟩ ∨
       ∃ l, (l ∈ layers_color ∨ l ∈ lys) ∧ o = ⟨"one_piece", [op, l]⟩) := by
  unfold femaleOnePieceStep at h
  dsimp only at h
  split at h
  · exact Except.noConfusion h
  · rename_i op s3 heq
    have hopmem2 : op ∈ one_pieces_color ∨ op ∈ one_pieces := by
      have hm2 := List.mem_of_mem_filter (randChoice_ok _ _ _ _ heq)
      revert hm2
      split
      · intro hm2
        exact Or.inl hm2
      · intro hm2
        exact Or.inr hm2
    split at h
    · split at h
      · split at h
        · split at h
          · exact Except.noConfusion h
          · rename_i lyr s4 heq2
            have hlmem2 : lyr ∈ layers_color ∨ lyr ∈ lys :=
              Or.inl (List.mem_of_mem_filter (randChoice_ok _ _ _ _ heq2))
            have hp := Except.ok.inj h
            have h1 : [(⟨"one_piece", [op, lyr]⟩ : Outfit)] = out := congrArg Prod.fst hp
            intro o ho
            rw [← h1] at ho
            have ho2 : o = (⟨"one_piece", [op, lyr]⟩ : Outfit) := by simpa using ho
            rw [ho2]
            exact ⟨op, hopmem2, Or.inr ⟨lyr, hlmem2, rfl⟩⟩
        · have hp := Except.ok.inj h
          have h1 : [(⟨"one_piece", [op]⟩ : Outfit)] = out := congrArg Prod.fst hp
          intro o ho
          rw [← h1] at ho
          have ho2 : o = (⟨"one_piece", [op]⟩ : Outfit) := by simpa using ho
          rw [ho2]
          exact ⟨op, hopmem2, Or.inl rfl⟩
      · split at h
        · split at h
          · exact Except.noConfusion h
          · rename_i lyr s4 heq2
            have hlmem2 : lyr ∈ layers_color ∨ lyr ∈ lys :=
              Or.inr (List.mem_of_mem_filter (randChoice_ok _ _ _ _ heq2))
            have hp := Except.ok.inj h
            have h1 : [(⟨"one_piece", [op, lyr]⟩ : Outfit)] = out := congrArg Prod.fst hp
            intro o ho
            rw [← h1] at ho
            have ho2 : o = (⟨"one_piece", [op, lyr]⟩ : Outfit) := by simpa using ho
            rw [ho2]
            exact ⟨op, hopmem2, Or.inr ⟨lyr, hlmem2, rfl⟩⟩
        · have hp := Except.ok.inj h
          have h1 : [(⟨"one_piece", [op]⟩ : Outfit)] = out := congrArg Prod.fst hp
          intro o ho
          rw [← h1] at ho
          have ho2 : o = (⟨"one_piece", [op]⟩ : Outfit) := by simpa using ho
          rw [ho2]
          exact ⟨op, hopmem2, Or.inl rfl⟩
    · have hp := Except.ok.inj h
      have h1 : [(⟨"one_piece", [op]⟩ : Outfit)] = out := congrArg Prod.fst hp
      intro o ho
      rw [← h1] at ho
      have ho2 : o = (⟨"one_piece", [op]⟩ : Outfit) := by simpa using ho
      rw [ho2]
      exact ⟨op, hopmem2, Or.inl rfl⟩

theorem layerCombosLoop_ok (layers_color lys : List Item) :
    ∀ pairs outfits added s out s2,
      layerCombosLoop layers_color lys pairs outfits added s = .ok (out, s2) →
      ∀ o ∈ out, o ∈ outfits ∨ ∃ t b, (t, b) ∈ pairs ∧
        (o = ⟨"multi_piece", [t, b]⟩ ∨
         ∃ l, (l ∈ layers_color ∨ l ∈ lys) ∧ o = ⟨"multi_piece", [t, b, l]⟩) := by
  intro pairs
  induction pairs with
  | nil =>
    intro outfits added s out s2 h o ho
    have hp := Except.ok.inj h
    have h1 : outfits = out := congrArg Prod.fst hp
    rw [← h1] at ho
    exact Or.inl ho
  | cons tb rest ih =>
    intro outfits added s out s2 h o ho
    rw [layerCombosLoop] at h
    dsimp only at h
    split at h
    · exact Except.noConfusion h
    · rename_i combo s3 heq
      have hcombo : combo = [tb.1, tb.2] ∨
          ∃ l, (l ∈ layers_color ∨ l ∈ lys) ∧ combo = [tb.1, tb.2, l] := by
        revert heq
        split
        · split
          · split
            · intro heq
              exact Except.noConfusion heq
            · rename_i lyr s4 heq2
              intro heq
              have hl : lyr ∈ layers_color :=
                List.mem_of_mem_filter (randChoice_ok _ _ _ _ heq2)
              have hp := Except.ok.inj heq
              have h1 : [tb.1, tb.2, lyr] = combo := congrArg Prod.fst hp
              exact Or.inr ⟨lyr, Or.inl hl, h1.symm⟩
          · intro heq
            have hp := Except.ok.inj heq
            exact Or.inl (congrArg Prod.fst hp).symm
        · split
          · split
            · intro heq
              exact Except.noConfusion heq
            · rename_i lyr s4 heq2
              intro heq
              have hl : lyr ∈ lys :=
                List.mem_of_mem_filter (randChoice_ok _ _ _ _ heq2)
              have hp := Except.ok.inj heq
              have h1 : [tb.1, tb.2, lyr] = combo := congrArg Prod.fst hp
              exact Or.inr ⟨lyr, Or.inr hl, h1.symm⟩
          · intro heq
            have hp := Except.ok.inj heq
            exact Or.inl (congrArg Prod.fst hp).symm
      have hshape : (⟨"multi_piece", combo⟩ : Outfit) = ⟨"multi_piece", [tb.1, tb.2]⟩ ∨
          ∃ l, (l ∈ layers_color ∨ l ∈ lys) ∧
            (⟨"multi_piece", combo⟩ : Outfit) = ⟨"multi_piece", [tb.1, tb.2, l]⟩ := by
        rcases hcombo with rfl | ⟨l, hl, rfl⟩
        · exact Or.inl rfl
        · exact Or.inr ⟨l, hl, rfl⟩
      split at h
      · split at h
        · have hp := Except.ok.inj h
          have h1 : outfits ++ [(⟨"multi_piece", combo⟩ : Outfit)] = out :=
            congrArg Prod.fst hp
          rw [← h1] at ho
          rcases List.mem_append.mp ho with h2 | h3
          · exact Or.inl h2
          · have ho2 : o = (⟨"multi_piece", combo⟩ : Outfit) := by simpa using h3
            rw [ho2]
            exact Or.inr ⟨tb.1, tb.2, List.mem_cons_self _ _, hshape⟩
        · rcases ih _ _ _ _ _ h o ho with h1 | ⟨t2, b2, htb2, ho2⟩
          · rcases List.mem_append.mp h1 with h2 | h3
            · exact Or.inl h2
            · have ho2 : o = (⟨"multi_piece", combo⟩ : Outfit) := by simpa using h3
              rw [ho2]
              exact Or.inr ⟨tb.1, tb.2, List.mem_cons_self _ _, hshape⟩
          · exact Or.inr ⟨t2, b2, List.mem_cons_of_mem _ htb2, ho2⟩
      · split at h
        · have hp := Except.ok.inj h
          have h1 : outfits = out := congrArg Prod.fst hp
          rw [← h1] at ho
          exact Or.inl ho
        · rcases ih _ _ _ _ _ h o ho with h1 | ⟨t2, b2, htb2, ho2⟩
          · exact Or.inl h1
          · exact Or.inr ⟨t2, b2, List.mem_cons_of_mem _ htb2, ho2⟩

theorem defaultSwimLoop_mem :
    ∀ (swim : List Item) (outfits : List Outfit) (used : List String) (o : Outfit),
      o ∈ (defaultSwimLoop swim outfits used).1 →
      o ∈ outfits ∨ ∃ sw, sw ∈ swim ∧ o = ⟨"swimwear", [sw]⟩ := by
  intro swim
  induction swim with
  | nil => intro outfits used o h; exact Or.inl h
  | cons sw rest ih =>
    intro outfits used o h
    rw [defaultSwimLoop] at h
    revert h
    split
    · dsimp only
      split
      · intro h
        rcases List.mem_append.mp h with h1 | h2
        · exact Or.inl h1
        · exact Or.inr ⟨sw, List.mem_cons_self _ _, by simpa using h2⟩
      · intro h
        rcases ih _ _ _ h with h1 | ⟨sw2, hsw2, ho⟩
        · rcases List.mem_append.mp h1 with h2 | h3
          · exact Or.inl h2
          · exact Or.inr ⟨sw, List.mem_cons_self _ _, by simpa using h3⟩
        · exact Or.inr ⟨sw2, List.mem_cons_of_mem _ hsw2, ho⟩
    · intro h
      rcases ih _ _ _ h with h1 | ⟨sw2, hsw2, ho⟩
      · exact Or.inl h1
      · exact Or.inr ⟨sw2, List.mem_cons_of_mem _ hsw2, ho⟩


/-! ### `make_top_bottom_outfits` shape lemmas -/

theorem tbLoopAInner_ok (ctx : TBCtx) (layer_list : List Item) (n : Nat) (t : Item)
    (T B L : List Item) (hT : t ∈ T)
    (hL : ∀ l, (l ∈ ctx.layers_color ∨ l ∈ layer_list) → l ∈ L) :
    ∀ bs st st2 d, (∀ b ∈ bs, b ∈ B) →
      tbLoopAInner ctx layer_list n t bs st = .ok (st2, d) →
      ∀ o ∈ st2.combos, o ∈ st.combos ∨ TBShape T B L o := by
  intro bs
  induction bs with
  | nil =>
    intro st st2 d hB h o ho
    have hp := Except.ok.inj h
    have h1 : st = st2 := congrArg Prod.fst hp
    rw [← h1] at ho
    exact Or.inl ho
  | cons b rest ih =>
    intro st st2 d hB h o ho
    rw [tbLoopAInner] at h
    split at h
    · exact ih st st2 d (fun x hx => hB x (List.mem_cons_of_mem _ hx)) h o ho
    · split at h
      · exact ih st st2 d (fun x hx => hB x (List.mem_cons_of_mem _ hx)) h o ho
      · split at h
        · exact Except.noConfusion h
        · rename_i combo s3 heq
          have hcombo := maybeAddLayer_ok _ _ _ _ _ _ heq
          have hshape : TBShape T B L ⟨"multi_piece", combo⟩ := by
            rcases hcombo with rfl | ⟨l, hl, rfl⟩
            · exact ⟨t, hT, b, hB b (List.mem_cons_self _ _), Or.inl rfl⟩
            · exact ⟨t, hT, b, hB b (List.mem_cons_self _ _), Or.inr ⟨l, hL l hl, rfl⟩⟩
          dsimp only at h
          split at h
          · have hp := Except.ok.inj h
            have h1 : (⟨st.combos ++ [(⟨"multi_piece", combo⟩ : Outfit)], st.used_tops,
                st.used_bottoms ++ [b.name], st.used_pairs ++ [(t.name, b.name)], s3⟩ : TB)
                = st2 := congrArg Prod.fst hp
            rw [← h1] at ho
            dsimp only at ho
            rcases List.mem_append.mp ho with h2 | h3
            · exact Or.inl h2
            · have ho2 : o = (⟨"multi_piece", combo⟩ : Outfit) := by simpa using h3
              rw [ho2]
              exact Or.inr hshape
          · rcases ih _ st2 d (fun x hx => hB x (List.mem_cons_of_mem _ hx)) h o ho with
              h1 | h2
            · dsimp only at h1
              rcases List.mem_append.mp h1 with h2 | h3
              · exact Or.inl h2
              · have ho2 : o = (⟨"multi_piece", combo⟩ : Outfit) := by simpa using h3
                rw [ho2]
                exact Or.inr hshape
            · exact Or.inr h2

theorem tbLoopA_ok (ctx : TBCtx) (layer_list : List Item) (n : Nat)
    (T B L : List Item)
    (hL : ∀ l, (l ∈ ctx.layers_color ∨ l ∈ layer_list) → l ∈ L) :
    ∀ ts bl st st2 d, (∀ t ∈ ts, t ∈ T) → (∀ b ∈ bl, b ∈ B) →
      tbLoopA ctx layer_list n ts bl st = .ok (st2, d) →
      ∀ o ∈ st2.combos, o ∈ st.combos ∨ TBShape T B L o := by
  intro ts
  induction ts with
  | nil =>
    intro bl st st2 d _ _ h o ho
    have hp := Except.ok.inj h
    have h1 : st = st2 := congrArg Prod.fst hp
    rw [← h1] at ho
    exact Or.inl ho
  | cons t ts ih =>
    intro bl st st2 d hT hB h o ho
    rw [tbLoopA] at h
    split at h
    · exact Except.noConfusion h
    · rename_i stx heq
      have hp := Except.ok.inj h
      have h1 : (stx, true).1 = st2 := congrArg Prod.fst hp
      rw [← h1] at ho
      exact tbLoopAInner_ok ctx layer_list n t T B L (hT t (List.mem_cons_self _ _)) hL
        bl st stx true hB heq o ho
    · rename_i stx heq
      rcases ih bl stx st2 d (fun x hx => hT x (List.mem_cons_of_mem _ hx)) hB h o ho with
        h1 | h2
      · exact tbLoopAInner_ok ctx layer_list n t T B L (hT t (List.mem_cons_self _ _)) hL
          bl st stx false hB heq o h1
      · exact Or.inr h2

theorem tbLoopBInner_ok (ctx : TBCtx) (layer_list : List Item) (n : Nat) (b : Item)
    (T B L : List Item) (hB : b ∈ B)
    (hL : ∀ l, (l ∈ ctx.layers_color ∨ l ∈ layer_list) → l ∈ L) :
    ∀ ts st st2 d, (∀ t ∈ ts, t ∈ T) →
      tbLoopBInner ctx layer_list n b ts st = .ok (st2, d) →
      ∀ o ∈ st2.combos, o ∈ st.combos ∨ TBShape T B L o := by
  intro ts
  induction ts with
  | nil =>
    intro st st2 d _ h o ho
    have hp := Except.ok.inj h
    have h1 : st = st2 := congrArg Prod.fst hp
    rw [← h1] at ho
    exact Or.inl ho
  | cons t rest ih =>
    intro st st2 d hT h o ho
    rw [tbLoopBInner] at h
    split at h
    · exact ih st st2 d (fun x hx => hT x (List.mem_cons_of_mem _ hx)) h o ho
    · split at h
      · exact ih st st2 d (fun x hx => hT x (List.mem_cons_of_mem _ hx)) h o ho
      · split at h
        · exact Except.noConfusion h
        · rename_i combo s3 heq
          have hcombo := maybeAddLayer_ok _ _ _ _ _ _ heq
          have hshape : TBShape T B L ⟨"multi_piece", combo⟩ := by
            rcases hcombo with rfl | ⟨l, hl, rfl⟩
            · exact ⟨t, hT t (List.mem_cons_self _ _), b, hB, Or.inl rfl⟩
            · exact ⟨t, hT t (List.mem_cons_self _ _), b, hB, Or.inr ⟨l, hL l hl, rfl⟩⟩
          dsimp only at h
          split at h
          · have hp := Except.ok.inj h
            have h1 : (⟨st.combos ++ [(⟨"multi_piece", combo⟩ : Outfit)], st.used_tops,
                st.used_bottoms ++ [b.name], st.used_pairs ++ [(t.name, b.name)], s3⟩ : TB)
                = st2 := congrArg Prod.fst hp
            rw [← h1] at ho
            dsimp only at ho
            rcases List.mem_append.mp ho with h2 | h3
            · exact Or.inl h2
            · have ho2 : o = (⟨"multi_piece", combo⟩ : Outfit) := by simpa using h3
              rw [ho2]
              exact Or.inr hshape
          · rcases ih _ st2 d (fun x hx => hT x (List.mem_cons_of_mem _ hx)) h o ho with
              h1 | h2
            · dsimp only at h1
              rcases List.mem_append.mp h1 with h2 | h3
              · exact Or.inl h2
              · have ho2 : o = (⟨"multi_piece", combo⟩ : Outfit) := by simpa using h3
                rw [ho2]
                exact Or.inr hshape
            · exact Or.inr h2

theorem tbLoopB_ok (ctx : TBCtx) (layer_list : List Item) (n : Nat)
    (T B L : List Item)
    (hL : ∀ l, (l ∈ ctx.layers_color ∨ l ∈ layer_list) → l ∈ L) :
    ∀ bs tl st st2 d, (∀ t ∈ tl, t ∈ T) → (∀ b ∈ bs, b ∈ B) →
      tbLoopB ctx layer_list n tl bs st = .ok (st2, d) →
      ∀ o ∈ st2.combos, o ∈ st.combos ∨ TBShape T B L o := by
  intro bs
  induction bs with
  | nil =>
    intro tl st st2 d _ _ h o ho
    have hp := Except.ok.inj h
    have h1 : st = st2 := congrArg Prod.fst hp
    rw [← h1] at ho
    exact Or.inl ho
  | cons b bs ih =>
    intro tl st st2 d hT hB h o ho
    rw [tbLoopB] at h
    split at h
    · exact ih tl st st2 d hT (fun x hx => hB x (List.mem_cons_of_mem _ hx)) h o ho
    · split at h
      · exact Except.noConfusion h
      · rename_i stx heq
        have hp := Except.ok.inj h
        have h1 : (stx, true).1 = st2 := congrArg Prod.fst hp
        rw [← h1] at ho
        exact tbLoopBInner_ok ctx layer_list n b T B L (hB b (List.mem_cons_self _ _)) hL
          tl st stx true hT heq o ho
      · rename_i stx heq
        rcases ih tl stx st2 d hT (fun x hx => hB x (List.mem_cons_of_mem _ hx)) h o ho with
          h1 | h2
        · exact tbLoopBInner_ok ctx layer_list n b T B L (hB b (List.mem_cons_self _ _)) hL
            tl st stx false hT heq o h1
        · exact Or.inr h2

theorem tbSingleLoop1_ok (ctx : TBCtx) (layer_list : List Item) (top : Item) (n : Nat)
    (T B L : List Item) (hT : top ∈ T)
    (hL : ∀ l, (l ∈ ctx.layers_color ∨ l ∈ layer_list) → l ∈ L) :
    ∀ bs bu st st2, (∀ b ∈ bs, b ∈ B) →
      tbSingleLoop1 ctx layer_list top n bs bu st = .ok st2 →
      ∀ o ∈ st2.combos, o ∈ st.combos ∨ TBShape T B L o := by
  intro bs
  induction bs with
  | nil =>
    intro bu st st2 _ h o ho
    have h1 := Except.ok.inj h
    rw [← h1] at ho
    exact Or.inl ho
  | cons b rest ih =>
    intro bu st st2 hB h o ho
    rw [tbSingleLoop1] at h
    split at h
    · exact ih bu st st2 (fun x hx => hB x (List.mem_cons_of_mem _ hx)) h o ho
    · split at h
      · exact ih bu st st2 (fun x hx => hB x (List.mem_cons_of_mem _ hx)) h o ho
      · split at h
        · exact Except.noConfusion h
        · rename_i combo s3 heq
          have hcombo := maybeAddLayer_ok _ _ _ _ _ _ heq
          have hshape : TBShape T B L ⟨"multi_piece", combo⟩ := by
            rcases hcombo with rfl | ⟨l, hl, rfl⟩
            · exact ⟨top, hT, b, hB b (List.mem_cons_self _ _), Or.inl rfl⟩
            · exact ⟨top, hT, b, hB b (List.mem_cons_self _ _), Or.inr ⟨l, hL l hl, rfl⟩⟩
          dsimp only at h
          split at h
          · have h1 := Except.ok.inj h
            rw [← h1] at ho
            dsimp only at ho
            rcases List.mem_append.mp ho with h2 | h3
            · exact Or.inl h2
            · have ho2 : o = (⟨"multi_piece", combo⟩ : Outfit) := by simpa using h3
              rw [ho2]
              exact Or.inr hshape
          · rcases ih _ _ st2 (fun x hx => hB x (List.mem_cons_of_mem _ hx)) h o ho with
              h1 | h2
            · dsimp only at h1
              rcases List.mem_append.mp h1 with h2 | h3
              · exact Or.inl h2
              · have ho2 : o = (⟨"multi_piece", combo⟩ : Outfit) := by simpa using h3
                rw [ho2]
                exact Or.inr hshape
            · exact Or.inr h2

theorem tbSingleLoop2Inner_ok (ctx : TBCtx) (layer_list : List Item) (top t : Item)
    (T B L : List Item) (hT : t ∈ T)
    (hL : ∀ l, (l ∈ ctx.layers_color ∨ l ∈ layer_list) → l ∈ L) :
    ∀ bs st st2, (∀ b ∈ bs, b ∈ B) →
      tbSingleLoop2Inner ctx layer_list top t bs st = .ok (some st2) →
      ∀ o ∈ st2.combos, o ∈ st.combos ∨ TBShape T B L o := by
  intro bs
  induction bs with
  | nil =>
    intro st st2 _ h
    exact absurd (Except.ok.inj h) (by simp)
  | cons b rest ih =>
    intro st st2 hB h o ho
    rw [tbSingleLoop2Inner] at h
    split at h
    · exact ih st st2 (fun x hx => hB x (List.mem_cons_of_mem _ hx)) h o ho
    · split at h
      · exact ih st st2 (fun x hx => hB x (List.mem_cons_of_mem _ hx)) h o ho
      · split at h
        · exact Except.noConfusion h
        · rename_i combo s3 heq
          have hcombo := maybeAddLayer_ok _ _ _ _ _ _ heq
          have hshape : TBShape T B L ⟨"multi_piece", combo⟩ := by
            rcases hcombo with rfl | ⟨l, hl, rfl⟩
            · exact ⟨t, hT, b, hB b (List.mem_cons_self _ _), Or.inl rfl⟩
            · exact ⟨t, hT, b, hB b (List.mem_cons_self _ _), Or.inr ⟨l, hL l hl, rfl⟩⟩
          have h1 := Option.some.inj (Except.ok.inj h)
          rw [← h1] at ho
          dsimp only at ho
          rcases List.mem_append.mp ho with h2 | h3
          · exact Or.inl h2
          · have ho2 : o = (⟨"multi_piece", combo⟩ : Outfit) := by simpa using h3
            rw [ho2]
            exact Or.inr hshape

theorem tbSingleLoop2_ok (ctx : TBCtx) (layer_list : List Item) (top : Item)
    (T B L : List Item)
    (hL : ∀ l, (l ∈ ctx.layers_color ∨ l ∈ layer_list) → l ∈ L) :
    ∀ ts bl st st2, (∀ t ∈ ts, t ∈ T) → (∀ b ∈ bl, b ∈ B) →
      tbSingleLoop2 ctx layer_list top ts bl st = .ok st2 →
      ∀ o ∈ st2.combos, o ∈ st.combos ∨ TBShape T B L o := by
  intro ts
  induction ts with
  | nil =>
    intro bl st st2 _ _ h o ho
    have h1 := Except.ok.inj h
    rw [← h1] at ho
    exact Or.inl ho
  | cons t ts ih =>
    intro bl st st2 hT hB h o ho
    rw [tbSingleLoop2] at h
    split at h
    · exact Except.noConfusion h
    · rename_i stx heq
      have h1 := Except.ok.inj h
      rw [← h1] at ho
      exact tbSingleLoop2Inner_ok ctx layer_list top t T B L (hT t (List.mem_cons_self _ _))
        hL bl st stx hB heq o ho
    · exact ih bl st st2 (fun x hx => hT x (List.mem_cons_of_mem _ hx)) hB h o ho

theorem tbSingleTop_ok (ctx : TBCtx) (layer_list top_list bottom_list : List Item)
    (n : Nat) (st : TB) (combos : List Outfit) (s2 : Nat)
    (T B L : List Item) (hne : ctx.tops_color ≠ [])
    (hTC : ∀ t ∈ ctx.tops_color, t ∈ T) (hTL : ∀ t ∈ top_list, t ∈ T)
    (hBC : ∀ b ∈ ctx.bottoms_color, b ∈ B) (hBL : ∀ b ∈ bottom_list, b ∈ B)
    (hL : ∀ l, (l ∈ ctx.layers_color ∨ l ∈ layer_list) → l ∈ L)
    (hbase : ∀ o ∈ st.combos, TBShape T B L o)
    (h : tbSingleTop ctx layer_list top_list bottom_list n st = .ok (combos, s2)) :
    ∀ o ∈ combos, TBShape T B L o := by
  unfold tbSingleTop at h
  dsimp only at h
  split at h
  · exact Except.noConfusion h
  · rename_i st3 heq1
    split at h
    · exact Except.noConfusion h
    · rename_i st4 heq2
      have hp := Except.ok.inj h
      have h1 : st4.combos.take n = combos := congrArg Prod.fst hp
      intro o ho
      rw [← h1] at ho
      have ho2 := List.take_subset _ _ ho
      have htop : ctx.tops_color.headD dummyItem ∈ T := hTC _ (headD_mem _ _ hne)
      have hBapp : ∀ b ∈ ctx.bottoms_color ++ bottom_list, b ∈ B := by
        intro b hb
        rcases List.mem_append.mp hb with h2 | h2
        · exact hBC b h2
        · exact hBL b h2
      rcases tbSingleLoop2_ok ctx layer_list _ T B L hL top_list bottom_list st3 st4
          hTL hBL heq2 o ho2 with h2 | h2
      · rcases tbSingleLoop1_ok ctx layer_list _ n T B L htop hL
            (ctx.bottoms_color ++ bottom_list) [] st st3 hBapp heq1 o h2 with h3 | h3
        · exact hbase o h3
        · exact h3
      · exact h2

theorem tbLoopCInner_ok (ctx : TBCtx) (layer_list : List Item) (n : Nat) (t : Item)
    (T B L : List Item) (hT : t ∈ T)
    (hL : ∀ l, (l ∈ ctx.layers_color ∨ l ∈ layer_list) → l ∈ L) :
    ∀ bs st st2 d, (∀ b ∈ bs, b ∈ B) →
      tbLoopCInner ctx layer_list n t bs st = .ok (st2, d) →
      ∀ o ∈ st2.combos, o ∈ st.combos ∨ TBShape T B L o := by
  intro bs
  induction bs with
  | nil =>
    intro st st2 d _ h o ho
    have hp := Except.ok.inj h
    have h1 : st = st2 := congrArg Prod.fst hp
    rw [← h1] at ho
    exact Or.inl ho
  | cons b rest ih =>
    intro st st2 d hB h o ho
    rw [tbLoopCInner] at h
    split at h
    · exact ih st st2 d (fun x hx => hB x (List.mem_cons_of_mem _ hx)) h o ho
    · split at h
      · exact Except.noConfusion h
      · rename_i combo s3 heq
        have hcombo := maybeAddLayer_ok _ _ _ _ _ _ heq
        have hshape : TBShape T B L ⟨"multi_piece", combo⟩ := by
          rcases hcombo with rfl | ⟨l, hl, rfl⟩
          · exact ⟨t, hT, b, hB b (List.mem_cons_self _ _), Or.inl rfl⟩
          · exact ⟨t, hT, b, hB b (List.mem_cons_self _ _), Or.inr ⟨l, hL l hl, rfl⟩⟩
        dsimp only at h
        split at h
        · have hp := Except.ok.inj h
          have h1 : (⟨st.combos ++ [(⟨"multi_piece", combo⟩ : Outfit)],
              st.used_tops ++ [t.name], st.used_bottoms ++ [b.name],
              st.used_pairs ++ [(t.name, b.name)], s3⟩ : TB) = st2 := congrArg Prod.fst hp
          rw [← h1] at ho
          dsimp only at ho
          rcases List.mem_append.mp ho with h2 | h3
          · exact Or.inl h2
          · have ho2 : o = (⟨"multi_piece", combo⟩ : Outfit) := by simpa using h3
            rw [ho2]
            exact Or.inr hshape
        · rcases ih _ st2 d (fun x hx => hB x (List.mem_cons_of_mem _ hx)) h o ho with
            h1 | h2
          · dsimp only at h1
            rcases List.mem_append.mp h1 with h2 | h3
            · exact Or.inl h2
            · have ho2 : o = (⟨"multi_piece", combo⟩ : Outfit) := by simpa using h3
              rw [ho2]
              exact Or.inr hshape
          · exact Or.inr h2

theorem tbLoopC_ok (ctx : TBCtx) (layer_list : List Item) (n : Nat)
    (T B L : List Item)
    (hL : ∀ l, (l ∈ ctx.layers_color ∨ l ∈ layer_list) → l ∈ L) :
    ∀ ts bl st st2 d, (∀ t ∈ ts, t ∈ T) → (∀ b ∈ bl, b ∈ B) →
      tbLoopC ctx layer_list n ts bl st = .ok (st2, d) →
      ∀ o ∈ st2.combos, o ∈ st.combos ∨ TBShape T B L o := by
  intro ts
  induction ts with
  | nil =>
    intro bl st st2 d _ _ h o ho
    have hp := Except.ok.inj h
    have h1 : st = st2 := congrArg Prod.fst hp
    rw [← h1] at ho
    exact Or.inl ho
  | cons t ts ih =>
    intro bl st st2 d hT hB h o ho
    rw [tbLoopC] at h
    split at h
    · exact Except.noConfusion h
    · rename_i stx heq
      have hp := Except.ok.inj h
      have h1 : (stx, true).1 = st2 := congrArg Prod.fst hp
      rw [← h1] at ho
      exact tbLoopCInner_ok ctx layer_list n t T B L (hT t (List.mem_cons_self _ _)) hL
        bl st stx true hB heq o ho
    · rename_i stx heq
      rcases ih bl stx st2 d (fun x hx => hT x (List.mem_cons_of_mem _ hx)) hB h o ho with
        h1 | h2
      · exact tbLoopCInner_ok ctx layer_list n t T B L (hT t (List.mem_cons_self _ _)) hL
          bl st stx false hB heq o h1
      · exact Or.inr h2

theorem tbLoopDInner_ok (ctx : TBCtx) (layer_list : List Item) (n : Nat) (t : Item)
    (T B L : List Item) (hT : t ∈ T)
    (hL : ∀ l, (l ∈ ctx.layers_color ∨ l ∈ layer_list) → l ∈ L) :
    ∀ bs st st2 d, (∀ b ∈ bs, b ∈ B) →
      tbLoopDInner ctx layer_list n t bs st = .ok (st2, d) →
      ∀ o ∈ st2.combos, o ∈ st.combos ∨ TBShape T B L o := by
  intro bs
  induction bs with
  | nil =>
    intro st st2 d _ h o ho
    have hp := Except.ok.inj h
    have h1 : st = st2 := congrArg Prod.fst hp
    rw [← h1] at ho
    exact Or.inl ho
  | cons b rest ih =>
    intro st st2 d hB h o ho
    rw [tbLoopDInner] at h
    split at h
    · exact ih st st2 d (fun x hx => hB x (List.mem_cons_of_mem _ hx)) h o ho
    · split at h
      · exact Except.noConfusion h
      · rename_i combo s3 heq
        have hcombo := maybeAddLayer_ok _ _ _ _ _ _ heq
        have hshape : TBShape T B L ⟨"multi_piece", combo⟩ := by
          rcases hcombo with rfl | ⟨l, hl, rfl⟩
          · exact ⟨t, hT, b, hB b (List.mem_cons_self _ _), Or.inl rfl⟩
          · exact ⟨t, hT, b, hB b (List.mem_cons_self _ _), Or.inr ⟨l, hL l hl, rfl⟩⟩
        dsimp only at h
        split at h
        · have hp := Except.ok.inj h
          have h1 : (⟨st.combos ++ [(⟨"multi_piece", combo⟩ : Outfit)], st.used_tops,
              st.used_bottoms, st.used_pairs, s3⟩ : TB) = st2 := congrArg Prod.fst hp
          rw [← h1] at ho
          dsimp only at ho
          rcases List.mem_append.mp ho with h2 | h3
          · exact Or.inl h2
          · have ho2 : o = (⟨"multi_piece", combo⟩ : Outfit) := by simpa using h3
            rw [ho2]
            exact Or.inr hshape
        · rcases ih _ st2 d (fun x hx => hB x (List.mem_cons_of_mem _ hx)) h o ho with
            h1 | h2
          · dsimp only at h1
            rcases List.mem_append.mp h1 with h2 | h3
            · exact Or.inl h2
            · have ho2 : o = (⟨"multi_piece", combo⟩ : Outfit) := by simpa using h3
              rw [ho2]
              exact Or.inr hshape
          · exact Or.inr h2

theorem tbLoopD_ok (ctx : TBCtx) (layer_list : List Item) (n : Nat)
    (T B L : List Item)
    (hL : ∀ l, (l ∈ ctx.layers_color ∨ l ∈ layer_list) → l ∈ L) :
    ∀ ts bl st st2 d, (∀ t ∈ ts, t ∈ T) → (∀ b ∈ bl, b ∈ B) →
      tbLoopD ctx layer_list n ts bl st = .ok (st2, d) →
      ∀ o ∈ st2.combos, o ∈ st.combos ∨ TBShape T B L o := by
  intro ts
  induction ts with
  | nil =>
    intro bl st st2 d _ _ h o ho
    have hp := Except.ok.inj h
    have h1 : st = st2 := congrArg Prod.fst hp
    rw [← h1] at ho
    exact Or.inl ho
  | cons t ts ih =>
    intro bl st st2 d hT hB h o ho
    rw [tbLoopD] at h
    split at h
    · exact Except.noConfusion h
    · rename_i stx heq
      have hp := Except.ok.inj h
      have h1 : (stx, true).1 = st2 := congrArg Prod.fst hp
      rw [← h1] at ho
      exact tbLoopDInner_ok ctx layer_list n t T B L (hT t (List.mem_cons_self _ _)) hL
        bl st stx true hB heq o ho
    · rename_i stx heq
      rcases ih bl stx st2 d (fun x hx => hT x (List.mem_cons_of_mem _ hx)) hB h o ho with
        h1 | h2
      · exact tbLoopDInner_ok ctx layer_list n t T B L (hT t (List.mem_cons_self _ _)) hL
          bl st stx false hB heq o h1
      · exact Or.inr h2

theorem tbLoopCD_ok (ctx : TBCtx) (layer_list top_list bottom_list : List Item)
    (n : Nat) (st1 : TB) (combos : List Outfit) (s2 : Nat)
    (T B L : List Item)
    (hTL : ∀ t ∈ top_list, t ∈ T) (hBL : ∀ b ∈ bottom_list, b ∈ B)
    (hL : ∀ l, (l ∈ ctx.layers_color ∨ l ∈ layer_list) → l ∈ L)
    (hbase : ∀ o ∈ st1.combos, TBShape T B L o)
    (h : tbLoopCD ctx layer_list top_list bottom_list n st1 = .ok (combos, s2)) :
    ∀ o ∈ combos, TBShape T B L o := by
  unfold tbLoopCD at h
  dsimp only at h
  split at h
  · exact Except.noConfusion h
  · rename_i stx heq
    have hp := Except.ok.inj h
    have h1 : stx.combos = combos := congrArg Prod.fst hp
    intro o ho
    rw [← h1] at ho
    rcases tbLoopC_ok ctx layer_list n T B L hL top_list bottom_list _ stx true
        hTL hBL heq o ho with h2 | h2
    · exact hbase o h2
    · exact h2
  · rename_i stc heq1
    split at h
    · exact Except.noConfusion h
    · rename_i stx hd heq2
      have hp := Except.ok.inj h
      have h1 : stx.combos = combos := congrArg Prod.fst hp
      intro o ho
      rw [← h1] at ho
      rcases tbLoopD_ok ctx layer_list n T B L hL top_list bottom_list stc stx hd
          hTL hBL heq2 o ho with h2 | h2
      · rcases tbLoopC_ok ctx layer_list n T B L hL top_list bottom_list _ stc false
            hTL hBL heq1 o h2 with h3 | h3
        · exact hbase o h3
        · exact h3
      · exact h2

theorem tbLoopEInner_ok (ctx : TBCtx) (layer_list : List Item) (n : Nat) (t : Item)
    (T B L : List Item) (hT : t ∈ T)
    (hL : ∀ l, (l ∈ ctx.layers_color ∨ l ∈ layer_list) → l ∈ L) :
    ∀ bs st st2 d, (∀ b ∈ bs, b ∈ B) →
      tbLoopEInner ctx layer_list n t bs st = .ok (st2, d) →
      ∀ o ∈ st2.combos, o ∈ st.combos ∨ TBShape T B L o := by
  intro bs
  induction bs with
  | nil =>
    intro st st2 d _ h o ho
    have hp := Except.ok.inj h
    have h1 : st = st2 := congrArg Prod.fst hp
    rw [← h1] at ho
    exact Or.inl ho
  | cons b rest ih =>
    intro st st2 d hB h o ho
    rw [tbLoopEInner] at h
    split at h
    · exact ih st st2 d (fun x hx => hB x (List.mem_cons_of_mem _ hx)) h o ho
    · split at h
      · exact ih st st2 d (fun x hx => hB x (List.mem_cons_of_mem _ hx)) h o ho
      · split at h
        · exact Except.noConfusion h
        · rename_i combo s3 heq
          have hcombo := maybeAddLayer_ok _ _ _ _ _ _ heq
          have hshape : TBShape T B L ⟨"multi_piece", combo⟩ := by
            rcases hcombo with rfl | ⟨l, hl, rfl⟩
            · exact ⟨t, hT, b, hB b (List.mem_cons_self _ _), Or.inl rfl⟩
            · exact ⟨t, hT, b, hB b (List.mem_cons_self _ _), Or.inr ⟨l, hL l hl, rfl⟩⟩
          dsimp only at h
          split at h
          · have hp := Except.ok.inj h
            have h1 : (⟨st.combos ++ [(⟨"multi_piece", combo⟩ : Outfit)], st.used_tops,
                st.used_bottoms ++ [b.name], st.used_pairs ++ [(t.name, b.name)], s3⟩ : TB)
                = st2 := congrArg Prod.fst hp
            rw [← h1] at ho
            dsimp only at ho
            rcases List.mem_append.mp ho with h2 | h3
            · exact Or.inl h2
            · have ho2 : o = (⟨"multi_piece", combo⟩ : Outfit) := by simpa using h3
              rw [ho2]
              exact Or.inr hshape
          · rcases ih _ st2 d (fun x hx => hB x (List.mem_cons_of_mem _ hx)) h o ho with
              h1 | h2
            · dsimp only at h1
              rcases List.mem_append.mp h1 with h2 | h3
              · exact Or.inl h2
              · have ho2 : o = (⟨"multi_piece", combo⟩ : Outfit) := by simpa using h3
                rw [ho2]
                exact Or.inr hshape
            · exact Or.inr h2

theorem tbLoopE_ok (ctx : TBCtx) (layer_list : List Item) (n : Nat)
    (T B L : List Item)
    (hL : ∀ l, (l ∈ ctx.layers_color ∨ l ∈ layer_list) → l ∈ L) :
    ∀ ts bl st st2 d, (∀ t ∈ ts, t ∈ T) → (∀ b ∈ bl, b ∈ B) →
      tbLoopE ctx layer_list n ts bl st = .ok (st2, d) →
      ∀ o ∈ st2.combos, o ∈ st.combos ∨ TBShape T B L o := by
  intro ts
  induction ts with
  | nil =>
    intro bl st st2 d _ _ h o ho
    have hp := Except.ok.inj h
    have h1 : st = st2 := congrArg Prod.fst hp
    rw [← h1] at ho
    exact Or.inl ho
  | cons t ts ih =>
    intro bl st st2 d hT hB h o ho
    rw [tbLoopE] at h
    split at h
    · exact Except.noConfusion h
    · rename_i stx heq
      have hp := Except.ok.inj h
      have h1 : (stx, true).1 = st2 := congrArg Prod.fst hp
      rw [← h1] at ho
      exact tbLoopEInner_ok ctx layer_list n t T B L (hT t (List.mem_cons_self _ _)) hL
        bl st stx true hB heq o ho
    · rename_i stx heq
      rcases ih bl stx st2 d (fun x hx => hT x (List.mem_cons_of_mem _ hx)) hB h o ho with
        h1 | h2
      · exact tbLoopEInner_ok ctx layer_list n t T B L (hT t (List.mem_cons_self _ _)) hL
          bl st stx false hB heq o h1
      · exact Or.inr h2

theorem makeTopBottomOutfits_ok (ctx : TBCtx) (top_list bottom_list layer_list : List Item)
    (n : Nat) (pc : Bool) (s : Nat) (combos : List Outfit) (s2 : Nat)
    (h : makeTopBottomOutfits ctx top_list bottom_list layer_list n pc s = .ok (combos, s2)) :
    ∀ o ∈ combos, TBShape (ctx.tops_color ++ top_list) (ctx.bottoms_color ++ bottom_list)
      (ctx.layers_color ++ layer_list) o := by
  have hL : ∀ l, (l ∈ ctx.layers_color ∨ l ∈ layer_list) →
      l ∈ ctx.layers_color ++ layer_list := by
    intro l hl
    rcases hl with hl | hl
    · exact List.mem_append.mpr (Or.inl hl)
    · exact List.mem_append.mpr (Or.inr hl)
  have hTC : ∀ t ∈ ctx.tops_color, t ∈ ctx.tops_color ++ top_list :=
    fun t ht => List.mem_append.mpr (Or.inl ht)
  have hTL : ∀ t ∈ top_list, t ∈ ctx.tops_color ++ top_list :=
    fun t ht => List.mem_append.mpr (Or.inr ht)
  have hBC : ∀ b ∈ ctx.bottoms_color, b ∈ ctx.bottoms_color ++ bottom_list :=
    fun b hb => List.mem_append.mpr (Or.inl hb)
  have hBL : ∀ b ∈ bottom_list, b ∈ ctx.bottoms_color ++ bottom_list :=
    fun b hb => List.mem_append.mpr (Or.inr hb)
  unfold makeTopBottomOutfits at h
  dsimp only at h
  split at h
  · exact Except.noConfusion h
  · rename_i st1 heqAB
    have hst1 : ∀ o ∈ st1.combos, TBShape (ctx.tops_color ++ top_list)
        (ctx.bottoms_color ++ bottom_list) (ctx.layers_color ++ layer_list) o := by
      revert heqAB
      split
      · split
        · intro heqAB
          exact Except.noConfusion heqAB
        · rename_i stA heqA
          intro heqAB
          have hp := Except.ok.inj heqAB
          have h1 : stA = st1 := congrArg Prod.fst hp
          intro o ho
          rw [← h1] at ho
          rcases tbLoopA_ok ctx layer_list n _ _ _ hL ctx.tops_color bottom_list
              ⟨[], [], [], [], s⟩ stA true hTC hBL heqA o ho with h2 | h2
          · exact absurd h2 (by simp)
          · exact h2
        · rename_i stA heqA
          intro heqAB
          intro o ho
          rcases tbLoopB_ok ctx layer_list n _ _ _ hL ctx.bottoms_color top_list
              stA st1 true hTL hBC heqAB o ho with h2 | h2
          · rcases tbLoopA_ok ctx layer_list n _ _ _ hL ctx.tops_color bottom_list
                ⟨[], [], [], [], s⟩ stA false hTC hBL heqA o h2 with h3 | h3
            · exact absurd h3 (by simp)
            · exact h3
          · exact h2
      · intro heqAB
        have hp := Except.ok.inj heqAB
        have h1 : (⟨[], [], [], [], s⟩ : TB) = st1 := congrArg Prod.fst hp
        intro o ho
        rw [← h1] at ho
        exact absurd ho (by simp)
    have hp := Except.ok.inj h
    have h1 : st1.combos = combos := congrArg Prod.fst hp
    intro o ho
    rw [← h1] at ho
    exact hst1 o ho
  · rename_i st1 heqAB
    have hst1 : ∀ o ∈ st1.combos, TBShape (ctx.tops_color ++ top_list)
        (ctx.bottoms_color ++ bottom_list) (ctx.layers_color ++ layer_list) o := by
      revert heqAB
      split
      · split
        · intro heqAB
          exact Except.noConfusion heqAB
        · rename_i stA heqA
          intro heqAB
          have hp := Except.ok.inj heqAB
          have h1 : stA = st1 := congrArg Prod.fst hp
          intro o ho
          rw [← h1] at ho
          rcases tbLoopA_ok ctx layer_list n _ _ _ hL ctx.tops_color bottom_list
              ⟨[], [], [], [], s⟩ stA true hTC hBL heqA o ho with h2 | h2
          · exact absurd h2 (by simp)
          · exact h2
        · rename_i stA heqA
          intro heqAB
          intro o ho
          rcases tbLoopB_ok ctx layer_list n _ _ _ hL ctx.bottoms_color top_list
              stA st1 false hTL hBC heqAB o ho with h2 | h2
          · rcases tbLoopA_ok ctx layer_list n _ _ _ hL ctx.tops_color bottom_list
                ⟨[], [], [], [], s⟩ stA false hTC hBL heqA o h2 with h3 | h3
            · exact absurd h3 (by simp)
            · exact h3
          · exact h2
      · intro heqAB
        have hp := Except.ok.inj heqAB
        have h1 : (⟨[], [], [], [], s⟩ : TB) = st1 := congrArg Prod.fst hp
        intro o ho
        rw [← h1] at ho
        exact absurd ho (by simp)
    split at h
    · rename_i hsingle
      obtain ⟨hcol, hlen1⟩ := Bool.and_eq_true .. |>.mp hsingle
      have hne : ctx.tops_color ≠ [] := by
        intro hcon
        rw [hcon] at hlen1
        simp at hlen1
      exact tbSingleTop_ok ctx layer_list top_list bottom_list n st1 combos s2
        _ _ _ hne hTC hTL hBC hBL hL hst1 h
    · split at h
      · exact tbLoopCD_ok ctx layer_list top_list bottom_list n st1 combos s2
          _ _ _ hTL hBL hL hst1 h
      · split at h
        · exact Except.noConfusion h
        · rename_i stE hdE heqE
          have hp := Except.ok.inj h
          have h1 : stE.combos = combos := congrArg Prod.fst hp
          intro o ho
          rw [← h1] at ho
          rcases tbLoopE_ok ctx layer_list n _ _ _ hL top_list bottom_list st1 stE _
              hTL hBL heqE o ho with h2 | h2
          · exact hst1 o h2
          · exact h2

/-! ### Fallback tier shape lemmas -/

theorem colorMatchedList_sub (dist : Dist) (colors avoid : List String) (l : List Item) :
    ∀ i ∈ colorMatchedList dist colors avoid l, i ∈ l := by
  intro i hi
  unfold colorMatchedList at hi
  dsimp only at hi
  split at hi
  · split at hi
    · exact List.mem_of_mem_filter hi
    · exact absurd hi (by simp)
  · exact absurd hi (by simp)

theorem extraLoopInner_ok (ln : Bool) (lys : List Item) (preLen : Nat) (t : Item)
    (T B : List Item) (hT : t ∈ T) :
    ∀ bs extra up s out up2 s2, (∀ b ∈ bs, b ∈ B) →
      extraLoopInner ln lys preLen t bs extra up s = .ok (out, up2, s2) →
      ∀ o ∈ out, o ∈ extra ∨ TBShape T B lys o := by
  intro bs
  induction bs with
  | nil =>
    intro extra up s out up2 s2 _ h o ho
    have hp := Except.ok.inj h
    have h1 : extra = out := congrArg Prod.fst hp
    rw [← h1] at ho
    exact Or.inl ho
  | cons b rest ih =>
    intro extra up s out up2 s2 hB h o ho
    rw [extraLoopInner] at h
    split at h
    · dsimp only at h
      split at h
      · exact Except.noConfusion h
      · rename_i combo s3 heq
        have hcombo : combo = [t, b] ∨ ∃ l, l ∈ lys ∧ combo = [t, b, l] := by
          revert heq
          split
          · split
            · intro heq
              exact Except.noConfusion heq
            · rename_i lyr s4 heq2
              intro heq
              have hlmem : lyr ∈ lys := randChoice_ok _ _ _ _ heq2
              have hp := Except.ok.inj heq
              have h1 : [t, b, lyr] = combo := congrArg Prod.fst hp
              exact Or.inr ⟨lyr, hlmem, h1.symm⟩
          · intro heq
            have hp := Except.ok.inj heq
            exact Or.inl (congrArg Prod.fst hp).symm
        have hshape : TBShape T B lys ⟨"multi_piece", combo⟩ := by
          rcases hcombo with rfl | ⟨l, hl, rfl⟩
          · exact ⟨t, hT, b, hB b (List.mem_cons_self _ _), Or.inl rfl⟩
          · exact ⟨t, hT, b, hB b (List.mem_cons_self _ _), Or.inr ⟨l, hl, rfl⟩⟩
        split at h
        · have hp := Except.ok.inj h
          have h1 : extra ++ [(⟨"multi_piece", combo⟩ : Outfit)] = out :=
            congrArg Prod.fst hp
          rw [← h1] at ho
          rcases List.mem_append.mp ho with h2 | h3
          · exact Or.inl h2
          · have ho2 : o = (⟨"multi_piece", combo⟩ : Outfit) := by simpa using h3
            rw [ho2]
            exact Or.inr hshape
        · rcases ih _ _ _ out up2 s2 (fun x hx => hB x (List.mem_cons_of_mem _ hx)) h o ho
            with h1 | h2
          · rcases List.mem_append.mp h1 with h2 | h3
            · exact Or.inl h2
            · have ho2 : o = (⟨"multi_piece", combo⟩ : Outfit) := by simpa using h3
              rw [ho2]
              exact Or.inr hshape
          · exact Or.inr h2
    · exact ih _ _ _ out up2 s2 (fun x hx => hB x (List.mem_cons_of_mem _ hx)) h o ho

theorem extraLoopOuter_ok (ln : Bool) (lys : List Item) (preLen : Nat)
    (T B : List Item) :
    ∀ ts bl extra up s out s2, (∀ t ∈ ts, t ∈ T) → (∀ b ∈ bl, b ∈ B) →
      extraLoopOuter ln lys preLen ts bl extra up s = .ok (out, s2) →
      ∀ o ∈ out, o ∈ extra ∨ TBShape T B lys o := by
  intro ts
  induction ts with
  | nil =>
    intro bl extra up s out s2 _ _ h o ho
    have hp := Except.ok.inj h
    have h1 : extra = out := congrArg Prod.fst hp
    rw [← h1] at ho
    exact Or.inl ho
  | cons t ts ih =>
    intro bl extra up s out s2 hT hB h o ho
    rw [extraLoopOuter] at h
    split at h
    · exact Except.noConfusion h
    · rename_i extra2 up2 s3 heq
      split at h
      · have hp := Except.ok.inj h
        have h1 : extra2 = out := congrArg Prod.fst hp
        rw [← h1] at ho
        exact extraLoopInner_ok ln lys preLen t T B (hT t (List.mem_cons_self _ _))
          bl extra up s extra2 up2 s3 hB heq o ho
      · rcases ih bl extra2 up2 s3 out s2 (fun x hx => hT x (List.mem_cons_of_mem _ hx))
            hB h o ho with h1 | h2
        · exact extraLoopInner_ok ln lys preLen t T B (hT t (List.mem_cons_self _ _))
            bl extra up s extra2 up2 s3 hB heq o h1
        · exact Or.inr h2

theorem finalWhile_ok (ln : Bool) (tops bottoms lys : List Item) :
    ∀ k outfits s out s2,
      finalWhile ln tops bottoms lys k outfits s = .ok (out, s2) →
      ∀ o ∈ out, o ∈ outfits ∨ TBShape tops bottoms lys o := by
  intro k
  induction k with
  | zero =>
    intro outfits s out s2 h o ho
    have hp := Except.ok.inj h
    have h1 : outfits = out := congrArg Prod.fst hp
    rw [← h1] at ho
    exact Or.inl ho
  | succ k ih =>
    intro outfits s out s2 h o ho
    rw [finalWhile] at h
    split at h
    · exact Except.noConfusion h
    · rename_i t s3 heq1
      split at h
      · exact Except.noConfusion h
      · rename_i b s4 heq2
        have hT : t ∈ tops := randChoice_ok _ _ _ _ heq1
        have hB : b ∈ bottoms := randChoice_ok _ _ _ _ heq2
        dsimp only at h
        split at h
        · exact Except.noConfusion h
        · rename_i combo s5 heq3
          have hcombo : combo = [t, b] ∨ ∃ l, l ∈ lys ∧ combo = [t, b, l] := by
            revert heq3
            split
            · split
              · intro heq3
                exact Except.noConfusion heq3
              · rename_i lyr s6 heq4
                intro heq3
                have hlmem : lyr ∈ lys := randChoice_ok _ _ _ _ heq4
                have hp := Except.ok.inj heq3
                have h1 : [t, b, lyr] = combo := congrArg Prod.fst hp
                exact Or.inr ⟨lyr, hlmem, h1.symm⟩
            · intro heq3
              have hp := Except.ok.inj heq3
              exact Or.inl (congrArg Prod.fst hp).symm
          have hshape : TBShape tops bottoms lys ⟨"multi_piece", combo⟩ := by
            rcases hcombo with rfl | ⟨l, hl, rfl⟩
            · exact ⟨t, hT, b, hB, Or.inl rfl⟩
            · exact ⟨t, hT, b, hB, Or.inr ⟨l, hl, rfl⟩⟩
          rcases ih _ _ out s2 h o ho with h1 | h2
          · rcases List.mem_append.mp h1 with h2 | h3
            · exact Or.inl h2
            · have ho2 : o = (⟨"multi_piece", combo⟩ : Outfit) := by simpa using h3
              rw [ho2]
              exact Or.inr hshape
          · exact Or.inr h2

theorem postActiveLoop1_mem (dist : Dist) (colors avoid : List String) (T B : List Item) :
    ∀ ts bp outfits ut ub, (∀ t ∈ ts, t ∈ T) → (∀ b ∈ bp, b ∈ B) →
      ∀ o ∈ (postActiveLoop1 dist colors avoid ts bp outfits ut ub).1,
        o ∈ outfits ∨ ∃ t b, t ∈ T ∧ b ∈ B ∧ o = ⟨"multi_piece", [t, b]⟩ := by
  intro ts
  induction ts with
  | nil =>
    intro bp outfits ut ub _ _ o ho
    exact Or.inl ho
  | cons t ts ih =>
    intro bp outfits ut ub hT hB o ho
    rw [postActiveLoop1] at ho
    revert ho
    cases hfound : bp.find? (fun b =>
        (colorMatch dist t.tags colors avoid || colorMatch dist b.tags colors avoid) &&
        !(ut.contains t.name) && !(ub.contains b.name)) with
    | none =>
      dsimp only
      split
      · intro ho
        exact Or.inl ho
      · intro ho
        exact ih bp outfits ut ub (fun x hx => hT x (List.mem_cons_of_mem _ hx)) hB o ho
    | some b =>
      have hbmem : b ∈ bp := List.mem_of_find?_eq_some hfound
      dsimp only
      split
      · intro ho
        rcases List.mem_append.mp ho with h1 | h2
        · exact Or.inl h1
        · have ho2 : o = (⟨"multi_piece", [t, b]⟩ : Outfit) := by simpa using h2
          rw [ho2]
          exact Or.inr ⟨t, b, hT t (List.mem_cons_self _ _), hB b hbmem, rfl⟩
      · intro ho
        rcases ih bp _ _ _ (fun x hx => hT x (List.mem_cons_of_mem _ hx)) hB o ho with
          h1 | h2
        · rcases List.mem_append.mp h1 with h2 | h3
          · exact Or.inl h2
          · have ho2 : o = (⟨"multi_piece", [t, b]⟩ : Outfit) := by simpa using h3
            rw [ho2]
            exact Or.inr ⟨t, b, hT t (List.mem_cons_self _ _), hB b hbmem, rfl⟩
        · exact Or.inr h2

theorem postActiveLoop2Inner_mem (t : Item) (T B : List Item) (hT : t ∈ T) :
    ∀ bs outfits ut ub, (∀ b ∈ bs, b ∈ B) →
      ∀ o ∈ (postActiveLoop2Inner t bs outfits ut ub).1,
        o ∈ outfits ∨ ∃ t2 b, t2 ∈ T ∧ b ∈ B ∧ o = ⟨"multi_piece", [t2, b]⟩ := by
  intro bs
  induction bs with
  | nil =>
    intro outfits ut ub _ o ho
    exact Or.inl ho
  | cons b rest ih =>
    intro outfits ut ub hB o ho
    rw [postActiveLoop2Inner] at ho
    revert ho
    split
    · dsimp only
      split
      · intro ho
        rcases List.mem_append.mp ho with h1 | h2
        · exact Or.inl h1
        · have ho2 : o = (⟨"multi_piece", [t, b]⟩ : Outfit) := by simpa using h2
          rw [ho2]
          exact Or.inr ⟨t, b, hT, hB b (List.mem_cons_self _ _), rfl⟩
      · intro ho
        rcases ih _ _ _ (fun x hx => hB x (List.mem_cons_of_mem _ hx)) o ho with h1 | h2
        · rcases List.mem_append.mp h1 with h2 | h3
          · exact Or.inl h2
          · have ho2 : o = (⟨"multi_piece", [t, b]⟩ : Outfit) := by simpa using h3
            rw [ho2]
            exact Or.inr ⟨t, b, hT, hB b (List.mem_cons_self _ _), rfl⟩
        · exact Or.inr h2
    · intro ho
      exact ih _ _ _ (fun x hx => hB x (List.mem_cons_of_mem _ hx)) o ho

theorem postActiveLoop2_mem (T B : List Item) :
    ∀ ts bl outfits ut ub, (∀ t ∈ ts, t ∈ T) → (∀ b ∈ bl, b ∈ B) →
      ∀ o ∈ (postActiveLoop2 ts bl outfits ut ub).1,
        o ∈ outfits ∨ ∃ t b, t ∈ T ∧ b ∈ B ∧ o = ⟨"multi_piece", [t, b]⟩ := by
  intro ts
  induction ts with
  | nil =>
    intro bl outfits ut ub _ _ o ho
    exact Or.inl ho
  | cons t ts ih =>
    intro bl outfits ut ub hT hB o ho
    rw [postActiveLoop2] at ho
    revert ho
    split
    · intro ho
      exact postActiveLoop2Inner_mem t T B (hT t (List.mem_cons_self _ _)) bl outfits ut ub
        hB o ho
    · intro ho
      rcases ih bl _ _ _ (fun x hx => hT x (List.mem_cons_of_mem _ hx)) hB o ho with h1 | h2
      · exact postActiveLoop2Inner_mem t T B (hT t (List.mem_cons_self _ _)) bl outfits ut ub
          hB o h1
      · exact Or.inr h2

theorem postActive_good (dist : Dist) (colors avoid style_tags : List String)
    (tops bottoms : List Item) (outfits : List Outfit) :
    ∀ o ∈ postActive dist colors avoid style_tags tops bottoms outfits,
      o ∈ outfits ∨ o = noneOutfit ∨
      ∃ t b, t ∈ tops ∧ b ∈ bottoms ∧ o = ⟨"multi_piece", [t, b]⟩ := by
  intro o ho
  unfold postActive at ho
  dsimp only at ho
  rcases padNone_mem _ _ ho with hin | hnone
  · have hTsub : ∀ t ∈ (tops.filter (fun t => t.tags.any
        (fun tag => activeOccasions.contains tag || style_tags.contains tag))), t ∈ tops :=
      fun t ht => List.mem_of_mem_filter ht
    have hBsub : ∀ b ∈ (bottoms.filter (fun b => b.tags.any
        (fun tag => activeOccasions.contains tag || style_tags.contains tag))), b ∈ bottoms :=
      fun b hb => List.mem_of_mem_filter hb
    rcases postActiveLoop2_mem tops bottoms _ _ _ _ _ hTsub hBsub o hin with h1 | h2
    · have hTP : ∀ t ∈ ((tops.filter (fun t => t.tags.any
          (fun tag => activeOccasions.contains tag || style_tags.contains tag))).filter
            (fun t => colorMatch dist t.tags colors avoid) ++
          (tops.filter (fun t => t.tags.any
            (fun tag => activeOccasions.contains tag || style_tags.contains tag))).filter
            (fun t => !(((tops.filter (fun t => t.tags.any
              (fun tag => activeOccasions.contains tag || style_tags.contains tag))).filter
                (fun t => colorMatch dist t.tags colors avoid)).any
                  (fun i => i.name == t.name)))), t ∈ tops := by
        intro t ht
        rcases List.mem_append.mp ht with h2 | h2
        · exact List.mem_of_mem_filter (List.mem_of_mem_filter h2)
        · exact List.mem_of_mem_filter (List.mem_of_mem_filter h2)
      have hBP : ∀ b ∈ ((bottoms.filter (fun b => b.tags.any
          (fun tag => activeOccasions.contains tag || style_tags.contains tag))).filter
            (fun b => colorMatch dist b.tags colors avoid) ++
          (bottoms.filter (fun b => b.tags.any
            (fun tag => activeOccasions.contains tag || style_tags.contains tag))).filter
            (fun b => !(((bottoms.filter (fun b => b.tags.any
              (fun tag => activeOccasions.contains tag || style_tags.contains tag))).filter
                (fun b => colorMatch dist b.tags colors avoid)).any
                  (fun i => i.name == b.name)))), b ∈ bottoms := by
        intro b hb
        rcases List.mem_append.mp hb with h2 | h2
        · exact List.mem_of_mem_filter (List.mem_of_mem_filter h2)
        · exact List.mem_of_mem_filter (List.mem_of_mem_filter h2)
      rcases postActiveLoop1_mem dist colors avoid tops bottoms _ _ _ _ _ hTP hBP o h1 with
        h3 | h4
      · exact Or.inl h3
      · exact Or.inr (Or.inr h4)
    · exact Or.inr (Or.inr h2)
  · exact Or.inr (Or.inl hnone)

theorem dpStep3_ok (ctx : TBCtx) (tl bl ll : List Item) (base : List Outfit) (s3 : Nat)
    (out : List Outfit) (s5 : Nat) (h : dpStep3 ctx tl bl ll base s3 = .ok (out, s5)) :
    ∀ o ∈ out, o ∈ base ∨ TBShape (ctx.tops_color ++ tl) (ctx.bottoms_color ++ bl)
      (ctx.layers_color ++ ll) o := by
  unfold dpStep3 at h
  dsimp only at h
  split at h
  · split at h
    · exact Except.noConfusion h
    · rename_i combos2 s4 heqM
      have hp := Except.ok.inj h
      injection hp with h1 h2
      intro o ho
      rw [← h1] at ho
      rcases List.mem_append.mp ho with h2b | h2b
      · exact Or.inl h2b
      · exact Or.inr (makeTopBottomOutfits_ok _ _ _ _ _ _ _ _ _ heqM o h2b)
  · have hp := Except.ok.inj h
    injection hp with h1 h2
    intro o ho
    rw [← h1] at ho
    exact Or.inl ho

theorem dpStep4_ok (ln : Bool) (tl bl ll : List Item) (base : List Outfit) (s5 : Nat)
    (out : List Outfit) (s6 : Nat) (h : dpStep4 ln tl bl ll base s5 = .ok (out, s6)) :
    ∀ o ∈ out, o ∈ base ∨ TBShape tl bl ll o := by
  unfold dpStep4 at h
  split at h
  · split at h
    · exact Except.noConfusion h
    · rename_i extra s7 heqE
      have hp := Except.ok.inj h
      injection hp with h1 h2
      intro o ho
      rw [← h1] at ho
      rcases List.mem_append.mp ho with h2b | h2b
      · exact Or.inl h2b
      · have h3 := List.take_subset _ _ h2b
        rcases extraLoopOuter_ok ln ll _ tl bl tl bl [] [] _ _ _
            (fun t ht => ht) (fun b hb => hb) heqE o h3 with h4 | h4
        · exact absurd h4 (by simp)
        · exact Or.inr h4
  · have hp := Except.ok.inj h
    injection hp with h1 h2
    intro o ho
    rw [← h1] at ho
    exact Or.inl ho

theorem defaultPath_good (pool : List Item) (dist : Dist) (username : String)
    (occasions style_tags colors avoid : List String) (context : Ctx)
    (gender : String) (ln : Bool)
    (its one_pieces tops bottoms lys filtered : List Item) (s : Nat) (r : RecResult)
    (hits : ∀ i ∈ its, i ∈ pool)
    (hop : ∀ p ∈ one_pieces, p ∈ pool ∧ p.category ≠ "layer")
    (htops : ∀ t ∈ tops, t ∈ pool ∧ t.category = "topwear")
    (hbots : ∀ b ∈ bottoms, b ∈ pool ∧ b.category = "bottomwear")
    (hlys : ∀ l ∈ lys, l ∈ pool ∧ l.category = "layer")
    (hfil : ∀ i ∈ filtered, i ∈ pool)
    (h : defaultPath dist username occasions style_tags colors avoid context gender ln
         its one_pieces tops bottoms lys filtered s = .ok r) :
    ∀ o ∈ r.outfits, GoodOutfit pool o := by
  have hTBgood : ∀ o2, TBShape tops bottoms lys o2 → GoodOutfit pool o2 := by
    intro o2 ho2
    obtain ⟨t, ht, b, hb, hshape⟩ := ho2
    have ht3 := htops _ ht
    have hb3 := hbots _ hb
    rcases hshape with rfl | ⟨l, hl, rfl⟩
    · exact Or.inr (Or.inr (Or.inl ⟨by simp, t, b, ht3.1, hb3.1, ht3.2, hb3.2, rfl⟩))
    · have hl3 := hlys _ hl
      exact Or.inr (Or.inr (Or.inr (Or.inl
        ⟨by simp, t, b, l, ht3.1, hb3.1, hl3.1, ht3.2, hb3.2, hl3.2, rfl⟩)))
  have hTBgood2 : ∀ o2, TBShape (colorMatchedList dist colors avoid tops ++ tops)
      (colorMatchedList dist colors avoid bottoms ++ bottoms)
      (colorMatchedList dist colors avoid lys ++ lys) o2 → GoodOutfit pool o2 := by
    intro o2 ho2
    obtain ⟨t, ht, b, hb, hshape⟩ := ho2
    have ht2 : t ∈ tops := by
      rcases List.mem_append.mp ht with h2 | h2
      · exact colorMatchedList_sub dist colors avoid tops _ h2
      · exact h2
    have hb2 : b ∈ bottoms := by
      rcases List.mem_append.mp hb with h2 | h2
      · exact colorMatchedList_sub dist colors avoid bottoms _ h2
      · exact h2
    have ht3 := htops _ ht2
    have hb3 := hbots _ hb2
    rcases hshape with rfl | ⟨l, hl, rfl⟩
    · exact Or.inr (Or.inr (Or.inl ⟨by simp, t, b, ht3.1, hb3.1, ht3.2, hb3.2, rfl⟩))
    · have hl2 : l ∈ lys := by
        rcases List.mem_append.mp hl with h2 | h2
        · exact colorMatchedList_sub dist colors avoid lys _ h2
        · exact h2
      have hl3 := hlys _ hl2
      exact Or.inr (Or.inr (Or.inr (Or.inl
        ⟨by simp, t, b, l, ht3.1, hb3.1, hl3.1, ht3.2, hb3.2, hl3.2, rfl⟩)))
  unfold defaultPath at h
  dsimp only at h
  split at h
  · exact Except.noConfusion h
  · rename_i outfits1 used1 s1 heq1
    have houts1 : ∀ o ∈ outfits1, GoodOutfit pool o := by
      revert heq1
      split
      · intro heq1 o ho
        obtain ⟨op, hopmem, hshape⟩ :=
          femaleOnePieceStep_ok ln one_pieces _ lys _ s outfits1 used1 s1 heq1 o ho
        have hopool : op ∈ pool ∧ op.category ≠ "layer" := by
          rcases hopmem with h2 | h2
          · exact hop _ (colorMatchedList_sub dist colors avoid one_pieces _ h2)
          · exact hop _ h2
        rcases hshape with rfl | ⟨l, hl, rfl⟩
        · exact Or.inr (Or.inl ⟨by simp, op, hopool.1, rfl⟩)
        · have hl2 : l ∈ lys := by
            rcases hl with h2 | h2
            · exact colorMatchedList_sub dist colors avoid lys _ h2
            · exact h2
          have hl3 := hlys _ hl2
          exact Or.inr (Or.inr (Or.inr (Or.inr
            ⟨by simp, op, l, hopool.1, hl3.1, hopool.2, hl3.2, rfl⟩)))
      · intro heq1 o ho
        have hp := Except.ok.inj heq1
        have h1 : ([] : List Outfit) = outfits1 := congrArg Prod.fst hp
        rw [← h1] at ho
        exact absurd ho (by simp)
    split at h
    · exact Except.noConfusion h
    · rename_i outfits2 s2 heq2
      have houts2 : ∀ o ∈ outfits2, GoodOutfit pool o := by
        revert heq2
        split
        · intro heq2 o ho
          rcases layerCombosLoop_ok _ lys _ _ _ _ _ _ heq2 o ho with
            h1 | ⟨t, b, htb, hshape⟩
          · exact houts1 o h1
          · obtain ⟨ht1, hb1⟩ := mem_pairsOf _ _ _ (shuffleList_sub _ _ _ htb)
            have ht3 := htops _ ht1
            have hb3 := hbots _ hb1
            rcases hshape with rfl | ⟨l, hl, rfl⟩
            · exact Or.inr (Or.inr (Or.inl ⟨by simp, t, b, ht3.1, hb3.1, ht3.2, hb3.2, rfl⟩))
            · have hl2 : l ∈ lys := by
                rcases hl with h2 | h2
                · exact colorMatchedList_sub dist colors avoid lys _ h2
                · exact h2
              have hl3 := hlys _ hl2
              exact Or.inr (Or.inr (Or.inr (Or.inl
                ⟨by simp, t, b, l, ht3.1, hb3.1, hl3.1, ht3.2, hb3.2, hl3.2, rfl⟩)))
        · intro heq2 o ho
          have hp := Except.ok.inj heq2
          have h1 : outfits1 = outfits2 := congrArg Prod.fst hp
          rw [← h1] at ho
          exact houts1 o ho
      have hswimA : ∀ o ∈ (defaultSwimLoop (filterCategory its "swimwear" (some gender))
          outfits2 used1).1, GoodOutfit pool o := by
        intro o ho
        rcases defaultSwimLoop_mem _ _ _ o ho with h1 | ⟨sw, hsw, rfl⟩
        · exact houts2 o h1
        · have hswp := filterCategory_pure its "swimwear" (some gender) sw hsw
          exact Or.inr (Or.inl ⟨by simp, sw, hits sw hswp.1, rfl⟩)
      have hswimB : ∀ o ∈ (defaultSwimLoop
          (filtered.filter (fun i => i.category == "swimwear")) outfits2 used1).1,
          GoodOutfit pool o := by
        intro o ho
        rcases defaultSwimLoop_mem _ _ _ o ho with h1 | ⟨sw, hsw, rfl⟩
        · exact houts2 o h1
        · exact Or.inr (Or.inl ⟨by simp, sw, hfil sw (List.mem_of_mem_filter hsw), rfl⟩)
      split at h
      · exact Except.noConfusion h
      · rename_i combos1 s3 heq3
        have hcombos1 : ∀ o ∈ combos1, GoodOutfit pool o := fun o ho =>
          hTBgood2 o (makeTopBottomOutfits_ok _ _ _ _ _ _ _ _ _ heq3 o ho)
        split at h
        · exact Except.noConfusion h
        · rename_i outfits5 s5 heq4
          have houts5 : ∀ o ∈ outfits5, GoodOutfit pool o := by
            intro o ho
            rcases dpStep3_ok _ _ _ _ _ _ _ _ heq4 o ho with h1 | h1
            · rcases List.mem_append.mp h1 with h2 | h2
              · revert h2
                split
                · intro h2
                  exact hswimA o h2
                · split
                  · intro h2
                    exact hswimB o h2
                  · intro h2
                    exact houts2 o h2
              · exact hcombos1 o h2
            · exact hTBgood2 o h1
          split at h
          · exact Except.noConfusion h
          · rename_i outfits6 s6 heq5
            have houts6 : ∀ o ∈ outfits6, GoodOutfit pool o := by
              intro o ho
              rcases dpStep4_ok _ _ _ _ _ _ _ _ heq5 o ho with h1 | h1
              · exact houts5 o h1
              · exact hTBgood o h1
            split at h
            · exact Except.noConfusion h
            · rename_i outfits7 s8 heq6
              have houts7 : ∀ o ∈ outfits7, GoodOutfit pool o := by
                intro o ho
                rcases finalWhile_ok ln tops bottoms lys _ _ _ _ _ heq6 o ho with h1 | h1
                · exact houts6 o h1
                · exact hTBgood o h1
              revert h
              split
              · intro h
                have hr := Except.ok.inj h
                rw [← hr]
                intro o ho
                dsimp only at ho
                have ho2 := List.take_subset _ _ ho
                rcases postActive_good dist colors avoid style_tags tops bottoms outfits7
                    o ho2 with h1 | h1 | ⟨t, b, ht, hb, rfl⟩
                · exact houts7 o h1
                · rw [h1]
                  exact Or.inl ⟨rfl, rfl⟩
                · have ht3 := htops _ ht
                  have hb3 := hbots _ hb
                  exact Or.inr (Or.inr (Or.inl
                    ⟨by simp, t, b, ht3.1, hb3.1, ht3.2, hb3.2, rfl⟩))
              · intro h
                have hr := Except.ok.inj h
                rw [← hr]
                intro o ho
                dsimp only at ho
                exact houts7 o (List.take_subset _ _ ho)

theorem recommendCore_good (dist : Dist) (wardrobe : List Item) (prompt username : String)
    (profile : Profile) (hour month seed : Nat) (r : RecResult)
    (hok : recommendCore dist wardrobe prompt username profile hour month seed = .ok r) :
    ∀ o ∈ r.outfits, GoodOutfit (filterByProfile wardrobe profile) o := by
  have hits : ∀ i ∈ filterByProfile wardrobe profile, i ∈ filterByProfile wardrobe profile :=
    fun _ hi => hi
  have hfilS : ∀ (P : Item → Bool),
      ∀ i ∈ (filterByProfile wardrobe profile).filter P, i ∈ filterByProfile wardrobe profile :=
    fun _ _ hi => List.mem_of_mem_filter hi
  have hcat : ∀ (cat : String) (g : Option String),
      ∀ t ∈ filterCategory (filterByProfile wardrobe profile) cat g,
        t ∈ filterByProfile wardrobe profile ∧ t.category = cat :=
    fun cat g t ht => filterCategory_pure _ _ _ t ht
  have hNarrow : ∀ (st av : List String) (cat : String) (g : Option String),
      ∀ t ∈ narrowPool dist st av (filterCategory (filterByProfile wardrobe profile) cat g),
        t ∈ filterByProfile wardrobe profile ∧ t.category = cat :=
    fun st av cat g t ht => hcat cat g t (narrowPool_sub _ _ _ _ t ht)
  have hF1 : ∀ (occ st av : List String) (g : Option String),
      ∀ t ∈ (formalNarrow occ st
          (narrowPool dist st av
            (filterCategory (filterByProfile wardrobe profile) "topwear" g))
          (narrowPool dist st av
            (filterCategory (filterByProfile wardrobe profile) "bottomwear" g))).1,
        t ∈ filterByProfile wardrobe profile ∧ t.category = "topwear" :=
    fun occ st av g t ht =>
      hNarrow st av "topwear" g t ((formalNarrow_sub occ st _ _).1 t ht)
  have hF2 : ∀ (occ st av : List String) (g : Option String),
      ∀ b ∈ (formalNarrow occ st
          (narrowPool dist st av
            (filterCategory (filterByProfile wardrobe profile) "topwear" g))
          (narrowPool dist st av
            (filterCategory (filterByProfile wardrobe profile) "bottomwear" g))).2,
        b ∈ filterByProfile wardrobe profile ∧ b.category = "bottomwear" :=
    fun occ st av g b hb =>
      hNarrow st av "bottomwear" g b ((formalNarrow_sub occ st _ _).2 b hb)
  have hP1 : ∀ (occ st av : List String) (g : Option String),
      ∀ t ∈ (partyPools st
          (formalNarrow occ st
            (narrowPool dist st av
              (filterCategory (filterByProfile wardrobe profile) "topwear" g))
            (narrowPool dist st av
              (filterCategory (filterByProfile wardrobe profile) "bottomwear" g))).1
          (formalNarrow occ st
            (narrowPool dist st av
              (filterCategory (filterByProfile wardrobe profile) "topwear" g))
            (narrowPool dist st av
              (filterCategory (filterByProfile wardrobe profile) "bottomwear" g))).2
          (filterCategory (filterByProfile wardrobe profile) "topwear" g)
          (filterCategory (filterByProfile wardrobe profile) "bottomwear" g)).1,
        t ∈ filterByProfile wardrobe profile ∧ t.category = "topwear" := by
    intro occ st av g t ht
    rcases (partyPools_sub st _ _ _ _).1 t ht with h1 | h1
    · exact hF1 occ st av g t h1
    · exact hcat "topwear" g t h1
  have hP2 : ∀ (occ st av : List String) (g : Option String),
      ∀ b ∈ (partyPools st
          (formalNarrow occ st
            (narrowPool dist st av
              (filterCategory (filterByProfile wardrobe profile) "topwear" g))
            (narrowPool dist st av
              (filterCategory (filterByProfile wardrobe profile) "bottomwear" g))).1
          (formalNarrow occ st
            (narrowPool dist st av
              (filterCategory (filterByProfile wardrobe profile) "topwear" g))
            (narrowPool dist st av
              (filterCategory (filterByProfile wardrobe profile) "bottomwear" g))).2
          (filterCategory (filterByProfile wardrobe profile) "topwear" g)
          (filterCategory (filterByProfile wardrobe profile) "bottomwear" g)).2,
        b ∈ filterByProfile wardrobe profile ∧ b.category = "bottomwear" := by
    intro occ st av g b hb
    rcases (partyPools_sub st _ _ _ _).2 b hb with h1 | h1
    · exact hF2 occ st av g b h1
    · exact hcat "bottomwear" g b h1
  have hop : ∀ p ∈ (if (profile.gender == "female") = true then
      filterCategory (filterByProfile wardrobe profile) "one-piece" (some "female") ++
      filterCategory (filterByProfile wardrobe profile) "one_piece" (some "female")
    else ([] : List Item)),
      p ∈ filterByProfile wardrobe profile ∧ p.category ≠ "layer" := by
    intro p hp
    revert hp
    split
    · intro hp
      rcases List.mem_append.mp hp with h1 | h1
      · have h2 := filterCategory_pure _ _ _ p h1
        refine ⟨h2.1, ?_⟩
        rw [h2.2]
        decide
      · have h2 := filterCategory_pure _ _ _ p h1
        refine ⟨h2.1, ?_⟩
        rw [h2.2]
        decide
    · intro hp
      exact absurd hp (by simp)
  unfold recommendCore at hok
  dsimp only at hok
  split at hok
  · have hr := Except.ok.inj hok
    rw [← hr]
    intro o ho
    rcases swimBranch_mem _ _ _ _ _ _ _ o ho with h1 | ⟨sw, hsw, rfl⟩
    · rw [h1]
      exact Or.inl ⟨rfl, rfl⟩
    · have hswp := filterCategory_pure _ "swimwear" _ sw hsw
      exact Or.inr (Or.inl ⟨by simp, sw, hswp.1, rfl⟩)
  · split at hok
    · split at hok
      · exact Except.noConfusion hok
      · rename_i outs heqA
        have hr := Except.ok.inj hok
        rw [← hr]
        intro o ho
        dsimp only at ho
        obtain ⟨t, ht, b, hb, rfl⟩ := activeBranch_ok _ _ _ _ _ _ _ heqA o ho
        have ht2 := hNarrow _ _ "topwear" _ t ht
        have hb2 := hNarrow _ _ "bottomwear" _ b hb
        exact Or.inr (Or.inr (Or.inl ⟨by simp, t, b, ht2.1, hb2.1, ht2.2, hb2.2, rfl⟩))
    · split at hok
      · split at hok
        · exact partyColors_good (filterByProfile wardrobe profile) dist username _ _ _ _ _
            _ _ _ _ _ _ _ _ _ r hop (hP1 _ _ _ _) (hP2 _ _ _ _) (hcat "layer" _) (hcat "topwear" _)
            (hcat "bottomwear" _) hok
        · exact defaultPath_good (filterByProfile wardrobe profile) dist username _ _ _ _ _
            _ _ _ _ _ _ _ _ _ r hits hop (hP1 _ _ _ _) (hP2 _ _ _ _) (hcat "layer" _) (hfilS _) hok
      · exact defaultPath_good (filterByProfile wardrobe profile) dist username _ _ _ _ _
          _ _ _ _ _ _ _ _ _ r hits hop (hF1 _ _ _ _) (hF2 _ _ _ _) (hcat "layer" _) (hfilS _) hok

theorem filterByProfile_eligible (wardrobe : List Item) (profile : Profile) :
    ∀ i ∈ filterByProfile wardrobe profile,
      (i.age_group = "all" ∨ i.age_group = profile.age_group) ∧
      (i.gender = "unisex" ∨ i.gender = profile.gender) := by
  intro i hi
  unfold filterByProfile at hi
  have h2 := (List.mem_filter.mp hi).2
  unfold profileOk at h2
  simp only [Bool.and_eq_true, Bool.or_eq_true, beq_iff_eq] at h2
  exact h2

theorem goodOutfit_item_mem (pool : List Item) (o : Outfit) (hg : GoodOutfit pool o) :
    ∀ i ∈ o.items, i ∈ pool := by
  intro i hi
  rcases hg with ⟨h1, h2⟩ | ⟨h1, x, hx, h2⟩ | ⟨h1, t, b, ht, hb, hct, hcb, h2⟩ |
    ⟨h1, t, b, l, ht, hb, hl, hct, hcb, hcl, h2⟩ | ⟨h1, p, l, hp, hl, hcp, hcl, h2⟩
  · rw [h2] at hi
    exact absurd hi (by simp)
  · rw [h2] at hi
    have h3 : i = x := by simpa using hi
    rw [h3]
    exact hx
  · rw [h2] at hi
    rcases List.mem_cons.mp hi with rfl | h3
    · exact ht
    · have h4 : i = b := by simpa using h3
      rw [h4]
      exact hb
  · rw [h2] at hi
    rcases List.mem_cons.mp hi with rfl | h3
    · exact ht
    · rcases List.mem_cons.mp h3 with rfl | h4
      · exact hb
      · have h5 : i = l := by simpa using h4
        rw [h5]
        exact hl
  · rw [h2] at hi
    rcases List.mem_cons.mp hi with rfl | h3
    · exact hp
    · have h4 : i = l := by simpa using h3
      rw [h4]
      exact hl

theorem goodOutfit_sane (pool : List Item)
    (hpw : pool.Pairwise (fun a b => a.name ≠ b.name)) (o : Outfit)
    (hg : GoodOutfit pool o) : OutfitSane o := by
  have hne : ∀ x y : Item, x ∈ pool → y ∈ pool → x.category ≠ y.category →
      x.name ≠ y.name := by
    intro x y hx hy hcat hn
    exact hcat (congrArg Item.category (name_inj pool hpw x hx y hy hn))
  rcases hg with ⟨h1, h2⟩ | ⟨h1, x, hx, h2⟩ | ⟨h1, t, b, ht, hb, hct, hcb, h2⟩ |
    ⟨h1, t, b, l, ht, hb, hl, hct, hcb, hcl, h2⟩ | ⟨h1, p, l, hp, hl, hcp, hcl, h2⟩
  · refine ⟨fun _ => h2, fun hno => absurd h1 hno, ?_⟩
    rw [h2]
    exact List.Pairwise.nil
  · refine ⟨fun hn => absurd hn h1, fun _ => ?_, ?_⟩
    · rw [h2]
      exact ⟨by simp, by simp⟩
    · rw [h2]
      exact List.pairwise_singleton _ _
  · have hTB : t.name ≠ b.name := hne t b ht hb (by rw [hct, hcb]; decide)
    refine ⟨fun hn => absurd hn h1, fun _ => ?_, ?_⟩
    · rw [h2]
      exact ⟨by simp, by simp⟩
    · rw [h2]
      refine List.Pairwise.cons ?_ (List.pairwise_singleton _ _)
      intro y hy
      rw [List.mem_singleton.mp hy]
      exact hTB
  · have hTB : t.name ≠ b.name := hne t b ht hb (by rw [hct, hcb]; decide)
    have hTL : t.name ≠ l.name := hne t l ht hl (by rw [hct, hcl]; decide)
    have hBL : b.name ≠ l.name := hne b l hb hl (by rw [hcb, hcl]; decide)
    refine ⟨fun hn => absurd hn h1, fun _ => ?_, ?_⟩
    · rw [h2]
      exact ⟨by simp, by simp⟩
    · rw [h2]
      refine List.Pairwise.cons ?_ (List.Pairwise.cons ?_ (List.pairwise_singleton _ _))
      · intro y hy
        rcases List.mem_cons.mp hy with rfl | hy2
        · exact hTB
        · rw [List.mem_singleton.mp hy2]
          exact hTL
      · intro y hy
        rw [List.mem_singleton.mp hy]
        exact hBL
  · have hPL : p.name ≠ l.name := hne p l hp hl (by rw [hcl]; exact hcp)
    refine ⟨fun hn => absurd hn h1, fun _ => ?_, ?_⟩
    · rw [h2]
      exact ⟨by simp, by simp⟩
    · rw [h2]
      refine List.Pairwise.cons ?_ (List.pairwise_singleton _ _)
      intro y hy
      rw [List.mem_singleton.mp hy]
      exact hPL

/-- C5: for every successful call of the engine by a registered user,
every item of every returned outfit is profile-eligible: its age group
is `all` or the profile age group, and its gender is `unisex` or the
profile gender; every composition path draws from the profile-filtered
catalog. -/
theorem returned_items_profile_eligible (dist : Dist) (db : UserDB) (wardrobe : List Item)
    (prompt username : String) (hour month seed : Nat) (entry : String × UserRec)
    (r : RecResult)
    (hfind : db.find? (fun e => e.1 == username) = some entry)
    (hok : recommendOutfits dist db wardrobe prompt username hour month seed = .ok r) :
    EligibleOutfits entry.2.preferences r := by
  unfold recommendOutfits at hok
  simp only [hfind] at hok
  intro o ho i hi
  have hg := recommendCore_good dist wardrobe prompt username entry.2.preferences
    hour month seed r hok o ho
  exact filterByProfile_eligible wardrobe entry.2.preferences i
    (goodOutfit_item_mem _ o hg i hi)

/-- Closed witness for C5: the demo interview run for the registered
adult male user returns only profile-eligible items. -/
theorem returned_items_profile_eligible_witness :
    demoDB.find? (fun e => e.1 == "u") = some ("u", ⟨"hash", demoProfile⟩) ∧
    demoRun = Except.ok demoRunResult ∧
    EligibleOutfits demoProfile demoRunResult :=
  ⟨rfl, rfl, returned_items_profile_eligible distRefl demoDB demoCatFormal "interview" "u"
    10 6 0 ("u", ⟨"hash", demoProfile⟩) demoRunResult rfl rfl⟩

/-- C6: when catalog item names are unique, every returned outfit is a
`none` placeholder or carries 1 to 3 items, and no two items of one
outfit share a name (each composition site combines items of distinct
categories, and distinct categories force distinct names in a
unique-name catalog). -/
theorem outfit_items_distinct_names (dist : Dist) (db : UserDB) (wardrobe : List Item)
    (prompt username : String) (hour month seed : Nat) (entry : String × UserRec)
    (r : RecResult)
    (hfind : db.find? (fun e => e.1 == username) = some entry)
    (hpw : wardrobe.Pairwise (fun a b => a.name ≠ b.name))
    (hok : recommendOutfits dist db wardrobe prompt username hour month seed = .ok r) :
    SaneOutfits r := by
  unfold recommendOutfits at hok
  simp only [hfind] at hok
  have hpoolpw : (filterByProfile wardrobe entry.2.preferences).Pairwise
      (fun a b => a.name ≠ b.name) := by
    unfold filterByProfile
    exact hpw.filter _
  intro o ho
  exact goodOutfit_sane _ hpoolpw o
    (recommendCore_good dist wardrobe prompt username entry.2.preferences
      hour month seed r hok o ho)

/-- Closed witness for C6 on the unique-name demo catalog. -/
theorem outfit_items_distinct_names_witness :
    demoDB.find? (fun e => e.1 == "u") = some ("u", ⟨"hash", demoProfile⟩) ∧
    demoCatFormal.Pairwise (fun a b => a.name ≠ b.name) ∧
    demoRun = Except.ok demoRunResult ∧
    SaneOutfits demoRunResult :=
  ⟨rfl, by decide, rfl, outfit_items_distinct_names distRefl demoDB demoCatFormal
    "interview" "u" 10 6 0 ("u", ⟨"hash", demoProfile⟩) demoRunResult rfl (by decide) rfl⟩

end OutfitRec
